import Mathlib

/-!
HAL daemon: callout queue, child reaper and property-update batcher.

A shallow embedding of `hald/callout.c` (the callout queue and the SIGCHLD
reaper) and of the atomic property-update code of `hald/hald_dbus.c`.

Global C variables become fields of an explicit state record.  Calls into the
operating system and into glib (`g_spawn_async`, `waitpid`, `pipe`, the
directory scan, `dbus_connection_send`) are answered by explicit parameters, so
that every behaviour of the environment is covered by universally quantifying
over them.  Observable effects (children spawned, values returned by `waitpid`,
completion signals, messages sent) are appended to a log.  A procedure that
can end in `DIE` or in a NULL dereference returns an `Outcome`.

`hal_device_callouts_finished` belongs to the device object, not to callout.c:
a call of it is recorded in the log and its body is not entered.  Loops whose
length is not the length of a list they walk carry an explicit bound; the
section on loop bounds shows that the bound used is never reached.
-/

namespace Hal

/-! ## Outcomes of C procedures -/

/-- Result of running a C procedure: it returns normally, or the daemon exits
through `DIE`, or it dereferences a NULL pointer (undefined behaviour). -/
inductive Outcome (α : Type) where
  | ok (a : α)
  | die
  | segv
  deriving DecidableEq, Repr

/-- Sequencing of procedures: an abnormal outcome stops the run. -/
def Outcome.bind {α β : Type} (x : Outcome α) (f : α → Outcome β) : Outcome β :=
  match x with
  | .ok a => f a
  | .die => .die
  | .segv => .segv

/-- The state an outcome carries, or `d` for an abnormal outcome. -/
def Outcome.getD {α : Type} (x : Outcome α) (d : α) : α :=
  match x with
  | .ok a => a
  | _ => d

/-- The procedure returns normally and its result satisfies `P`. -/
def Outcome.returns {α : Type} (x : Outcome α) (P : α → Prop) : Prop :=
  match x with
  | .ok a => P a
  | .die => False
  | .segv => False

/-- Whether a procedure returns normally with a result satisfying a decidable
`P` can be computed. -/
instance Outcome.decidableReturns {α : Type} (x : Outcome α) (P : α → Prop)
    [DecidablePred P] : Decidable (x.returns P) :=
  match x with
  | .ok a => inferInstanceAs (Decidable (P a))
  | .die => inferInstanceAs (Decidable False)
  | .segv => inferInstanceAs (Decidable False)

/-! ## callout.c : data model -/

/-- A `HalDevice *` that is not NULL, as a function receives or stores it: the
address of the object, which is what a comparison of two pointers compares,
and what the object holds when the pointer is received, its udi and its
properties, each with the string rendering `hal_property_to_string` gives. -/
structure HalDevice where
  addr : Nat
  udi : String
  properties : List (String × String)
  deriving DecidableEq, Repr

/-- The anonymous enum `CALLOUT_ADD`, `CALLOUT_REMOVE`, `CALLOUT_MODIFY`. -/
inductive CalloutAction where
  | CALLOUT_ADD
  | CALLOUT_REMOVE
  | CALLOUT_MODIFY
  deriving DecidableEq, Repr

/-- The C struct `Callout`.  `envp` holds the `envp_index` strings written so
far; `pid` is 0 after `g_new0` until `g_spawn_async` stores the child pid. -/
structure Callout where
  working_dir : String
  filename : String
  action : CalloutAction
  device : HalDevice
  envp : List String
  envp_index : Nat
  pid : Int
  last_of_device : Bool
  deriving DecidableEq, Repr

/-- Observable effects of callout.c, in the order they happen. -/
inductive Event where
  /-- The callout was appended by `add_pending_callout`. -/
  | enqueued (c : Callout)
  /-- A call of `g_spawn_async` returned TRUE and stored `pid`. -/
  | spawned (c : Callout) (argv : List String) (pid : Int)
  /-- A call of `g_spawn_async` returned FALSE. -/
  | spawn_failed (c : Callout) (argv : List String)
  /-- The value returned by one call of `waitpid (-1, NULL, WNOHANG)`. -/
  | waitpid (ret : Int)
  /-- A call of `hal_device_callouts_finished (device)`. -/
  | callouts_finished (device : HalDevice)
  /-- The active callout was freed after its child was reaped. -/
  | released (c : Callout)
  deriving DecidableEq, Repr

/-- The file-scope variables of callout.c, a counter of the `g_spawn_async`
calls made so far, and the log of observable effects. -/
structure CalloutState where
  pending_callouts : List Callout
  active_callout : Option Callout
  have_installed_sigchild_handler : Bool
  spawn_count : Nat
  log : List Event
  deriving DecidableEq, Repr

/-- The environment of callout.c: whether `pipe` and `g_io_channel_unix_new`
succeed, and what the n-th call of `g_spawn_async` answers (`none` for FALSE,
`some pid` for TRUE with the child pid). -/
structure CalloutEnv where
  pipe_ok : Bool
  iochn_ok : Bool
  g_spawn_async : Nat → Option Int

/-- One name returned by `g_dir_read_name`, with the answer of
`g_file_test (full_filename, G_FILE_TEST_IS_EXECUTABLE)` for it. -/
structure DirEntry where
  filename : String
  is_executable : Bool
  deriving DecidableEq, Repr

/-- A callout directory as the scan sees it: the answer of
`g_file_test (dir, G_FILE_TEST_EXISTS)` and the result of `g_dir_open`
(`none` for NULL, otherwise the names in enumeration order). -/
structure CalloutDir where
  dir_exists : Bool
  dir_open : Option (List DirEntry)
  deriving DecidableEq, Repr

/-- The state at daemon start: no pending callout, no active callout, handler
not installed. -/
def CalloutState.init : CalloutState :=
  { pending_callouts := [], active_callout := none,
    have_installed_sigchild_handler := false, spawn_count := 0, log := [] }

/-- Append one observable effect to the log. -/
def CalloutState.emit (s : CalloutState) (e : Event) : CalloutState :=
  { s with log := s.log ++ [e] }

/-! ## callout.c : the pending queue -/

/-- The glib call `g_slist_remove (list, data)`: removes the first node whose
data is `data`. -/
def g_slist_remove (l : List Callout) (data : Callout) : List Callout :=
  l.erase data

/-- The glib call `g_slist_append (list, data)`. -/
def g_slist_append (l : List Callout) (data : Callout) : List Callout :=
  l ++ [data]

/-- The C function `add_pending_callout`. -/
def add_pending_callout (s : CalloutState) (callout : Callout) : CalloutState :=
  ({ s with pending_callouts := g_slist_append s.pending_callouts callout }).emit
    (.enqueued callout)

/-- The C function `pop_pending_callout`: NULL on an empty list, otherwise the
data of the head node, which is then removed with `g_slist_remove`. -/
def pop_pending_callout (s : CalloutState) : Option Callout × CalloutState :=
  match s.pending_callouts with
  | [] => (none, s)
  | callout :: _ =>
    (some callout,
      { s with pending_callouts := g_slist_remove s.pending_callouts callout })

/-! ## callout.c : building the environment -/

/-- The loop of `add_property_to_env` replacing every period by an underscore. -/
def replace_periods (s : String) : String :=
  String.mk (s.data.map (fun c => if c = '.' then '_' else c))

/-- The glib call `g_ascii_strup (str, -1)`. -/
def g_ascii_strup (s : String) : String :=
  String.mk (s.data.map Char.toUpper)

/-- The string `add_property_to_env` stores for one property:
`HAL_PROP_` followed by the upper-cased key with periods replaced, `=` and the
value. -/
def hal_prop_env (key value : String) : String :=
  "HAL_PROP_" ++ replace_periods (g_ascii_strup key) ++ "=" ++ value

/-- The C function `add_property_to_env`: one more environment string, and
`envp_index` incremented. -/
def add_property_to_env (callout : Callout) (property : String × String) : Callout :=
  { callout with
    envp := callout.envp ++ [hal_prop_env property.1 property.2]
    envp_index := callout.envp_index + 1 }

/-- The call `hal_device_property_foreach (device, add_property_to_env, callout)`,
on the properties recorded with the callout's device pointer, that is for a
device that has not changed since the callout was queued; `complete_envp` is
the same call, with the write bounds, for the device as it is when the callout
is run. -/
def hal_device_property_foreach (callout : Callout) : Callout :=
  callout.device.properties.foldl add_property_to_env callout

/-- The `switch (callout->action)` choosing `argv[1]`. -/
def action_arg (a : CalloutAction) : String :=
  match a with
  | .CALLOUT_ADD => "add"
  | .CALLOUT_REMOVE => "remove"
  | .CALLOUT_MODIFY => "modify"

/-! ## callout.c : process_next_callout -/

/-- The first block of `process_next_callout`: on first use create the pipe and
the channel (either failure is `DIE`) and install the SIGCHLD handler. -/
def install_sigchild_handler (env : CalloutEnv) (s : CalloutState) :
    Outcome CalloutState :=
  if s.have_installed_sigchild_handler then .ok s
  else if !env.pipe_ok then .die
  else if !env.iochn_ok then .die
  else .ok { s with have_installed_sigchild_handler := true }

/-- The code of `process_next_callout` from the label `next_callout` on:
return if a callout is active or none is pending; otherwise make the popped
callout active, complete its environment and spawn it; when the spawn fails
clear the active slot and jump back to the label.  The first argument bounds
the number of passes through the label. -/
def next_callout (env : CalloutEnv) : Nat → CalloutState → CalloutState
  | 0, s => s
  | fuel + 1, s =>
    if s.active_callout.isSome then s
    else
      match pop_pending_callout s with
      | (none, s1) => s1
      | (some callout, s1) =>
        let argv := [callout.filename, action_arg callout.action]
        let callout1 := hal_device_property_foreach callout
        match env.g_spawn_async s1.spawn_count with
        | none =>
          next_callout env fuel
            ({ s1 with active_callout := none, spawn_count := s1.spawn_count + 1 }.emit
              (.spawn_failed callout1 argv))
        | some pid =>
          let callout2 := { callout1 with pid := pid }
          { s1 with active_callout := some callout2,
                    spawn_count := s1.spawn_count + 1 }.emit
            (.spawned callout2 argv pid)

/-- The C function `process_next_callout`.  Every pass through the label
`next_callout` that jumps back has popped one callout, so one pass more than
there are pending callouts is all the loop can make. -/
def process_next_callout (env : CalloutEnv) (s : CalloutState) : Outcome CalloutState :=
  (install_sigchild_handler env s).bind
    (fun s1 => .ok (next_callout env (s1.pending_callouts.length + 1) s1))

/-! ## callout.c : the three notification entry points -/

/-- The compile-time constant `PACKAGE_SYSCONF_DIR` and the daemon flags
`hald_is_verbose`, `hald_is_initialising`, `hald_is_shutting_down`. -/
structure HaldGlobals where
  PACKAGE_SYSCONF_DIR : String
  hald_is_verbose : Bool
  hald_is_initialising : Bool
  hald_is_shutting_down : Bool
  deriving DecidableEq, Repr

/-- The macro `DEVICE_CALLOUT_DIR`. -/
def DEVICE_CALLOUT_DIR (g : HaldGlobals) : String :=
  g.PACKAGE_SYSCONF_DIR ++ "/hal/device.d"

/-- The macro `CAPABILITY_CALLOUT_DIR`. -/
def CAPABILITY_CALLOUT_DIR (g : HaldGlobals) : String :=
  g.PACKAGE_SYSCONF_DIR ++ "/hal/capability.d"

/-- The macro `PROPERTY_CALLOUT_DIR`. -/
def PROPERTY_CALLOUT_DIR (g : HaldGlobals) : String :=
  g.PACKAGE_SYSCONF_DIR ++ "/hal/property.d"

/-- The glib call `g_str_has_suffix (str, suffix)`. -/
def g_str_has_suffix (str suffix : String) : Bool :=
  suffix.data.isSuffixOf str.data

/-- The number of daemon flags that are set: what the three `envp_index++`
statements add. -/
def flag_count (g : HaldGlobals) : Nat :=
  (if g.hald_is_verbose then 1 else 0) + (if g.hald_is_initialising then 1 else 0)
    + (if g.hald_is_shutting_down then 1 else 0)

/-- The strings written by the three `if (flag) callout->envp[i++] = ...`
statements, in order. -/
def flag_env (g : HaldGlobals) : List String :=
  (if g.hald_is_verbose then ["HALD_VERBOSE=1"] else [])
    ++ (if g.hald_is_initialising then ["HALD_STARTUP=1"] else [])
    ++ (if g.hald_is_shutting_down then ["HALD_SHUTDOWN=1"] else [])

/-- The callout built in the loop body of `hal_callout_device`. -/
def device_callout (g : HaldGlobals) (device : HalDevice) (added : Bool)
    (filename : String) : Callout :=
  { working_dir := DEVICE_CALLOUT_DIR g
    filename := filename
    action := if added then .CALLOUT_ADD else .CALLOUT_REMOVE
    device := device
    envp := ["UDI=" ++ device.udi] ++ flag_env g
    envp_index := 1 + flag_count g
    pid := 0
    last_of_device := false }

/-- The callout built in the loop body of `hal_callout_capability`. -/
def capability_callout (g : HaldGlobals) (device : HalDevice) (capability : String)
    (added : Bool) (filename : String) : Callout :=
  { working_dir := CAPABILITY_CALLOUT_DIR g
    filename := filename
    action := if added then .CALLOUT_ADD else .CALLOUT_REMOVE
    device := device
    envp := ["UDI=" ++ device.udi, "CAPABILITY=" ++ capability] ++ flag_env g
    envp_index := 2 + flag_count g
    pid := 0
    last_of_device := false }

/-- The call `hal_device_property_to_string (device, key)`, printed with `%s`
(a NULL result prints as `(null)`). -/
def hal_device_property_to_string (device : HalDevice) (key : String) : String :=
  (device.properties.lookup key).getD "(null)"

/-- The callout built in the loop body of `hal_callout_property`. -/
def property_callout (g : HaldGlobals) (device : HalDevice) (key : String)
    (filename : String) : Callout :=
  { working_dir := PROPERTY_CALLOUT_DIR g
    filename := filename
    action := .CALLOUT_MODIFY
    device := device
    envp := ["UDI=" ++ device.udi, "PROPERTY=" ++ key,
             "VALUE=" ++ hal_device_property_to_string device key] ++ flag_env g
    envp_index := 3 + flag_count g
    pid := 0
    last_of_device := false }

/-- The local variables of the directory loop that survive an iteration: the
queue state, the pointer `callout` (the callout built last, or NULL) and, in
`hal_callout_device`, `any_callouts`. -/
structure ScanState where
  st : CalloutState
  callout : Option Callout
  any_callouts : Bool
  deriving DecidableEq, Repr

/-- One iteration of `while ((filename = g_dir_read_name (dir)) != NULL)`:
skip names without the suffix `.hal`, skip files that are not executable,
otherwise build the callout and append it to the pending queue. -/
def scan_step (mk : String → Callout) (acc : ScanState) (e : DirEntry) : ScanState :=
  if !g_str_has_suffix e.filename ".hal" then acc
  else if !e.is_executable then acc
  else
    { st := add_pending_callout acc.st (mk e.filename)
      callout := some (mk e.filename)
      any_callouts := true }

/-- The whole directory loop, starting with `callout = NULL`. -/
def scan_callout_dir (mk : String → Callout) (entries : List DirEntry)
    (s : CalloutState) : ScanState :=
  entries.foldl (scan_step mk) { st := s, callout := none, any_callouts := false }

/-- Set `last_of_device` in the last node of a list. -/
def mark_last : List Callout → List Callout
  | [] => []
  | [c] => [{ c with last_of_device := true }]
  | c :: d :: rest => c :: mark_last (d :: rest)

/-- The statement `if (callout != NULL) callout->last_of_device = TRUE;` after
the loop.  The pointer `callout` is the node appended last, so the write lands
in the last node of the pending queue. -/
def set_last_of_device (r : ScanState) : CalloutState :=
  match r.callout with
  | none => r.st
  | some _ => { r.st with pending_callouts := mark_last r.st.pending_callouts }

/-- The C function `hal_callout_device`. -/
def hal_callout_device (g : HaldGlobals) (env : CalloutEnv) (dir : CalloutDir)
    (device : HalDevice) (added : Bool) (s : CalloutState) : Outcome CalloutState :=
  if !dir.dir_exists then .ok (s.emit (.callouts_finished device))
  else
    match dir.dir_open with
    | none => .ok (s.emit (.callouts_finished device))
    | some entries =>
      let r := scan_callout_dir (device_callout g device added) entries s
      let s1 := set_last_of_device r
      (if r.any_callouts then process_next_callout env s1 else .ok s1).bind
        (fun s2 =>
          .ok (if !r.any_callouts then s2.emit (.callouts_finished device) else s2))

/-- The C function `hal_callout_capability`. -/
def hal_callout_capability (g : HaldGlobals) (env : CalloutEnv) (dir : CalloutDir)
    (device : HalDevice) (capability : String) (added : Bool) (s : CalloutState) :
    Outcome CalloutState :=
  if !dir.dir_exists then .ok s
  else
    match dir.dir_open with
    | none => .ok s
    | some entries =>
      let r := scan_callout_dir (capability_callout g device capability added) entries s
      process_next_callout env (set_last_of_device r)

/-- The C function `hal_callout_property`. -/
def hal_callout_property (g : HaldGlobals) (env : CalloutEnv) (dir : CalloutDir)
    (device : HalDevice) (key : String) (s : CalloutState) : Outcome CalloutState :=
  if !dir.dir_exists then .ok s
  else
    match dir.dir_open with
    | none => .ok s
    | some entries =>
      let r := scan_callout_dir (property_callout g device key) entries s
      process_next_callout env (set_last_of_device r)

/-! ## callout.c : the reaper -/

/-- The statements of the reap loop that follow a matching pid, up to
`active_callout = NULL`: call `hal_device_callouts_finished` if the callout is
the last of its device, free the callout and clear the active slot. -/
def reap_active (s : CalloutState) (active : Callout) : CalloutState :=
  let s1 := if active.last_of_device then
              s.emit (.callouts_finished active.device) else s
  { s1 with active_callout := none }.emit (.released active)

/-- The loop `while (TRUE)` of `iochn_data`.  The list holds the values the
coming calls of `waitpid (-1, NULL, WNOHANG)` return; once it is used up
`waitpid` returns 0 (no child is ready).  The loop ends on 0 and on -1; it ends
on a pid that differs from the active callout's; reading `active_callout->pid`
with no active callout dereferences NULL. -/
def reap_loop (env : CalloutEnv) : List Int → CalloutState → Outcome CalloutState
  | [], s => .ok (s.emit (.waitpid 0))
  | child_pid :: rest, s =>
    let s1 := s.emit (.waitpid child_pid)
    if child_pid = 0 then .ok s1
    else if child_pid = -1 then .ok s1
    else
      match s1.active_callout with
      | none => .segv
      | some active =>
        if active.pid ≠ child_pid then .ok s1
        else (process_next_callout env (reap_active s1 active)).bind (reap_loop env rest)

/-- The C function `iochn_data`: read one byte from the pipe (on a read error
return at once), then run the reap loop. -/
def iochn_data (env : CalloutEnv) (read_ok : Bool) (waits : List Int)
    (s : CalloutState) : Outcome CalloutState :=
  if !read_ok then .ok s else reap_loop env waits s

/-! ## callout.c : runs of the event loop -/

/-- One piece of event-loop work that enters callout.c. -/
inductive CalloutOp where
  | device (g : HaldGlobals) (dir : CalloutDir) (device : HalDevice) (added : Bool)
  | capability (g : HaldGlobals) (dir : CalloutDir) (device : HalDevice)
      (capability : String) (added : Bool)
  | property (g : HaldGlobals) (dir : CalloutDir) (device : HalDevice) (key : String)
  | sigchld (read_ok : Bool) (waits : List Int)
  deriving DecidableEq, Repr

/-- Run one piece of work. -/
def CalloutOp.step (env : CalloutEnv) (op : CalloutOp) (s : CalloutState) :
    Outcome CalloutState :=
  match op with
  | .device g dir d added => hal_callout_device g env dir d added s
  | .capability g dir d cap added => hal_callout_capability g env dir d cap added s
  | .property g dir d key => hal_callout_property g env dir d key s
  | .sigchld read_ok waits => iochn_data env read_ok waits s

/-- Run a sequence of pieces of work, stopping at the first abnormal outcome. -/
def run_callout_ops (env : CalloutEnv) : List CalloutOp → CalloutState → Outcome CalloutState
  | [], s => .ok s
  | op :: ops, s => (op.step env s).bind (run_callout_ops env ops)

/-! ## hald_dbus.c : atomic property updates -/

/-- One argument of a D-BUS message: a value of one of the basic types the
daemon reads or writes, an array of strings, or a value of any other type. -/
inductive DBusArg where
  | int32 (v : Int)
  | string (v : String)
  | boolean (v : Bool)
  | uint32 (v : Nat)
  | int64 (v : Int)
  | strings (v : List String)
  | other
  deriving DecidableEq, Repr

/-- A signal built by `dbus_message_new_signal (path, interface, name)` with the
arguments appended to it, in order. -/
structure DBusMessage where
  path : String
  interface : String
  name : String
  args : List DBusArg
  deriving DecidableEq, Repr

/-- The C struct `PendingUpdate` without its `next` pointer (the list order
stands for it).  `udi` is `none` once the flush has set it to NULL. -/
structure PendingUpdate where
  udi : Option String
  key : String
  removed : Bool
  added : Bool
  deriving DecidableEq, Repr

/-- The file-scope variables `atomic_count`, `num_pending_updates` and
`pending_updates_head` (head node first), and the messages handed to
`dbus_connection_send` so far, in order.  The two counters are mathematical
integers: a wrap of `int` would need 2^31 open regions or queued updates. -/
structure DbusState where
  atomic_count : Int
  num_pending_updates : Int
  pending_updates_head : List PendingUpdate
  sent : List DBusMessage
  deriving DecidableEq, Repr

/-- The environment of the update code: whether the n-th call of
`dbus_connection_send` succeeds. -/
structure DbusEnv where
  dbus_connection_send : Nat → Bool

/-- The state at daemon start. -/
def DbusState.init : DbusState :=
  { atomic_count := 0, num_pending_updates := 0, pending_updates_head := [], sent := [] }

/-- The statements `if (!dbus_connection_send (...)) DIE (...)`. -/
def send_or_die (env : DbusEnv) (st : DbusState) (message : DBusMessage) :
    Outcome DbusState :=
  if env.dbus_connection_send st.sent.length then
    .ok { st with sent := st.sent ++ [message] }
  else .die

/-- The signal `PropertyModified` of interface `org.freedesktop.Hal.Device` on
the object `udi`. -/
def property_modified_signal (udi : String) (args : List DBusArg) : DBusMessage :=
  { path := udi, interface := "org.freedesktop.Hal.Device", name := "PropertyModified",
    args := args }

/-- The C function `device_property_atomic_update_begin`. -/
def device_property_atomic_update_begin (st : DbusState) : DbusState :=
  { st with atomic_count := st.atomic_count + 1 }

/-- The first inner loop of the flush, counting the updates of one device from
`pu_iter` on.  `strcmp` reads `pu_iter2->udi`, so a NULL there is a NULL
dereference. -/
def count_updates (udi : String) : List PendingUpdate → Int → Outcome Int
  | [], num_updates_this => .ok num_updates_this
  | pu_iter2 :: rest, num_updates_this =>
    match pu_iter2.udi with
    | none => .segv
    | some udi2 =>
      count_updates udi rest (if udi2 = udi then num_updates_this + 1 else num_updates_this)

/-- The second inner loop of the flush: for each update of the device append
key, removed flag and added flag, and clear the udi of every such node other
than `pu_iter` itself (`first` tells that the node at hand is `pu_iter`).
Returns the arguments and the nodes as they are left. -/
def append_updates (udi : String) :
    Bool → List PendingUpdate → List DBusArg → Outcome (List DBusArg × List PendingUpdate)
  | _, [], args => .ok (args, [])
  | first, pu_iter2 :: rest, args =>
    match pu_iter2.udi with
    | none => .segv
    | some udi2 =>
      if udi2 = udi then
        (append_updates udi false rest
            (args ++ [.string pu_iter2.key, .boolean pu_iter2.removed,
                      .boolean pu_iter2.added])).bind
          (fun r => .ok (r.1, (if first then pu_iter2 else { pu_iter2 with udi := none }) :: r.2))
      else
        (append_updates udi false rest args).bind (fun r => .ok (r.1, pu_iter2 :: r.2))

/-- The outer loop of the flush over the nodes from `pu_iter` on: a node whose
udi is NULL is only freed; for any other node count the updates of its device,
build the message, send it, and free the node.  The first argument bounds the
number of iterations. -/
def flush_updates (env : DbusEnv) : Nat → List PendingUpdate → DbusState → Outcome DbusState
  | _, [], st => .ok st
  | 0, _ :: _, st => .ok st
  | fuel + 1, pu_iter :: rest, st =>
    match pu_iter.udi with
    | none => flush_updates env fuel rest st
    | some udi =>
      (count_updates udi (pu_iter :: rest) 0).bind (fun num_updates_this =>
        (append_updates udi true (pu_iter :: rest) [.int32 num_updates_this]).bind (fun r =>
          (send_or_die env st (property_modified_signal udi r.1)).bind (fun st1 =>
            flush_updates env fuel r.2.tail st1)))

/-- The C function `device_property_atomic_update_end`.  The outer loop visits
each node of the pending list once, so its bound is the length of the list. -/
def device_property_atomic_update_end (env : DbusEnv) (st : DbusState) :
    Outcome DbusState :=
  let count := st.atomic_count - 1
  let count := if count < 0 then 0 else count
  let st1 := { st with atomic_count := count }
  if count = 0 ∧ st1.num_pending_updates > 0 then
    (flush_updates env st1.pending_updates_head.length st1.pending_updates_head st1).bind
      (fun st2 => .ok { st2 with num_pending_updates := 0, pending_updates_head := [] })
  else .ok st1

/-- The C function `device_send_signal_property_modified`. -/
def device_send_signal_property_modified (env : DbusEnv) (device : HalDevice)
    (key : String) (added removed : Bool) (st : DbusState) : Outcome DbusState :=
  let udi := device.udi
  if st.atomic_count > 0 then
    .ok { st with
          pending_updates_head :=
            { udi := some udi, key := key, removed := removed, added := added }
              :: st.pending_updates_head
          num_pending_updates := st.num_pending_updates + 1 }
  else
    send_or_die env st
      (property_modified_signal udi [.int32 1, .string key, .boolean removed, .boolean added])

/-! ## hald_dbus.c : batching regions -/

/-- The arguments of one call of `device_send_signal_property_modified`. -/
structure Change where
  device : HalDevice
  key : String
  added : Bool
  removed : Bool
  deriving DecidableEq, Repr

/-- The calls of `device_send_signal_property_modified` for a list of changes,
in order. -/
def record_changes (env : DbusEnv) : List Change → DbusState → Outcome DbusState
  | [], st => .ok st
  | c :: rest, st =>
    (device_send_signal_property_modified env c.device c.key c.added c.removed st).bind
      (record_changes env rest)

/-- One batching region: `device_property_atomic_update_begin ()`, the recorded
changes, `device_property_atomic_update_end ()`. -/
def atomic_region (env : DbusEnv) (changes : List Change) (st : DbusState) :
    Outcome DbusState :=
  (record_changes env changes (device_property_atomic_update_begin st)).bind
    (device_property_atomic_update_end env)

/-- The node `device_send_signal_property_modified` queues for a change. -/
def Change.pending (c : Change) : PendingUpdate :=
  { udi := some c.device.udi, key := c.key, removed := c.removed, added := c.added }

/-- The per-update arguments of a notification: key, removed flag, added flag
for each update, in list order. -/
def update_args : List PendingUpdate → List DBusArg
  | [] => []
  | pu :: rest => [.string pu.key, .boolean pu.removed, .boolean pu.added] ++ update_args rest

/-- The keys carried by a notification, in the order of its arguments. -/
def message_keys (m : DBusMessage) : List String :=
  m.args.filterMap (fun a =>
    match a with
    | .string k => some k
    | _ => none)

/-! ## hald_dbus.c : batches given by runs, sequences of calls -/

/-- Hand a list of messages to `dbus_connection_send`, in order; a refused send
is `DIE`. -/
def send_all (env : DbusEnv) : List DBusMessage → DbusState → Outcome DbusState
  | [], st => .ok st
  | m :: ms, st => (send_or_die env st m).bind (send_all env ms)

/-- The udi of the device of the first change of a run. -/
def run_udi (r : List Change) : String :=
  match r with
  | [] => ""
  | c :: _ => c.device.udi

/-- A run: one or more changes, all of the same device. -/
def is_run (r : List Change) : Prop :=
  r ≠ [] ∧ ∀ c ∈ r, c.device.udi = run_udi r

/-- A batch given by its runs: each device's changes are recorded one after the
other, so every run is of another device. -/
def grouped (runs : List (List Change)) : Prop :=
  (∀ r ∈ runs, is_run r) ∧ (runs.map run_udi).Nodup

/-- The changes of a batch given by its runs, in recording order. -/
def concat_runs : List (List Change) → List Change
  | [] => []
  | r :: rs => r ++ concat_runs rs

/-- The notification for one run: the udi, the number of changes, and the
changes most recently recorded first. -/
def run_message (r : List Change) : DBusMessage :=
  property_modified_signal (run_udi r)
    (.int32 r.length :: update_args (r.reverse.map Change.pending))

/-- The pending nodes of a list of runs given most recent run first: for each
run its nodes, most recent change first. -/
def run_nodes : List (List Change) → List PendingUpdate
  | [] => []
  | r :: rs => r.reverse.map Change.pending ++ run_nodes rs

/-- Clear the udi of a node, as the flush does for a node it has processed. -/
def PendingUpdate.processed (pu : PendingUpdate) : PendingUpdate :=
  { pu with udi := none }

/-- One call into the update code. -/
inductive BatcherOp where
  | atomic_begin
  | atomic_end
  | record (c : Change)
  deriving DecidableEq, Repr

/-- Run one call. -/
def BatcherOp.step (env : DbusEnv) (op : BatcherOp) (st : DbusState) : Outcome DbusState :=
  match op with
  | .atomic_begin => .ok (device_property_atomic_update_begin st)
  | .atomic_end => device_property_atomic_update_end env st
  | .record c => device_send_signal_property_modified env c.device c.key c.added c.removed st

/-- Run a sequence of calls, stopping at the first abnormal outcome. -/
def run_batcher_ops (env : DbusEnv) : List BatcherOp → DbusState → Outcome DbusState
  | [], st => .ok st
  | op :: ops, st => (op.step env st).bind (run_batcher_ops env ops)

/-- The invariant of the update code between calls, with `n` an upper bound on
the number of calls made so far. -/
def BatcherInv (n : Nat) (st : DbusState) : Prop :=
  0 ≤ st.atomic_count ∧ st.num_pending_updates = st.pending_updates_head.length ∧
    (st.atomic_count = 0 → st.pending_updates_head = []) ∧
    st.atomic_count ≤ n ∧ st.num_pending_updates ≤ n

/-- The value `device_property_atomic_update_end` leaves in `atomic_count`:
one less, clamped at zero. -/
def count_after_end (st : DbusState) : Int :=
  if st.atomic_count - 1 < 0 then 0 else st.atomic_count - 1

instance is_run_decidable (r : List Change) : Decidable (is_run r) := by
  unfold is_run; infer_instance

instance grouped_decidable (runs : List (List Change)) : Decidable (grouped runs) := by
  unfold grouped; infer_instance

/-! ## hald_runner.c : data model -/

/-- The type of a D-BUS message, `DBUS_MESSAGE_TYPE_*`. -/
inductive DBusMessageType where
  | METHOD_CALL
  | METHOD_RETURN
  | ERROR
  | SIGNAL
  deriving DecidableEq, Repr

/-- A message on the connection to the runner: its type, the path, interface
and member of its header, and its arguments in order. -/
structure RunnerMessage where
  msg_type : DBusMessageType
  path : String
  interface : String
  member : String
  args : List DBusArg
  deriving DecidableEq, Repr

/-- The constants `HALD_RUN_SUCCESS` and `HALD_RUN_FAILED` of hald_runner.h, as
`guint32` values. -/
structure RunnerConsts where
  HALD_RUN_SUCCESS : Nat
  HALD_RUN_FAILED : Nat
  deriving DecidableEq, Repr

/-- The C struct `HelperData`.  A `HalRunTerminatedCB` is the address of a
function and `none` is NULL; a `gpointer` is an address; a `HalDevice *` is
`none` for NULL. -/
structure HelperData where
  d : Option HalDevice
  cb : Option Nat
  data1 : Nat
  data2 : Nat
  deriving DecidableEq, Repr

/-- The C struct `RunningProcess`. -/
structure RunningProcess where
  pid : Int
  device : Option HalDevice
  cb : Option Nat
  data1 : Nat
  data2 : Nat
  deriving DecidableEq, Repr

/-- Observable effects of hald_runner.c, in the order they happen. -/
inductive RunnerEvent where
  /-- A call `cb (d, exit_type, return_code, error, data1, data2)` of a
  `HalRunTerminatedCB`; `error` is `none` for NULL, otherwise the strings of
  the NULL-terminated vector. -/
  | callback (cb : Nat) (d : Option HalDevice) (exit_type : Nat) (return_code : Int)
      (error : Option (List String)) (data1 data2 : Nat)
  /-- A call `g_object_ref (d)`. -/
  | object_ref (d : HalDevice)
  /-- A call `g_object_unref (d)`. -/
  | object_unref (d : HalDevice)
  /-- A call `method_run_notify (method_run_notify_userdata)`. -/
  | run_notify (notify : Nat) (userdata : Nat)
  /-- A message handed to the runner connection. -/
  | sent (m : RunnerMessage)
  deriving DecidableEq, Repr

/-- The file-scope variables `running_processes` (head node first),
`method_run_notify` and `method_run_notify_userdata`; the `HelperData` blocks
registered with `dbus_pending_call_set_notify` whose reply has not arrived; and
the log of observable effects. -/
structure RunnerState where
  running_processes : List RunningProcess
  pending_calls : List HelperData
  method_run_notify : Option Nat
  method_run_notify_userdata : Nat
  log : List RunnerEvent
  deriving DecidableEq, Repr

/-- The state after `hald_runner_start_runner`: no running process, no pending
call, no notify hook. -/
def RunnerState.init : RunnerState :=
  { running_processes := [], pending_calls := [], method_run_notify := none,
    method_run_notify_userdata := 0, log := [] }

/-- Append one observable effect to the log. -/
def RunnerState.emit (s : RunnerState) (e : RunnerEvent) : RunnerState :=
  { s with log := s.log ++ [e] }

/-- The result of `dbus_connection_send_with_reply`: FALSE (no memory), TRUE
with `call` left NULL (the connection is disconnected), or TRUE with a pending
call. -/
inductive SendWithReply where
  | no_memory
  | disconnected
  | pending
  deriving DecidableEq, Repr

/-- The environment of hald_runner.c: the glib shell parser, the allocations
that end in `DIE` when they fail, the answers of the connection to the runner,
and the daemon state that `add_basic_env` reads. -/
structure RunnerEnv where
  /-- The call `g_shell_parse_argv`: `none` for FALSE, otherwise `argv`. -/
  g_shell_parse_argv : String → Option (List String)
  /-- Whether `dbus_message_new_method_call` returns a message. -/
  new_method_call_ok : Bool
  /-- Whether `dbus_message_iter_open_container` in `add_command` succeeds. -/
  open_container_ok : Bool
  /-- The call `dbus_connection_send_with_reply`. -/
  send_with_reply : RunnerMessage → SendWithReply
  /-- The call `dbus_connection_send_with_reply_and_block`: `none` for NULL,
  otherwise the reply. -/
  send_with_reply_and_block : RunnerMessage → Option RunnerMessage
  hald_is_verbose : Bool
  hald_is_initialising : Bool
  hald_use_syslog : Bool
  /-- The call `hald_dbus_local_server_addr ()`. -/
  hald_dbus_local_server_addr : String
  /-- Whether `HAVE_POLKIT` is defined. -/
  have_polkit : Bool
  /-- The strings the `HAVE_CONKIT` block of `add_basic_env` appends, in order
  (none when `HAVE_CONKIT` is not defined or there is no tracker). -/
  conkit_env : List String
  /-- The field `sysname` when `uname` succeeds. -/
  uname_sysname : Option String

/-! ## hald_runner.c : building a request -/

/-- The string `add_property_to_msg` appends for one property key. -/
def hal_prop_msg (device : HalDevice) (key : String) : String :=
  "HAL_PROP_" ++ replace_periods (g_ascii_strup key) ++ "=" ++
    hal_device_property_to_string device key

/-- The C function `add_env`: the string `key=value`. -/
def add_env (key value : String) : String :=
  key ++ "=" ++ value

/-- The glib call `g_ascii_strdown (str, -1)`. -/
def g_ascii_strdown (s : String) : String :=
  String.mk (s.data.map Char.toLower)

/-- The C function `add_basic_env`: the strings it appends, in order. -/
def add_basic_env (env : RunnerEnv) (udi : String) : List String :=
  (if env.hald_is_verbose then [add_env "HALD_VERBOSE" "1"] else [])
    ++ (if env.hald_is_initialising then [add_env "HALD_STARTUP" "1"] else [])
    ++ (if env.hald_use_syslog then [add_env "HALD_USE_SYSLOG" "1"] else [])
    ++ [add_env "UDI" udi, add_env "HALD_DIRECT_ADDR" env.hald_dbus_local_server_addr]
    ++ (if env.have_polkit then [add_env "HAVE_POLKIT" "1"] else [])
    ++ env.conkit_env
    ++ (match env.uname_sysname with
        | some sysname => [add_env "HALD_UNAME_S" (g_ascii_strdown sysname)]
        | none => [])

/-- The C function `add_command`: FALSE when the command line cannot be parsed,
`DIE` when the container cannot be opened, otherwise the array of the parsed
arguments is appended. -/
def add_command (env : RunnerEnv) (command_line : String) (args : List DBusArg) :
    Outcome (Option (List DBusArg)) :=
  match env.g_shell_parse_argv command_line with
  | none => .ok none
  | some argv =>
    if !env.open_container_ok then .die
    else .ok (some (args ++ [.strings argv]))

/-- The C function `add_first_part`: the udi (empty for a NULL device), the
array of environment strings (the device properties, the basic environment,
the extra environment), then the command. -/
def add_first_part (env : RunnerEnv) (device : Option HalDevice) (command_line : String)
    (extra_env : Option (List String)) (args : List DBusArg) :
    Outcome (Option (List DBusArg)) :=
  let udi := match device with
    | some d => d.udi
    | none => ""
  let props := match device with
    | some d => d.properties.map (fun p => hal_prop_msg d p.1)
    | none => []
  let extra := match extra_env with
    | some e => e
    | none => []
  add_command env command_line
    (args ++ [.string udi, .strings (props ++ add_basic_env env udi ++ extra)])

/-- The method call `member` of `org.freedesktop.HalRunner` with its arguments. -/
def runner_method_call (member : String) (args : List DBusArg) : RunnerMessage :=
  { msg_type := .METHOD_CALL, path := "/org/freedesktop/HalRunner",
    interface := "org.freedesktop.HalRunner", member := member, args := args }

/-- The conversion `(GPid) v` of a 64-bit value to `int`. -/
def to_GPid (v : Int) : Int :=
  (v + 2 ^ 31) % 2 ^ 32 - 2 ^ 31

/-- The call `dbus_message_get_args (m, &err, DBUS_TYPE_INT64, &v,
DBUS_TYPE_INVALID)`: the first argument when it is an INT64 (arguments after
it are not looked at), `none` for FALSE. -/
def get_args_int64 (m : RunnerMessage) : Option Int :=
  match m.args with
  | .int64 v :: _ => some v
  | _ => none

/-! ## hald_runner.c : replies -/

/-- The loop of `process_reply` over the fields after the return code: the
strings up to the first field that is not a string. -/
def reply_error_lines : List DBusArg → List String
  | .string value :: rest => value :: reply_error_lines rest
  | _ => []

/-- The statements of both ends of `process_reply` after the parse: call the
callback unless it is NULL, drop the reference to the device unless it is NULL,
free the data, and call the notify hook if one is set. -/
def finish_reply (hb : HelperData) (exit_type : Nat) (return_code : Int)
    (error : Option (List String)) (s : RunnerState) : RunnerState :=
  let s1 := match hb.cb with
    | some cb => s.emit (.callback cb hb.d exit_type return_code error hb.data1 hb.data2)
    | none => s
  let s2 := match hb.d with
    | some d => s1.emit (.object_unref d)
    | none => s1
  match s2.method_run_notify with
  | some notify => s2.emit (.run_notify notify s2.method_run_notify_userdata)
  | none => s2

/-- The C function `process_reply`.  `return_code` is still 0 at every jump to
`malformed`. -/
def process_reply (k : RunnerConsts) (m : RunnerMessage) (hb : HelperData)
    (s : RunnerState) : RunnerState :=
  let return_code : Int := 0
  if m.msg_type ≠ .METHOD_RETURN then finish_reply hb k.HALD_RUN_FAILED return_code none s
  else
    match m.args with
    | .uint32 exitt :: rest =>
      match rest with
      | .int32 rc :: lines =>
        finish_reply hb exitt rc (some (reply_error_lines lines)) s
      | _ => finish_reply hb k.HALD_RUN_FAILED return_code none s
    | _ => finish_reply hb k.HALD_RUN_FAILED return_code none s

/-- The C function `call_notify`: the reply of a pending call has arrived; its
`HelperData` leaves the registered ones and the reply is processed. -/
def call_notify (k : RunnerConsts) (m : RunnerMessage) (hb : HelperData)
    (s : RunnerState) : RunnerState :=
  process_reply k m hb { s with pending_calls := s.pending_calls.erase hb }

/-! ## hald_runner.c : run, run_sync, start -/

/-- The label `error` of `hald_runner_run_method` and `hald_runner_run_sync`:
`cb (device, HALD_RUN_FAILED, 0, NULL, data1, data2)`, a call through the NULL
pointer when `cb` is NULL. -/
def run_error (k : RunnerConsts) (device : Option HalDevice) (cb : Option Nat)
    (data1 data2 : Nat) (s : RunnerState) : Outcome RunnerState :=
  match cb with
  | some f => .ok (s.emit (.callback f device k.HALD_RUN_FAILED 0 none data1 data2))
  | none => .segv

/-- The C function `hald_runner_run_method`. -/
def hald_runner_run_method (k : RunnerConsts) (env : RunnerEnv) (device : Option HalDevice)
    (command_line : String) (extra_env : Option (List String)) (input : String)
    (error_on_stderr : Bool) (timeout : Nat) (cb : Option Nat) (data1 data2 : Nat)
    (s : RunnerState) : Outcome RunnerState :=
  if !env.new_method_call_ok then .die
  else
    (add_first_part env device command_line extra_env []).bind (fun first =>
      match first with
      | none => run_error k device cb data1 data2 s
      | some args =>
        let msg := runner_method_call "Run"
          (args ++ [.string input, .boolean error_on_stderr, .uint32 timeout])
        match env.send_with_reply msg with
        | .no_memory => .die
        | .disconnected => run_error k device cb data1 data2 s
        | .pending =>
          let hd : HelperData := { d := device, cb := cb, data1 := data1, data2 := data2 }
          let s1 := s.emit (.sent msg)
          let s2 := match device with
            | some d => s1.emit (.object_ref d)
            | none => s1
          .ok { s2 with pending_calls := s2.pending_calls ++ [hd] })

/-- The C function `hald_runner_run`. -/
def hald_runner_run (k : RunnerConsts) (env : RunnerEnv) (device : Option HalDevice)
    (command_line : String) (extra_env : Option (List String)) (timeout : Nat)
    (cb : Option Nat) (data1 data2 : Nat) (s : RunnerState) : Outcome RunnerState :=
  hald_runner_run_method k env device command_line extra_env "" false timeout cb data1 data2 s

/-- The C function `hald_runner_run_sync`. -/
def hald_runner_run_sync (k : RunnerConsts) (env : RunnerEnv) (device : Option HalDevice)
    (command_line : String) (extra_env : Option (List String)) (timeout : Nat)
    (cb : Option Nat) (data1 data2 : Nat) (s : RunnerState) : Outcome RunnerState :=
  if !env.new_method_call_ok then .die
  else
    (add_first_part env device command_line extra_env []).bind (fun first =>
      match first with
      | none => run_error k device cb data1 data2 s
      | some args =>
        let msg := runner_method_call "Run"
          (args ++ [.string "", .boolean false, .uint32 timeout])
        match env.send_with_reply_and_block msg with
        | none => run_error k device cb data1 data2 s
        | some reply =>
          let hd : HelperData := { d := device, cb := cb, data1 := data1, data2 := data2 }
          .ok (process_reply k reply hd (s.emit (.sent msg))))

/-- The C function `hald_runner_start`: the value returned and the state. -/
def hald_runner_start (env : RunnerEnv) (device : Option HalDevice) (command_line : String)
    (extra_env : Option (List String)) (cb : Option Nat) (data1 data2 : Nat)
    (s : RunnerState) : Outcome (Bool × RunnerState) :=
  if !env.new_method_call_ok then .die
  else
    (add_first_part env device command_line extra_env []).bind (fun first =>
      match first with
      | none => .ok (false, s)
      | some args =>
        let msg := runner_method_call "Start" args
        match env.send_with_reply_and_block msg with
        | none => .ok (false, s)
        | some reply =>
          let s1 := s.emit (.sent msg)
          let ret := decide (reply.msg_type = .METHOD_RETURN)
          if ret then
            match get_args_int64 reply with
            | some pid_from_runner =>
              match cb with
              | some f =>
                let rp : RunningProcess :=
                  { pid := to_GPid pid_from_runner, device := device, cb := some f,
                    data1 := data1, data2 := data2 }
                .ok (ret, { s1 with running_processes := rp :: s1.running_processes })
              | none => .ok (ret, s1)
            | none => .ok (ret, s1)
          else .ok (ret, s1))

/-! ## hald_runner.c : messages from the runner -/

/-- The call `dbus_message_is_signal (message, interface, name)`. -/
def dbus_message_is_signal (m : RunnerMessage) (interface name : String) : Bool :=
  decide (m.msg_type = .SIGNAL) && decide (m.interface = interface) && decide (m.member = name)

/-- The loop of `runner_server_message_handler` over `running_processes` from
node `i` on: at the first record with the pid call its callback, delete its
node and stop.  Returns the nodes as they are left. -/
def exited_loop (pid : Int) : List RunningProcess → RunnerState →
    Outcome (List RunningProcess × RunnerState)
  | [], s => .ok ([], s)
  | rp :: rest, s =>
    if rp.pid = pid then
      match rp.cb with
      | some f => .ok (rest, s.emit (.callback f rp.device 0 0 none rp.data1 rp.data2))
      | none => .segv
    else
      (exited_loop pid rest s).bind (fun r => .ok (rp :: r.1, r.2))

/-- The C function `runner_server_message_handler`.  The branch for the signal
`Disconnected` only drops the reference to the connection, which is not part
of the state. -/
def runner_server_message_handler (message : RunnerMessage) (s : RunnerState) :
    Outcome RunnerState :=
  if dbus_message_is_signal message "org.freedesktop.HalRunner" "StartedProcessExited" then
    match get_args_int64 message with
    | some dpid =>
      (exited_loop (to_GPid dpid) s.running_processes s).bind
        (fun r => .ok { r.2 with running_processes := r.1 })
    | none => .ok s
  else .ok s

/-- The log entries the end of `process_reply` adds after the callback: the
release of the device reference and the call of the notify hook. -/
def reply_epilogue (hb : HelperData) (s : RunnerState) : List RunnerEvent :=
  (match hb.d with
    | some d => [.object_unref d]
    | none => [])
  ++ (match s.method_run_notify with
      | some notify => [.run_notify notify s.method_run_notify_userdata]
      | none => [])

/-- The exit types of the callback calls of a log, in order. -/
def callback_statuses (log : List RunnerEvent) : List Nat :=
  log.filterMap (fun e =>
    match e with
    | .callback _ _ exit_type _ _ _ _ => some exit_type
    | _ => none)

/-- The callback calls of a log, in order. -/
def callback_calls (log : List RunnerEvent) : List RunnerEvent :=
  log.filter (fun e =>
    match e with
    | .callback _ _ _ _ _ _ _ => true
    | _ => false)

/-- A reply `process_reply` decodes: a method return whose first two fields are
a UINT32 and an INT32. -/
def reply_well_formed (m : RunnerMessage) : Bool :=
  decide (m.msg_type = .METHOD_RETURN) &&
    (match m.args with
     | .uint32 _ :: .int32 _ :: _ => true
     | _ => false)

/-- The arguments `add_first_part` appends when the command line parses to
`argv`. -/
def first_part_args (env : RunnerEnv) (device : Option HalDevice)
    (extra_env : Option (List String)) (argv : List String) : List DBusArg :=
  let udi := match device with
    | some d => d.udi
    | none => ""
  let props := match device with
    | some d => d.properties.map (fun p => hal_prop_msg d p.1)
    | none => []
  let extra := match extra_env with
    | some e => e
    | none => []
  [.string udi, .strings (props ++ add_basic_env env udi ++ extra), .strings argv]

/-- The `Run` request of `hald_runner_run_method` for a command line that
parses to `argv`. -/
def run_request (env : RunnerEnv) (device : Option HalDevice)
    (extra_env : Option (List String)) (argv : List String) (input : String)
    (error_on_stderr : Bool) (timeout : Nat) : RunnerMessage :=
  runner_method_call "Run"
    (first_part_args env device extra_env argv ++
      [.string input, .boolean error_on_stderr, .uint32 timeout])

/-- The `Start` request of `hald_runner_start` for a command line that parses
to `argv`. -/
def start_request (env : RunnerEnv) (device : Option HalDevice)
    (extra_env : Option (List String)) (argv : List String) : RunnerMessage :=
  runner_method_call "Start" (first_part_args env device extra_env argv)

/-- Every record of `running_processes` has a callback. -/
def all_have_callback (s : RunnerState) : Prop :=
  ∀ rp ∈ s.running_processes, rp.cb ≠ none

/-! ## Reading the logs -/

/-- The callouts that `n` successive calls of `pop_pending_callout` return, up
to the first NULL. -/
def pop_pending_callouts : Nat → CalloutState → List Callout
  | 0, _ => []
  | n + 1, s =>
    match pop_pending_callout s with
    | (none, _) => []
    | (some callout, s1) => callout :: pop_pending_callouts n s1

/-- A directory entry the scan turns into a callout: the name ends in `.hal`
and the file is executable. -/
def DirEntry.matches (e : DirEntry) : Bool :=
  g_str_has_suffix e.filename ".hal" && e.is_executable

/-- The log entry of a failed spawn of the pending callout `c`. -/
def failed_event (c : Callout) : Event :=
  .spawn_failed (hal_device_property_foreach c) [c.filename, action_arg c.action]

/-- The active callout that a successful spawn of the pending callout `c`
leaves: its environment completed and its pid stored. -/
def spawned_callout (c : Callout) (pid : Int) : Callout :=
  { hal_device_property_foreach c with pid := pid }

/-- The log entry of a successful spawn of the pending callout `c`. -/
def spawned_event (c : Callout) (pid : Int) : Event :=
  .spawned (spawned_callout c pid) [c.filename, action_arg c.action] pid

/-- The effect of one log entry on the list of callouts that have been spawned
and not yet reaped. -/
def running_step (r : List Callout) : Event → List Callout
  | .spawned c _ _ => r ++ [c]
  | .released c => r.erase c
  | _ => r

/-- The callouts that have been spawned and not yet reaped at the end of a log. -/
def running (log : List Event) : List Callout :=
  log.foldl running_step []

/-- Whether an environment string starts with `HAL_PROP_`, as the strings that
`add_property_to_env` stores do. -/
def is_hal_prop (e : String) : Bool :=
  "HAL_PROP_".data.isPrefixOf e.data

/-- The environment strings of a callout other than the `HAL_PROP_` ones: for
a callout made by one of the three builders, the strings stored when it was
built. -/
def Callout.fixed_env (c : Callout) : List String :=
  c.envp.filter (fun e => !is_hal_prop e)

/-- What is fixed when a callout is built: working directory, file name,
action, device, and the environment strings stored by the builder (the udi and
the capability or the key and value of the event). -/
def Callout.ident (c : Callout) :
    String × String × CalloutAction × HalDevice × List String :=
  (c.working_dir, c.filename, c.action, c.device, c.fixed_env)

/-- The callouts handed to `g_spawn_async`, in the order of the calls. -/
def spawn_attempts (log : List Event) : List Callout :=
  log.filterMap (fun e =>
    match e with
    | .spawned c _ _ => some c
    | .spawn_failed c _ => some c
    | _ => none)

/-- The callouts appended to the pending queue, in the order of the calls. -/
def enqueued_callouts (log : List Event) : List Callout :=
  log.filterMap (fun e =>
    match e with
    | .enqueued c => some c
    | _ => none)

/-- The devices `hal_device_callouts_finished` was called for, in the order of
the calls. -/
def finished_devices (log : List Event) : List HalDevice :=
  log.filterMap (fun e =>
    match e with
    | .callouts_finished d => some d
    | _ => none)

/-- No prefix of the log has two callouts spawned and not yet reaped. -/
def serial_log (log : List Event) : Prop :=
  ∀ p, p <+: log → (running p).length ≤ 1

/-- A log entry that neither spawns nor reaps a callout. -/
def Event.neutral : Event → Bool
  | .spawned _ _ _ => false
  | .released _ => false
  | _ => true

/-- The invariant behind at-most-one-active: the log never shows two callouts
spawned and not yet reaped, and the callout spawned and not yet reaped, if any,
is the one in the active slot. -/
def Serial (s : CalloutState) : Prop :=
  serial_log s.log ∧ running s.log = s.active_callout.toList

/-- The callouts the directory loop builds: one per matching entry, in
enumeration order. -/
def scanned_callouts (mk : String → Callout) (entries : List DirEntry) : List Callout :=
  (entries.filter DirEntry.matches).map (fun e => mk e.filename)

/-- The invariant behind FIFO order: the callouts handed to `g_spawn_async` so
far, followed by the pending queue, are the callouts enqueued so far, in
enqueue order. -/
def Fifo (s : CalloutState) : Prop :=
  (spawn_attempts s.log).map Callout.ident ++ s.pending_callouts.map Callout.ident =
    (enqueued_callouts s.log).map Callout.ident

/-! ## hald_runner.c : dropping the records of a device -/

/-- The comparison `a == b` of two `HalDevice *`: both are NULL, or both are
the address of the same object, whatever the object held when each pointer was
taken. -/
def same_device (a b : Option HalDevice) : Bool :=
  decide (a.map HalDevice.addr = b.map HalDevice.addr)

/-- The loop of `running_processes_remove_device` from node `i` on: every
record whose device pointer is `device` is freed and its node deleted.  Returns
the nodes as they are left. -/
def remove_device_loop (device : Option HalDevice) : List RunningProcess → List RunningProcess
  | [] => []
  | rp :: rest =>
    if same_device rp.device device then remove_device_loop device rest
    else rp :: remove_device_loop device rest

/-- The C function `running_processes_remove_device`. -/
def running_processes_remove_device (device : Option HalDevice) (s : RunnerState) :
    RunnerState :=
  { s with running_processes := remove_device_loop device s.running_processes }

/-- The C function `runner_device_finalized`. -/
def runner_device_finalized (device : Option HalDevice) (s : RunnerState) : RunnerState :=
  running_processes_remove_device device s

/-- The C function `hald_runner_kill_device`.  The reply, if one comes, is only
released. -/
def hald_runner_kill_device (env : RunnerEnv) (device : HalDevice) (s : RunnerState) :
    Outcome RunnerState :=
  let s1 := running_processes_remove_device (some device) s
  if !env.new_method_call_ok then .die
  else
    let msg := runner_method_call "Kill" [.string device.udi]
    match env.send_with_reply_and_block msg with
    | some _ => .ok (s1.emit (.sent msg))
    | none => .ok s1

/-- The C function `hald_runner_kill_all`. -/
def hald_runner_kill_all (env : RunnerEnv) (device : Option HalDevice) (s : RunnerState) :
    Outcome RunnerState :=
  let s1 := running_processes_remove_device device s
  if !env.new_method_call_ok then .die
  else
    let msg := runner_method_call "KillAll" []
    match env.send_with_reply_and_block msg with
    | some _ => .ok (s1.emit (.sent msg))
    | none => .ok s1

/-- The C function `hald_runner_set_method_run_notify`. -/
def hald_runner_set_method_run_notify (cb : Option Nat) (user_data : Nat) (s : RunnerState) :
    RunnerState :=
  { s with method_run_notify := cb, method_run_notify_userdata := user_data }

/-- The requests handed to the runner connection, in order. -/
def sent_messages (log : List RunnerEvent) : List RunnerMessage :=
  log.filterMap (fun e =>
    match e with
    | .sent m => some m
    | _ => none)

/-- The net change of the reference count of device `d` over a log: the calls
of `g_object_ref (d)` less the calls of `g_object_unref (d)`. -/
def ref_balance (d : HalDevice) (log : List RunnerEvent) : Int :=
  log.foldl (fun n e =>
    match e with
    | .object_ref x => if x.addr = d.addr then n + 1 else n
    | .object_unref x => if x.addr = d.addr then n - 1 else n
    | _ => n) 0

/-- The callback call `process_reply` makes for a reply and call data: none
for a NULL callback. -/
def reply_callback (k : RunnerConsts) (m : RunnerMessage) (hb : HelperData) :
    List RunnerEvent :=
  callback_calls (process_reply k m hb RunnerState.init).log

/-! ## callout.c and hald_runner.c : the key of a property in the environment -/

/-- The key part of a `HAL_PROP_` string: the key upper-cased by `g_ascii_strup`
and then with every period replaced. -/
def hal_prop_key (key : String) : String :=
  replace_periods (g_ascii_strup key)

/-! ## callout.c : the passes of the retry loop -/

/-- How one pass through the label `next_callout` ends: the function returns,
or the failed spawn jumps back to the label. -/
inductive Pass where
  | returned (s : CalloutState)
  | again (s : CalloutState)
  deriving DecidableEq, Repr

/-- One pass through the code of `process_next_callout` at the label
`next_callout`. -/
def next_callout_pass (env : CalloutEnv) (s : CalloutState) : Pass :=
  if s.active_callout.isSome then .returned s
  else
    match pop_pending_callout s with
    | (none, s1) => .returned s1
    | (some callout, s1) =>
      let argv := [callout.filename, action_arg callout.action]
      let callout1 := hal_device_property_foreach callout
      match env.g_spawn_async s1.spawn_count with
      | none =>
        .again ({ s1 with active_callout := none, spawn_count := s1.spawn_count + 1 }.emit
          (.spawn_failed callout1 argv))
      | some pid =>
        let callout2 := { callout1 with pid := pid }
        .returned ({ s1 with active_callout := some callout2,
                             spawn_count := s1.spawn_count + 1 }.emit
          (.spawned callout2 argv pid))

/-- The passes through the label `next_callout`, at most `n` of them: the state
in which the function returns, or `none` when the last of the `n` passes jumps
back to the label. -/
def next_callout_passes (env : CalloutEnv) : Nat → CalloutState → Option CalloutState
  | 0, _ => none
  | n + 1, s =>
    match next_callout_pass env s with
    | .returned s' => some s'
    | .again s' => next_callout_passes env n s'

/-! ## callout.c : the environment array -/

/-- One slot of a `char **` array: not written since the allocation, NULL, or a
string. -/
inductive EnvSlot where
  | unset
  | null
  | str (s : String)
  deriving DecidableEq, Repr

/-- The glib call `g_new (char *, n)`: `n` slots, none written. -/
def g_new_envp (n : Nat) : List EnvSlot :=
  List.replicate n .unset

/-- The glib call `g_renew (char *, mem, n)`: the array with `n` slots, the
slots it had kept. -/
def g_renew_envp (mem : List EnvSlot) (n : Nat) : List EnvSlot :=
  mem.take n ++ List.replicate (n - mem.length) .unset

/-- The assignment `envp[i] = v`.  A store past the allocated slots writes
outside the array. -/
def envp_store (envp : List EnvSlot) (i : Nat) (v : EnvSlot) : Outcome (List EnvSlot) :=
  if i < envp.length then .ok (envp.set i v) else .segv

/-- The assignment `envp[i++] = v` for a string `v`, on the array and `i`. -/
def envp_put (r : List EnvSlot × Nat) (v : String) : Outcome (List EnvSlot × Nat) :=
  (envp_store r.1 r.2 (.str v)).bind (fun envp => .ok (envp, r.2 + 1))

/-- The C function `add_property_to_env` on the array and `envp_index`. -/
def add_property_to_envp (r : List EnvSlot × Nat) (property : String × String) :
    Outcome (List EnvSlot × Nat) :=
  envp_put r (hal_prop_env property.1 property.2)

/-- The call `hal_device_property_foreach (device, add_property_to_env,
callout)` on the array and `envp_index`. -/
def foreach_envp : List (String × String) → List EnvSlot × Nat → Outcome (List EnvSlot × Nat)
  | [], r => .ok r
  | p :: ps, r => (add_property_to_envp r p).bind (foreach_envp ps)

/-- The statements of `process_next_callout` from `num_props = ...` to
`callout->envp[callout->envp_index] = NULL`, on the array and `envp_index` of
the callout.  `device` is the object `callout->device` points to as it is when
these statements run, which need not hold what it held when the callout was
queued.  `hal_device_num_properties` is the number of properties that
`hal_device_property_foreach` visits. -/
def complete_envp (device : HalDevice) (envp : List EnvSlot) (envp_index : Nat) :
    Outcome (List EnvSlot) :=
  let num_props := device.properties.length
  let envp := g_renew_envp envp (num_props + envp_index + 1)
  (foreach_envp device.properties (envp, envp_index)).bind
    (fun r => envp_store r.1 r.2 .null)

/-! ## device_pm.c : normalised battery levels -/

/-- The properties `device_pm_abstract_props` reads from the battery device:
`battery.reporting.unit` (`none` for NULL), `battery.reporting.current`,
`battery.reporting.last_full`, `battery.reporting.rate`,
`battery.voltage.design`, `battery.voltage.current`,
`battery.rechargeable.is_charging` and `battery.rechargeable.is_discharging`. -/
structure BatteryReporting where
  reporting_unit : Option String
  reporting_current : Int
  reporting_lastfull : Int
  reporting_rate : Int
  design_voltage : Int
  voltage : Int
  charging : Bool
  discharging : Bool
  deriving DecidableEq, Repr

/-- The properties `device_pm_abstract_props` writes:
`battery.charge_level.current`, `battery.charge_level.last_full` and
`battery.charge_level.rate`. -/
structure ChargeLevel where
  current : Int
  last_full : Int
  rate : Int
  deriving DecidableEq, Repr

/-- The value of an `int` expression: the two's-complement 32-bit value of the
mathematical result. -/
def int32 (v : Int) : Int :=
  (v + 2 ^ 31) % 2 ^ 32 - 2 ^ 31

/-- The C function `device_pm_abstract_props`: the three values it writes,
from the values it reads.  The `/` of C truncates towards zero. -/
def device_pm_abstract_props (b : BatteryReporting) : ChargeLevel :=
  let reporting_rate := if b.reporting_rate = 0xffff then 0 else b.reporting_rate
  let normalised : Int × Int × Int :=
    if b.reporting_unit = some "mAh" then
      let design_voltage := if b.design_voltage ≤ 0 then 1000 else b.design_voltage
      let voltage :=
        if b.voltage < Int.tdiv design_voltage 2 ∨ b.voltage > design_voltage then design_voltage
        else b.voltage
      (Int.tdiv (int32 (b.reporting_current * voltage)) 1000,
       Int.tdiv (int32 (b.reporting_lastfull * voltage)) 1000,
       Int.tdiv (int32 (reporting_rate * voltage)) 1000)
    else (b.reporting_current, b.reporting_lastfull, reporting_rate)
  let normalised_current := if normalised.1 < 0 then 0 else normalised.1
  let normalised_lastfull := if normalised.2.1 < 0 then 0 else normalised.2.1
  let normalised_rate := if normalised.2.2 < 0 then 0 else normalised.2.2
  let normalised_rate := if !b.charging && !b.discharging then 0 else normalised_rate
  let normalised_current :=
    if normalised_current > normalised_lastfull then normalised_lastfull else normalised_current
  { current := normalised_current, last_full := normalised_lastfull, rate := normalised_rate }

/-! ## partutil.c : the entry at an offset -/

/-- The enum `PartitionScheme`, as far as the accessors of partutil.c tell its
values apart; `other` is any value that falls to `default`. -/
inductive PartitionScheme where
  | PART_TYPE_GPT
  | PART_TYPE_MSDOS
  | PART_TYPE_MSDOS_EXTENDED
  | PART_TYPE_APPLE
  | other
  deriving DecidableEq, Repr

mutual
/-- The C struct `PartitionTable_s`: scheme, offset and size of the table on
disk, and the entries in list order. -/
inductive PartitionTable where
  | mk (scheme : PartitionScheme) (offset size : Nat) (entries : List PartitionEntry)
/-- The C struct `PartitionEntry_s`: `part_table` is `none` for NULL, `data`
holds the bytes of the entry, `offset` is where the entry starts on disk. -/
inductive PartitionEntry where
  | mk (is_part_table : Bool) (part_table : Option PartitionTable) (data : List Nat)
      (length : Int) (offset : Nat)
end

/-- The field `scheme`. -/
def PartitionTable.scheme : PartitionTable → PartitionScheme
  | .mk scheme _ _ _ => scheme

/-- The field `entries`. -/
def PartitionTable.entries : PartitionTable → List PartitionEntry
  | .mk _ _ _ entries => entries

/-- The field `is_part_table`. -/
def PartitionEntry.is_part_table : PartitionEntry → Bool
  | .mk is_part_table _ _ _ _ => is_part_table

/-- The field `part_table`. -/
def PartitionEntry.part_table : PartitionEntry → Option PartitionTable
  | .mk _ part_table _ _ _ => part_table

/-- The field `data`. -/
def PartitionEntry.data : PartitionEntry → List Nat
  | .mk _ _ data _ _ => data

/-- The field `offset`. -/
def PartitionEntry.offset : PartitionEntry → Nat
  | .mk _ _ _ _ offset => offset

/-- The byte `buf[i]` as a `guint8`.  The parsers copy 16, 128 and 512 bytes
for the entries of the schemes, which covers every index read below; an index
past the bytes held reads 0 here. -/
def byte_at (buf : List Nat) (i : Nat) : Nat :=
  (buf.getD i 0) % 256

/-- The C function `get_le32` on `buf + i`. -/
def get_le32 (buf : List Nat) (i : Nat) : Nat :=
  byte_at buf i + 256 * byte_at buf (i + 1) + 256 ^ 2 * byte_at buf (i + 2)
    + 256 ^ 3 * byte_at buf (i + 3)

/-- The C function `get_le64` on `buf + i`. -/
def get_le64 (buf : List Nat) (i : Nat) : Nat :=
  get_le32 buf i + 2 ^ 32 * get_le32 buf (i + 4)

/-- The C function `get_be32` on `buf + i`. -/
def get_be32 (buf : List Nat) (i : Nat) : Nat :=
  256 ^ 3 * byte_at buf i + 256 ^ 2 * byte_at buf (i + 1) + 256 * byte_at buf (i + 2)
    + byte_at buf (i + 3)

/-- The constant `G_MAXUINT64`. -/
def G_MAXUINT64 : Nat := 2 ^ 64 - 1

/-- The macro `MSDOS_PARTTABLE_OFFSET`. -/
def MSDOS_PARTTABLE_OFFSET : Nat := 0x1be

/-- The C function `part_table_get_num_entries`. -/
def part_table_get_num_entries (p : PartitionTable) : Nat :=
  p.entries.length

/-- The C function `part_table_entry_get_nested`; `p` is `none` for NULL and
`g_slist_nth_data` is NULL past the end of the list. -/
def part_table_entry_get_nested (p : Option PartitionTable) (entry : Nat) :
    Option PartitionTable :=
  match p with
  | none => none
  | some p =>
    match p.entries[entry]? with
    | none => none
    | some pe => if pe.is_part_table then pe.part_table else none

/-- The C function `part_table_entry_get_offset`, in `guint64` arithmetic. -/
def part_table_entry_get_offset (p : Option PartitionTable) (entry : Nat) : Nat :=
  match p with
  | none => G_MAXUINT64
  | some p =>
    match p.entries[entry]? with
    | none => G_MAXUINT64
    | some pe =>
      match p.scheme with
      | .PART_TYPE_GPT => (0x200 * get_le64 pe.data 32) % 2 ^ 64
      | .PART_TYPE_MSDOS => (0x200 * get_le32 pe.data 8) % 2 ^ 64
      | .PART_TYPE_MSDOS_EXTENDED =>
        (0x200 * get_le32 pe.data 8 + pe.offset + (2 ^ 64 - MSDOS_PARTTABLE_OFFSET)) % 2 ^ 64
      | .PART_TYPE_APPLE => (0x200 * get_be32 pe.data (2 * 2 + 1 * 4)) % 2 ^ 64
      | .other => G_MAXUINT64

/-- The C function `part_table_entry_get_size`, in `guint64` arithmetic. -/
def part_table_entry_get_size (p : Option PartitionTable) (entry : Nat) : Nat :=
  match p with
  | none => G_MAXUINT64
  | some p =>
    match p.entries[entry]? with
    | none => G_MAXUINT64
    | some pe =>
      match p.scheme with
      | .PART_TYPE_GPT =>
        (0x200 * ((get_le64 pe.data 40 + (2 ^ 64 - get_le64 pe.data 32) + 1) % 2 ^ 64)) % 2 ^ 64
      | .PART_TYPE_MSDOS => (0x200 * get_le32 pe.data 12) % 2 ^ 64
      | .PART_TYPE_MSDOS_EXTENDED => (0x200 * get_le32 pe.data 12) % 2 ^ 64
      | .PART_TYPE_APPLE => (0x200 * get_be32 pe.data (2 * 2 + 2 * 4)) % 2 ^ 64
      | .other => G_MAXUINT64

/-- The loop of `part_table_find` from entry `n` on, with `k` entries still to
look at; `nested_find` is the recursive call on a nested table.  When the loop
ends without a match the out values are as initialised: the table and -1. -/
def find_entries (nested_find : PartitionTable → Option (PartitionTable × Int))
    (p : PartitionTable) (offset : Nat) : Nat → Nat → Option (PartitionTable × Int)
  | 0, _ => some (p, -1)
  | k + 1, n =>
    let pe_offset := part_table_entry_get_offset (some p) n
    let pe_size := part_table_entry_get_size (some p) n
    if offset ≥ pe_offset ∧ offset < (pe_offset + pe_size) % 2 ^ 64 then
      match part_table_entry_get_nested (some p) n with
      | some part_table_nested =>
        if offset > pe_offset then nested_find part_table_nested
        else some (p, (n : Int))
      | none => some (p, (n : Int))
    else find_entries nested_find p offset k (n + 1)

/-- The C function `part_table_find`: the out values `*out_part_table` and
`*out_entry`.  The first argument bounds the depth of the recursion; `none`
means that the tables nest deeper than the bound. -/
def part_table_find : Nat → PartitionTable → Nat → Option (PartitionTable × Int)
  | 0, _, _ => none
  | fuel + 1, p, offset =>
    find_entries (fun t => part_table_find fuel t offset) p offset
      (part_table_get_num_entries p) 0

mutual
/-- The depth of nesting of a table: one more than that of its entries. -/
def PartitionTable.depth : PartitionTable → Nat
  | .mk _ _ _ entries => depth_entries entries + 1
/-- The largest depth of a table nested in one of the entries. -/
def depth_entries : List PartitionEntry → Nat
  | [] => 0
  | pe :: rest => max (PartitionEntry.depth pe) (depth_entries rest)
/-- The depth of the table of an entry, 0 when it has none. -/
def PartitionEntry.depth : PartitionEntry → Nat
  | .mk _ part_table _ _ _ => depth_nested part_table
/-- The depth of a table that may be NULL. -/
def depth_nested : Option PartitionTable → Nat
  | none => 0
  | some t => PartitionTable.depth t
end

/-- The test of the loop of `part_table_find` for entry `n`, in `guint64`
arithmetic. -/
def entry_holds (p : PartitionTable) (n : Nat) (offset : Nat) : Prop :=
  offset ≥ part_table_entry_get_offset (some p) n ∧
    offset < (part_table_entry_get_offset (some p) n + part_table_entry_get_size (some p) n)
      % 2 ^ 64

/-- What `part_table_find` may leave in its out values for `offset`: entry -1,
or an entry of the table returned whose extent holds the offset, an entry with
a nested table only at its start. -/
def found_at (offset : Nat) (r : PartitionTable × Int) : Prop :=
  r.2 = -1 ∨
    ∃ n : Nat, r.2 = (n : Int) ∧ n < part_table_get_num_entries r.1 ∧
      part_table_entry_get_offset (some r.1) n ≤ offset ∧
      offset < part_table_entry_get_offset (some r.1) n + part_table_entry_get_size (some r.1) n ∧
      (∀ t, part_table_entry_get_nested (some r.1) n = some t →
        offset = part_table_entry_get_offset (some r.1) n)

instance entry_holds_decidable (p : PartitionTable) (n : Nat) (offset : Nat) :
    Decidable (entry_holds p n offset) := by
  unfold entry_holds; infer_instance

/-! ## Worked inputs -/

/-- Daemon globals of the worked examples. -/
def ex_globals : HaldGlobals :=
  { PACKAGE_SYSCONF_DIR := "/etc", hald_is_verbose := false, hald_is_initialising := false,
    hald_is_shutting_down := false }

/-- Device of the worked examples. -/
def ex_device : HalDevice :=
  { addr := 1, udi := "/org/freedesktop/Hal/devices/computer",
    properties := [("info.bus", "pci")] }

/-- A callout directory with one executable script. -/
def ex_dir_one : CalloutDir :=
  { dir_exists := true, dir_open := some [⟨"10-setup.hal", true⟩] }

/-- A callout directory with two executable scripts and two entries the scan
skips. -/
def ex_dir_two : CalloutDir :=
  { dir_exists := true,
    dir_open := some [⟨"10-setup.hal", true⟩, ⟨"README", true⟩, ⟨"15-off.hal", false⟩,
                      ⟨"20-notify.hal", true⟩] }

/-- A callout directory whose entries are a name without the suffix `.hal` and
a script that is not executable. -/
def ex_dir_no_match : CalloutDir :=
  { dir_exists := true, dir_open := some [⟨"README", true⟩, ⟨"x.hal", false⟩] }

/-- A callout directory that exists and holds no script. -/
def ex_dir_empty : CalloutDir :=
  { dir_exists := true, dir_open := some [⟨"README", true⟩] }

/-- An environment in which every spawn fails. -/
def env_spawn_fails : CalloutEnv :=
  { pipe_ok := true, iochn_ok := true, g_spawn_async := fun _ => none }

/-- An environment in which the n-th spawn succeeds with pid 100 + n. -/
def env_spawn_ok : CalloutEnv :=
  { pipe_ok := true, iochn_ok := true, g_spawn_async := fun n => some (100 + n) }

/-- The state after a device-added event with one script, spawned as pid 100. -/
def ex_one_active : CalloutState :=
  (hal_callout_device ex_globals env_spawn_ok ex_dir_one ex_device true
    CalloutState.init).getD CalloutState.init

/-- An environment in which every send succeeds. -/
def env_send_ok : DbusEnv := { dbus_connection_send := fun _ => true }

/-- Device A of the worked examples. -/
def ex_dev_a : HalDevice :=
  { addr := 2, udi := "/org/freedesktop/Hal/devices/a", properties := [] }

/-- Device B of the worked examples. -/
def ex_dev_b : HalDevice :=
  { addr := 3, udi := "/org/freedesktop/Hal/devices/b", properties := [] }

/-- An environment in which the first spawn succeeds with pid 100 and every
later spawn fails. -/
def env_second_spawn_fails : CalloutEnv :=
  { pipe_ok := true, iochn_ok := true,
    g_spawn_async := fun n => if n = 0 then some 100 else none }

/-- An environment in which the first spawn fails and the n-th spawn after it
succeeds with pid 100 + n. -/
def env_first_spawn_fails : CalloutEnv :=
  { pipe_ok := true, iochn_ok := true,
    g_spawn_async := fun n => if n = 0 then none else some (100 + n) }

/-- The active callout of `ex_one_active`: the script `10-setup.hal` of the
device callout directory, the last of its device, running as pid 100. -/
def ex_active : Callout :=
  spawned_callout
    { device_callout ex_globals ex_device true "10-setup.hal" with last_of_device := true } 100

/-- A run of the event loop: a device-added event with two scripts, then a
wakeup at which the child 100 has terminated. -/
def ex_ops : List CalloutOp :=
  [.device ex_globals ex_dir_two ex_device true, .sigchld true [100]]

/-- The state after the run `ex_ops` when every spawn succeeds. -/
def ex_final : CalloutState :=
  (run_callout_ops env_spawn_ok ex_ops CalloutState.init).getD CalloutState.init

/-- A run of the event loop with two events: a device-added event with two
scripts and a capability event with one script, then the first child
terminates. -/
def ex_ops_two_events : List CalloutOp :=
  [.device ex_globals ex_dir_two ex_device true,
   .capability ex_globals ex_dir_one ex_device "battery" true,
   .sigchld true [100]]

/-- The state after the run `ex_ops_two_events` when every spawn succeeds. -/
def ex_final_two_events : CalloutState :=
  (run_callout_ops env_spawn_ok ex_ops_two_events CalloutState.init).getD CalloutState.init

/-- A run with two capability events for the same device and the same script,
for the capability `battery` and then for `button`; then the first child
terminates. -/
def ex_ops_two_capabilities : List CalloutOp :=
  [.capability ex_globals ex_dir_one ex_device "battery" true,
   .capability ex_globals ex_dir_one ex_device "button" true,
   .sigchld true [100]]

/-- The state after the run `ex_ops_two_capabilities` when every spawn
succeeds. -/
def ex_final_two_capabilities : CalloutState :=
  (run_callout_ops env_spawn_ok ex_ops_two_capabilities CalloutState.init).getD
    CalloutState.init

/-- The state after a device-added event with two scripts has been queued and
before `process_next_callout` has run. -/
def ex_two_pending : CalloutState :=
  set_last_of_device
    (scan_callout_dir (device_callout ex_globals ex_device true)
      [⟨"10-setup.hal", true⟩, ⟨"20-notify.hal", true⟩] CalloutState.init)

/-- Two changes of device A, key `a` recorded before key `b`. -/
def ex_changes_ab : List Change :=
  [⟨ex_dev_a, "a", true, false⟩, ⟨ex_dev_a, "b", true, false⟩]

/-- Changes of device A, then device B, then device A again. -/
def ex_changes_interleaved : List Change :=
  [⟨ex_dev_a, "x", true, false⟩, ⟨ex_dev_b, "y", true, false⟩, ⟨ex_dev_a, "z", true, false⟩]

/-- Changes of device A and then of device B. -/
def ex_changes_a_then_b : List Change :=
  [⟨ex_dev_a, "x", true, false⟩, ⟨ex_dev_b, "y", true, false⟩]

/-- A batch of two runs: two changes of device A, then one change of device B. -/
def ex_runs : List (List Change) :=
  [[⟨ex_dev_a, "x", true, false⟩, ⟨ex_dev_a, "z", false, true⟩],
   [⟨ex_dev_b, "y", true, false⟩]]

/-- A sequence of calls: a region with one change, then an unmatched `end`. -/
def ex_batcher_ops : List BatcherOp :=
  [.atomic_begin, .record ⟨ex_dev_a, "x", true, false⟩, .atomic_end, .atomic_end]

/-- The state after `ex_batcher_ops` when every send succeeds. -/
def ex_batcher_final : DbusState :=
  (run_batcher_ops env_send_ok ex_batcher_ops DbusState.init).getD DbusState.init

/-- A sequence of calls that stops inside a nested region with one change
pending. -/
def ex_batcher_nested_ops : List BatcherOp :=
  [.atomic_begin, .atomic_begin, .record ⟨ex_dev_a, "x", true, false⟩]

/-- The state after `ex_batcher_nested_ops`. -/
def ex_batcher_nested : DbusState :=
  (run_batcher_ops env_send_ok ex_batcher_nested_ops DbusState.init).getD DbusState.init

/-- Sample values of the two status constants. -/
def ex_consts : RunnerConsts := { HALD_RUN_SUCCESS := 0, HALD_RUN_FAILED := 1 }

/-- The data of a call for device a with callback 7 and caller values 11, 12. -/
def ex_helper : HelperData := { d := some ex_dev_a, cb := some 7, data1 := 11, data2 := 12 }

/-- An error reply. -/
def ex_reply_error : RunnerMessage :=
  { msg_type := .ERROR, path := "", interface := "", member := "",
    args := [.string "org.freedesktop.DBus.Error.NoReply"] }

/-- A method return with status `v`, return code 3, two error lines, then an
INT32 and a further string. -/
def ex_reply_status (v : Nat) : RunnerMessage :=
  { msg_type := .METHOD_RETURN, path := "", interface := "", member := "",
    args := [.uint32 v, .int32 3, .string "line one", .string "line two", .int32 5,
      .string "late"] }

/-- A method return that carries the pid `v`. -/
def ex_reply_pid (v : Int) : RunnerMessage :=
  { msg_type := .METHOD_RETURN, path := "", interface := "", member := "",
    args := [.int64 v] }

/-- An environment in which the empty command line does not parse and any other
parses to itself, no allocation fails, and the connection answers every
request with `send` and `reply`. -/
def env_runner (send : SendWithReply) (reply : Option RunnerMessage) : RunnerEnv :=
  { g_shell_parse_argv := fun command_line =>
      if command_line = "" then none else some [command_line],
    new_method_call_ok := true,
    open_container_ok := true,
    send_with_reply := fun _ => send,
    send_with_reply_and_block := fun _ => reply,
    hald_is_verbose := false,
    hald_is_initialising := false,
    hald_use_syslog := false,
    hald_dbus_local_server_addr := "unix:abstract=/tmp/hald-local",
    have_polkit := false,
    conkit_env := [],
    uname_sysname := some "Linux" }

/-- The record of a started process with pid `pid` and callback `cb`. -/
def ex_running (pid : Int) (cb : Nat) : RunningProcess :=
  { pid := pid, device := some ex_dev_a, cb := some cb, data1 := pid.toNat, data2 := 0 }

/-- Three started processes, the pid 20 twice. -/
def ex_three_running : RunnerState :=
  { RunnerState.init with
    running_processes := [ex_running 10 1, ex_running 20 2, ex_running 20 3] }

/-- The signal `StartedProcessExited (pid)`. -/
def ex_exited (pid : Int) : RunnerMessage :=
  { msg_type := .SIGNAL, path := "/org/freedesktop/HalRunner",
    interface := "org.freedesktop.HalRunner", member := "StartedProcessExited",
    args := [.int64 pid] }

/-- Two records of device a and one of device b between them. -/
def ex_running_two_devices : RunnerState :=
  { RunnerState.init with
    running_processes :=
      [ex_running 10 1, { ex_running 20 2 with device := some ex_dev_b }, ex_running 30 3] }

/-- Device a after a property has been set: the same object, other contents. -/
def ex_dev_a_changed : HalDevice :=
  { ex_dev_a with properties := [("info.category", "input")] }

/-- A device with two properties. -/
def ex_dev_props : HalDevice :=
  { addr := 4, udi := "/org/freedesktop/Hal/devices/mouse",
    properties := [("info.product_2", "Mouse"), ("info.bus", "usb")] }

/-- A battery reporting in mAh whose products overflow 32 bits. -/
def ex_battery : BatteryReporting :=
  { reporting_unit := some "mAh", reporting_current := 2000000, reporting_lastfull := 4400,
    reporting_rate := 0xffff, design_voltage := 11100, voltage := 12000, charging := true,
    discharging := false }

/-- The pending list after the changes of `ex_changes_interleaved`: the nodes
most recently queued first. -/
def ex_pending_interleaved : List PendingUpdate :=
  [{ udi := some ex_dev_a.udi, key := "z", removed := false, added := true },
   { udi := some ex_dev_b.udi, key := "y", removed := false, added := true },
   { udi := some ex_dev_a.udi, key := "x", removed := false, added := true }]

/-- The 16 bytes of an MS-DOS entry of type `ptype` that starts at sector
`start` and has `size` sectors. -/
def ex_msdos_entry (ptype start size : Nat) : List Nat :=
  [0, 0, 0, 0, ptype, 0, 0, 0,
   start % 256, start / 256 % 256, start / 256 ^ 2 % 256, start / 256 ^ 3 % 256,
   size % 256, size / 256 % 256, size / 256 ^ 2 % 256, size / 256 ^ 3 % 256]

/-- The table of an extended partition that starts at sector 2000: one logical
partition of 900 sectors that starts 63 sectors into it. -/
def ex_embr : PartitionTable :=
  .mk .PART_TYPE_MSDOS_EXTENDED (2000 * 0x200) (5000 * 0x200)
    [.mk false none (ex_msdos_entry 0x83 63 900) 16 (2000 * 0x200 + 0x1be)]

/-- An MS-DOS table: a primary partition at sector 63 of 1000 sectors and an
extended partition at sector 2000 of 5000 sectors. -/
def ex_mbr : PartitionTable :=
  .mk .PART_TYPE_MSDOS 0 (10000 * 0x200)
    [.mk false none (ex_msdos_entry 0x83 63 1000) 16 0x1be,
     .mk true (some ex_embr) (ex_msdos_entry 0x05 2000 5000) 16 (0x1be + 16)]

/-! ## Lemmas on the callout queue -/

theorem pop_pending_callout_nil (s : CalloutState) (h : s.pending_callouts = []) :
    pop_pending_callout s = (none, s) := by
  simp [pop_pending_callout, h]

theorem pop_pending_callout_cons (s : CalloutState) (c : Callout) (q : List Callout)
    (h : s.pending_callouts = c :: q) :
    pop_pending_callout s = (some c, { s with pending_callouts := q }) := by
  simp [pop_pending_callout, h, g_slist_remove]

theorem next_callout_active (env : CalloutEnv) (fuel : Nat) (s : CalloutState)
    (h : s.active_callout.isSome = true) : next_callout env fuel s = s := by
  cases fuel with
  | zero => rfl
  | succ n => simp [next_callout, h]

/-- What the retry loop does from a state with no active callout: it discards
a run `failed` of callouts from the front of the queue, one per failed spawn,
and then either finds the queue empty or spawns the next callout. -/
theorem next_callout_spec (env : CalloutEnv) (fuel : Nat) (s : CalloutState)
    (hact : s.active_callout = none) (hfuel : s.pending_callouts.length < fuel) :
    ∃ failed : List Callout,
      (∀ i, i < failed.length → env.g_spawn_async (s.spawn_count + i) = none) ∧
      ((next_callout env fuel s =
          { s with pending_callouts := [], spawn_count := s.spawn_count + failed.length,
                   log := s.log ++ failed.map failed_event } ∧
        s.pending_callouts = failed) ∨
       (∃ c pid rest, s.pending_callouts = failed ++ c :: rest ∧
          env.g_spawn_async (s.spawn_count + failed.length) = some pid ∧
          next_callout env fuel s =
            { s with pending_callouts := rest, active_callout := some (spawned_callout c pid),
                     spawn_count := s.spawn_count + failed.length + 1,
                     log := s.log ++ failed.map failed_event ++ [spawned_event c pid] })) := by
  induction fuel generalizing s with
  | zero => omega
  | succ n ih =>
    cases hp : s.pending_callouts with
    | nil =>
      refine ⟨[], by simp, Or.inl ⟨?_, rfl⟩⟩
      simp [next_callout, hact, pop_pending_callout_nil s hp]
      cases s; simp_all
    | cons c q =>
      cases hs : env.g_spawn_async s.spawn_count with
      | some pid =>
        refine ⟨[], by simp, Or.inr ⟨c, pid, q, by simp, by simpa using hs, ?_⟩⟩
        simp [next_callout, hact, pop_pending_callout_cons s c q hp, hs, CalloutState.emit,
          spawned_event, spawned_callout]
      | none =>
        have hstep : next_callout env (n + 1) s =
            next_callout env n
              { s with pending_callouts := q, spawn_count := s.spawn_count + 1,
                       log := s.log ++ [failed_event c] } := by
          simp [next_callout, hact, pop_pending_callout_cons s c q hp, hs, CalloutState.emit,
            failed_event]
        have hlen : q.length < n := by
          rw [hp] at hfuel; simp at hfuel; omega
        obtain ⟨failed, hf, hres⟩ := ih
          { s with pending_callouts := q, spawn_count := s.spawn_count + 1,
                   log := s.log ++ [failed_event c] } hact hlen
        refine ⟨c :: failed, ?_, ?_⟩
        · intro i hi
          cases i with
          | zero => simpa using hs
          | succ j =>
            have := hf j (by simpa using hi)
            simpa [Nat.add_assoc, Nat.add_comm 1 j] using this
        · rw [hstep]
          rcases hres with ⟨h1, h2⟩ | ⟨c', pid, rest, h1, h2, h3⟩
          · left
            refine ⟨?_, by simpa using h2⟩
            rw [h1]
            simp [Nat.add_assoc, Nat.add_comm 1]
          · right
            refine ⟨c', pid, rest, by simpa using h1, ?_, ?_⟩
            · simpa [Nat.add_assoc, Nat.add_comm 1] using h2
            · rw [h3]
              simp [Nat.add_assoc, Nat.add_comm 1, Nat.add_left_comm]

theorem scan_step_no_match (mk : String → Callout) (acc : ScanState) (e : DirEntry)
    (h : e.matches = false) : scan_step mk acc e = acc := by
  unfold scan_step
  unfold DirEntry.matches at h
  cases hs : g_str_has_suffix e.filename ".hal" <;> cases he : e.is_executable <;>
    simp_all

theorem scan_step_match (mk : String → Callout) (acc : ScanState) (e : DirEntry)
    (h : e.matches = true) :
    scan_step mk acc e =
      { st := add_pending_callout acc.st (mk e.filename), callout := some (mk e.filename),
        any_callouts := true } := by
  unfold scan_step
  unfold DirEntry.matches at h
  cases hs : g_str_has_suffix e.filename ".hal" <;> cases he : e.is_executable <;>
    simp_all

theorem foldl_scan_no_match (mk : String → Callout) (entries : List DirEntry)
    (acc : ScanState) (h : ∀ e ∈ entries, e.matches = false) :
    entries.foldl (scan_step mk) acc = acc := by
  induction entries generalizing acc with
  | nil => rfl
  | cons e es ih =>
    simp only [List.foldl_cons]
    rw [scan_step_no_match mk acc e (h e (List.mem_cons_self _ _))]
    exact ih acc (fun x hx => h x (List.mem_cons_of_mem _ hx))

theorem running_concat (l : List Event) (e : Event) :
    running (l ++ [e]) = running_step (running l) e := by
  simp [running, List.foldl_append]

theorem running_step_neutral (r : List Callout) (e : Event) (h : e.neutral = true) :
    running_step r e = r := by
  cases e <;> simp_all [running_step, Event.neutral]

theorem serial_log_concat (l : List Event) (e : Event) (h : serial_log l)
    (he : (running (l ++ [e])).length ≤ 1) : serial_log (l ++ [e]) := by
  intro p hp
  rcases List.prefix_concat_iff.mp hp with rfl | hp
  · exact he
  · exact h p hp

theorem serial_log_append_neutral (l seg : List Event) (h : serial_log l)
    (hl : (running l).length ≤ 1) (hseg : ∀ e ∈ seg, e.neutral = true) :
    serial_log (l ++ seg) ∧ running (l ++ seg) = running l := by
  induction seg using List.reverseRecOn with
  | nil => simpa using h
  | append_singleton seg e ih =>
    have ih' := ih (fun x hx => hseg x (by simp [hx]))
    have hrun : running (l ++ (seg ++ [e])) = running l := by
      rw [← List.append_assoc, running_concat, ih'.2]
      exact running_step_neutral _ _ (hseg e (by simp))
    refine ⟨?_, hrun⟩
    rw [← List.append_assoc]
    apply serial_log_concat _ _ ih'.1
    rw [List.append_assoc, hrun]
    exact hl

theorem serial_running_le (s : CalloutState) (h : Serial s) : (running s.log).length ≤ 1 := by
  rw [h.2]; cases s.active_callout <;> simp

theorem serial_emit_neutral (s : CalloutState) (e : Event) (h : Serial s)
    (he : e.neutral = true) : Serial (s.emit e) := by
  have := serial_log_append_neutral s.log [e] h.1 (serial_running_le s h)
    (by intro x hx; simp at hx; rw [hx]; exact he)
  exact ⟨this.1, by simpa [CalloutState.emit, h.2] using this.2⟩

theorem serial_congr (s t : CalloutState) (h : Serial s) (hlog : t.log = s.log)
    (hact : t.active_callout = s.active_callout) : Serial t := by
  unfold Serial at *
  rw [hlog, hact]; exact h

theorem serial_next_callout (env : CalloutEnv) (fuel : Nat) (s : CalloutState)
    (hfuel : s.pending_callouts.length < fuel) (h : Serial s) :
    Serial (next_callout env fuel s) := by
  cases hact : s.active_callout with
  | some a => rw [next_callout_active env fuel s (by simp [hact])]; exact h
  | none =>
    obtain ⟨failed, -, hres⟩ := next_callout_spec env fuel s hact hfuel
    have hn := serial_log_append_neutral s.log (failed.map failed_event) h.1
      (serial_running_le s h)
      (by intro e he; simp at he; obtain ⟨c, -, rfl⟩ := he; rfl)
    have hrun : running s.log = [] := by rw [h.2, hact]; rfl
    rcases hres with ⟨h1, -⟩ | ⟨c, pid, rest, -, -, h3⟩
    · rw [h1]
      exact ⟨hn.1, by simpa [hact, hrun] using hn.2⟩
    · rw [h3]
      have hr : running (s.log ++ failed.map failed_event ++ [spawned_event c pid])
          = [spawned_callout c pid] := by
        rw [running_concat, hn.2, hrun]; rfl
      refine ⟨?_, by simpa using hr⟩
      apply serial_log_concat _ _ hn.1
      rw [hr]; simp

theorem install_sigchild_handler_ok (env : CalloutEnv) (s s1 : CalloutState)
    (h : install_sigchild_handler env s = .ok s1) :
    s1 = { s with have_installed_sigchild_handler := true } := by
  unfold install_sigchild_handler at h
  split at h
  · rename_i hh
    cases h
    cases s
    simp_all
  · split at h
    · cases h
    · split at h
      · cases h
      · cases h; rfl

theorem process_next_callout_ok (env : CalloutEnv) (s s' : CalloutState)
    (h : process_next_callout env s = .ok s') :
    s' = next_callout env (s.pending_callouts.length + 1)
      { s with have_installed_sigchild_handler := true } := by
  unfold process_next_callout at h
  cases hi : install_sigchild_handler env s with
  | ok s1 =>
    have := install_sigchild_handler_ok env s s1 hi
    subst this
    simp [hi, Outcome.bind] at h
    exact h.symm
  | die => simp [hi, Outcome.bind] at h
  | segv => simp [hi, Outcome.bind] at h

theorem serial_process_next_callout (env : CalloutEnv) (s s' : CalloutState)
    (h : Serial s) (hs : process_next_callout env s = .ok s') : Serial s' := by
  rw [process_next_callout_ok env s s' hs]
  apply serial_next_callout
  · simp
  · exact serial_congr s _ h rfl rfl

theorem reap_loop_cons_ok (env : CalloutEnv) (p : Int) (rest : List Int)
    (s s' : CalloutState) (h : reap_loop env (p :: rest) s = .ok s') :
    ((p = 0 ∨ p = -1) ∧ s' = s.emit (.waitpid p)) ∨
    (∃ a, s.active_callout = some a ∧ a.pid ≠ p ∧ p ≠ 0 ∧ p ≠ -1 ∧
      s' = s.emit (.waitpid p)) ∨
    (∃ a s3, s.active_callout = some a ∧ a.pid = p ∧ p ≠ 0 ∧ p ≠ -1 ∧
      process_next_callout env (reap_active (s.emit (.waitpid p)) a) = .ok s3 ∧
      reap_loop env rest s3 = .ok s') := by
  unfold reap_loop at h
  by_cases hp0 : p = 0
  · simp [hp0] at h; left; exact ⟨Or.inl hp0, by rw [hp0]; exact h.symm⟩
  by_cases hp1 : p = -1
  · simp [hp1] at h; left; exact ⟨Or.inr hp1, by rw [hp1]; exact h.symm⟩
  right
  simp only [hp0, hp1, if_false] at h
  cases hact : s.active_callout with
  | none => simp [CalloutState.emit, hact] at h
  | some a =>
    have hact' : (s.emit (.waitpid p)).active_callout = some a := by
      simpa [CalloutState.emit] using hact
    simp only [hact'] at h
    by_cases hpid : a.pid = p
    · right
      simp only [hpid, ne_eq, not_true_eq_false, if_false] at h
      cases hn : process_next_callout env (reap_active (s.emit (.waitpid p)) a) with
      | ok s3 =>
        rw [hn] at h
        exact ⟨a, s3, rfl, hpid, hp0, hp1, hn, h⟩
      | die => rw [hn] at h; simp [Outcome.bind] at h
      | segv => rw [hn] at h; simp [Outcome.bind] at h
    · left
      simp [hpid] at h
      exact ⟨a, rfl, hpid, hp0, hp1, h.symm⟩

theorem serial_reap_active (s : CalloutState) (a : Callout) (h : Serial s)
    (hact : s.active_callout = some a) : Serial (reap_active s a) := by
  have h2 : Serial (if a.last_of_device then s.emit (.callouts_finished a.device) else s) := by
    split
    · exact serial_emit_neutral _ _ h rfl
    · exact h
  have hrun : running (if a.last_of_device then
      s.emit (.callouts_finished a.device) else s).log = [a] := by
    rw [h2.2]
    split <;> simp [CalloutState.emit, hact]
  have hr : running ((if a.last_of_device then
      s.emit (.callouts_finished a.device) else s).log ++ [.released a]) = [] := by
    rw [running_concat, hrun]
    simp [running_step]
  constructor
  · apply serial_log_concat _ _ h2.1
    rw [hr]; simp
  · simpa [reap_active, CalloutState.emit] using hr

theorem serial_reap_loop (env : CalloutEnv) (waits : List Int) (s s' : CalloutState)
    (h : Serial s) (hs : reap_loop env waits s = .ok s') : Serial s' := by
  induction waits generalizing s with
  | nil =>
    simp [reap_loop] at hs
    subst hs
    exact serial_emit_neutral s _ h rfl
  | cons p rest ih =>
    have h1 : Serial (s.emit (.waitpid p)) := serial_emit_neutral s _ h rfl
    rcases reap_loop_cons_ok env p rest s s' hs with ⟨-, rfl⟩ | ⟨a, -, -, -, -, rfl⟩ |
      ⟨a, s3, hact, -, -, -, hn, hrest⟩
    · exact h1
    · exact h1
    · refine ih s3 ?_ hrest
      refine serial_process_next_callout env _ s3 ?_ hn
      exact serial_reap_active _ a h1 (by simpa [CalloutState.emit] using hact)

theorem foldl_scan_step (mk : String → Callout) (entries : List DirEntry) (acc : ScanState) :
    (entries.foldl (scan_step mk) acc).st =
        { acc.st with
          pending_callouts := acc.st.pending_callouts ++ scanned_callouts mk entries
          log := acc.st.log ++ (scanned_callouts mk entries).map .enqueued } ∧
      (entries.foldl (scan_step mk) acc).callout =
        (if scanned_callouts mk entries = [] then acc.callout
         else (scanned_callouts mk entries).getLast?) ∧
      (entries.foldl (scan_step mk) acc).any_callouts =
        (acc.any_callouts || !(scanned_callouts mk entries).isEmpty) := by
  induction entries generalizing acc with
  | nil => simp [scanned_callouts]
  | cons e es ih =>
    simp only [List.foldl_cons]
    cases hm : e.matches with
    | false =>
      rw [scan_step_no_match mk acc e hm]
      have : scanned_callouts mk (e :: es) = scanned_callouts mk es := by
        simp [scanned_callouts, List.filter_cons, hm]
      rw [this]
      exact ih acc
    | true =>
      rw [scan_step_match mk acc e hm]
      have : scanned_callouts mk (e :: es) = mk e.filename :: scanned_callouts mk es := by
        simp [scanned_callouts, List.filter_cons, hm]
      rw [this]
      obtain ⟨h1, h2, h3⟩ := ih
        { st := add_pending_callout acc.st (mk e.filename), callout := some (mk e.filename),
          any_callouts := true }
      refine ⟨?_, ?_, ?_⟩
      · rw [h1]
        simp [add_pending_callout, g_slist_append, CalloutState.emit]
      · rw [h2]
        cases hsc : scanned_callouts mk es with
        | nil => simp
        | cons c cs => simp [List.getLast?_cons_cons]
      · rw [h3]; simp

theorem scan_callout_dir_st (mk : String → Callout) (entries : List DirEntry)
    (s : CalloutState) :
    (scan_callout_dir mk entries s).st =
      { s with
        pending_callouts := s.pending_callouts ++ scanned_callouts mk entries
        log := s.log ++ (scanned_callouts mk entries).map .enqueued } :=
  (foldl_scan_step mk entries _).1

theorem scan_callout_dir_any (mk : String → Callout) (entries : List DirEntry)
    (s : CalloutState) :
    (scan_callout_dir mk entries s).any_callouts = !(scanned_callouts mk entries).isEmpty := by
  have := (foldl_scan_step mk entries { st := s, callout := none, any_callouts := false }).2.2
  simpa [scan_callout_dir] using this

theorem scan_callout_dir_callout (mk : String → Callout) (entries : List DirEntry)
    (s : CalloutState) :
    (scan_callout_dir mk entries s).callout = (scanned_callouts mk entries).getLast? := by
  have := (foldl_scan_step mk entries { st := s, callout := none, any_callouts := false }).2.1
  rw [scan_callout_dir, this]
  split
  · rename_i h; rw [h]; rfl
  · rfl

/-- The queue state after the directory loop and the marking of the last
callout. -/
theorem set_last_of_device_scan (mk : String → Callout) (entries : List DirEntry)
    (s : CalloutState) :
    set_last_of_device (scan_callout_dir mk entries s) =
      { s with
        pending_callouts :=
          if scanned_callouts mk entries = [] then s.pending_callouts
          else mark_last (s.pending_callouts ++ scanned_callouts mk entries)
        log := s.log ++ (scanned_callouts mk entries).map .enqueued } := by
  unfold set_last_of_device
  rw [scan_callout_dir_callout, scan_callout_dir_st]
  cases hsc : scanned_callouts mk entries with
  | nil => simp
  | cons c cs =>
    have : (c :: cs).getLast? = some ((c :: cs).getLast (by simp)) := List.getLast?_eq_getLast _ _
    rw [this]
    simp

theorem serial_set_last_of_device_scan (mk : String → Callout) (entries : List DirEntry)
    (s : CalloutState) (h : Serial s) :
    Serial (set_last_of_device (scan_callout_dir mk entries s)) := by
  rw [set_last_of_device_scan]
  have := serial_log_append_neutral s.log ((scanned_callouts mk entries).map .enqueued) h.1
    (serial_running_le s h) (by intro e he; simp at he; obtain ⟨c, -, rfl⟩ := he; rfl)
  exact ⟨this.1, by simpa [h.2] using this.2⟩

theorem serial_step (env : CalloutEnv) (op : CalloutOp) (s s' : CalloutState)
    (h : Serial s) (hs : op.step env s = .ok s') : Serial s' := by
  cases op with
  | device g dir d added =>
    simp only [CalloutOp.step, hal_callout_device] at hs
    split at hs
    · cases hs; exact serial_emit_neutral s _ h rfl
    · split at hs
      · cases hs; exact serial_emit_neutral s _ h rfl
      · rename_i entries _
        have h1 := serial_set_last_of_device_scan (device_callout g d added) entries s h
        cases ha : (scan_callout_dir (device_callout g d added) entries s).any_callouts with
        | false =>
          simp [ha, Outcome.bind] at hs
          subst hs
          exact serial_emit_neutral _ _ h1 rfl
        | true =>
          simp only [ha, if_true] at hs
          cases hn : process_next_callout env
              (set_last_of_device (scan_callout_dir (device_callout g d added) entries s)) with
          | ok s2 =>
            rw [hn] at hs
            simp [Outcome.bind] at hs
            subst hs
            exact serial_process_next_callout env _ s2 h1 hn
          | die => rw [hn] at hs; simp [Outcome.bind] at hs
          | segv => rw [hn] at hs; simp [Outcome.bind] at hs
  | capability g dir d cap added =>
    simp only [CalloutOp.step, hal_callout_capability] at hs
    split at hs
    · cases hs; exact h
    · split at hs
      · cases hs; exact h
      · rename_i entries _
        exact serial_process_next_callout env _ s'
          (serial_set_last_of_device_scan _ entries s h) hs
  | property g dir d key =>
    simp only [CalloutOp.step, hal_callout_property] at hs
    split at hs
    · cases hs; exact h
    · split at hs
      · cases hs; exact h
      · rename_i entries _
        exact serial_process_next_callout env _ s'
          (serial_set_last_of_device_scan _ entries s h) hs
  | sigchld read_ok waits =>
    simp only [CalloutOp.step, iochn_data] at hs
    split at hs
    · cases hs; exact h
    · exact serial_reap_loop env waits s s' h hs

theorem serial_run (env : CalloutEnv) (ops : List CalloutOp) (s s' : CalloutState)
    (h : Serial s) (hs : run_callout_ops env ops s = .ok s') : Serial s' := by
  induction ops generalizing s with
  | nil => simp [run_callout_ops] at hs; subst hs; exact h
  | cons op ops ih =>
    simp only [run_callout_ops] at hs
    cases hop : op.step env s with
    | ok s1 =>
      rw [hop] at hs
      exact ih s1 (serial_step env op s s1 h hop) hs
    | die => rw [hop] at hs; simp [Outcome.bind] at hs
    | segv => rw [hop] at hs; simp [Outcome.bind] at hs

theorem serial_init : Serial CalloutState.init := by
  constructor
  · intro p hp
    simp [CalloutState.init] at hp
    subst hp
    simp [running]
  · rfl

theorem spawn_attempts_append (l l' : List Event) :
    spawn_attempts (l ++ l') = spawn_attempts l ++ spawn_attempts l' := by
  simp [spawn_attempts]

theorem enqueued_callouts_append (l l' : List Event) :
    enqueued_callouts (l ++ l') = enqueued_callouts l ++ enqueued_callouts l' := by
  simp [enqueued_callouts]

theorem is_hal_prop_hal_prop_env (key value : String) :
    is_hal_prop (hal_prop_env key value) = true := by
  unfold is_hal_prop hal_prop_env
  simp only [String.data_append, List.append_assoc]
  exact List.isPrefixOf_iff_prefix.mpr (List.prefix_append _ _)

theorem add_property_to_env_ident (c : Callout) (p : String × String) :
    (add_property_to_env c p).ident = c.ident := by
  simp [Callout.ident, Callout.fixed_env, add_property_to_env, List.filter_append,
    is_hal_prop_hal_prop_env]

theorem foldl_add_property_to_env_ident (props : List (String × String)) (c : Callout) :
    (props.foldl add_property_to_env c).ident = c.ident := by
  induction props generalizing c with
  | nil => rfl
  | cons p ps ih => simp only [List.foldl_cons]; rw [ih, add_property_to_env_ident]

theorem hal_device_property_foreach_ident (c : Callout) :
    (hal_device_property_foreach c).ident = c.ident :=
  foldl_add_property_to_env_ident _ c

theorem spawned_callout_ident (c : Callout) (pid : Int) :
    (spawned_callout c pid).ident = c.ident := by
  have := hal_device_property_foreach_ident c
  simpa [spawned_callout, Callout.ident] using this

theorem mark_last_ident (l : List Callout) :
    (mark_last l).map Callout.ident = l.map Callout.ident := by
  induction l with
  | nil => rfl
  | cons c l ih =>
    cases l with
    | nil => rfl
    | cons d l => simp only [mark_last, List.map_cons] at *; rw [ih]

theorem spawn_attempts_failed (failed : List Callout) :
    (spawn_attempts (failed.map failed_event)).map Callout.ident = failed.map Callout.ident := by
  induction failed with
  | nil => rfl
  | cons c cs ih =>
    simp only [List.map_cons, spawn_attempts, failed_event, List.filterMap_cons] at *
    rw [ih, hal_device_property_foreach_ident]

theorem enqueued_callouts_failed (failed : List Callout) :
    enqueued_callouts (failed.map failed_event) = [] := by
  induction failed with
  | nil => rfl
  | cons c cs ih => simp [enqueued_callouts, failed_event]

theorem fifo_emit (s : CalloutState) (e : Event) (h : Fifo s)
    (h1 : spawn_attempts [e] = []) (h2 : enqueued_callouts [e] = []) : Fifo (s.emit e) := by
  unfold Fifo at *
  simp only [CalloutState.emit, spawn_attempts_append, enqueued_callouts_append, h1, h2,
    List.append_nil]
  exact h

theorem fifo_next_callout (env : CalloutEnv) (fuel : Nat) (s : CalloutState)
    (hfuel : s.pending_callouts.length < fuel) (h : Fifo s) :
    Fifo (next_callout env fuel s) := by
  cases hact : s.active_callout with
  | some a => rw [next_callout_active env fuel s (by simp [hact])]; exact h
  | none =>
    obtain ⟨failed, -, hres⟩ := next_callout_spec env fuel s hact hfuel
    unfold Fifo at *
    rcases hres with ⟨h1, h2⟩ | ⟨c, pid, rest, h1, -, h3⟩
    · rw [h1]
      simp only [spawn_attempts_append, enqueued_callouts_append, enqueued_callouts_failed,
        List.map_append, spawn_attempts_failed, List.append_nil, List.map_nil]
      rw [← h, h2]
    · rw [h3]
      simp only [spawn_attempts_append, enqueued_callouts_append, enqueued_callouts_failed,
        List.map_append, spawn_attempts_failed, List.append_nil]
      rw [← h, h1]
      simp [spawn_attempts, enqueued_callouts, spawned_event, spawned_callout_ident]

theorem fifo_process_next_callout (env : CalloutEnv) (s s' : CalloutState)
    (h : Fifo s) (hs : process_next_callout env s = .ok s') : Fifo s' := by
  rw [process_next_callout_ok env s s' hs]
  apply fifo_next_callout
  · simp
  · exact h

theorem fifo_reap_active (s : CalloutState) (a : Callout) (h : Fifo s) :
    Fifo (reap_active s a) := by
  unfold Fifo at *
  unfold reap_active
  split <;>
    simpa [CalloutState.emit, spawn_attempts_append, enqueued_callouts_append, spawn_attempts,
      enqueued_callouts] using h

theorem fifo_reap_loop (env : CalloutEnv) (waits : List Int) (s s' : CalloutState)
    (h : Fifo s) (hs : reap_loop env waits s = .ok s') : Fifo s' := by
  induction waits generalizing s with
  | nil =>
    simp [reap_loop] at hs
    subst hs
    exact fifo_emit s _ h rfl rfl
  | cons p rest ih =>
    have h1 : Fifo (s.emit (.waitpid p)) := fifo_emit s _ h rfl rfl
    rcases reap_loop_cons_ok env p rest s s' hs with ⟨-, rfl⟩ | ⟨a, -, -, -, -, rfl⟩ |
      ⟨a, s3, -, -, -, -, hn, hrest⟩
    · exact h1
    · exact h1
    · exact ih s3 (fifo_process_next_callout env _ s3 (fifo_reap_active _ a h1) hn) hrest

theorem enqueued_callouts_enqueued (cs : List Callout) :
    enqueued_callouts (cs.map .enqueued) = cs := by
  induction cs with
  | nil => rfl
  | cons c cs ih => simpa [enqueued_callouts] using ih

theorem spawn_attempts_enqueued (cs : List Callout) :
    spawn_attempts (cs.map .enqueued) = [] := by
  induction cs with
  | nil => rfl
  | cons c cs ih => simp [spawn_attempts]

theorem fifo_set_last_of_device_scan (mk : String → Callout) (entries : List DirEntry)
    (s : CalloutState) (h : Fifo s) :
    Fifo (set_last_of_device (scan_callout_dir mk entries s)) := by
  rw [set_last_of_device_scan]
  unfold Fifo at *
  simp only [spawn_attempts_append, enqueued_callouts_append, spawn_attempts_enqueued,
    enqueued_callouts_enqueued, List.append_nil, List.map_append]
  rw [← h]
  split
  · rename_i hnil; simp [hnil]
  · rw [mark_last_ident]; simp

theorem fifo_step (env : CalloutEnv) (op : CalloutOp) (s s' : CalloutState)
    (h : Fifo s) (hs : op.step env s = .ok s') : Fifo s' := by
  cases op with
  | device g dir d added =>
    simp only [CalloutOp.step, hal_callout_device] at hs
    split at hs
    · cases hs; exact fifo_emit s _ h rfl rfl
    · split at hs
      · cases hs; exact fifo_emit s _ h rfl rfl
      · rename_i entries _
        have h1 := fifo_set_last_of_device_scan (device_callout g d added) entries s h
        cases ha : (scan_callout_dir (device_callout g d added) entries s).any_callouts with
        | false =>
          simp [ha, Outcome.bind] at hs
          subst hs
          exact fifo_emit _ _ h1 rfl rfl
        | true =>
          simp only [ha, if_true] at hs
          cases hn : process_next_callout env
              (set_last_of_device (scan_callout_dir (device_callout g d added) entries s)) with
          | ok s2 =>
            rw [hn] at hs
            simp [Outcome.bind] at hs
            subst hs
            exact fifo_process_next_callout env _ s2 h1 hn
          | die => rw [hn] at hs; simp [Outcome.bind] at hs
          | segv => rw [hn] at hs; simp [Outcome.bind] at hs
  | capability g dir d cap added =>
    simp only [CalloutOp.step, hal_callout_capability] at hs
    split at hs
    · cases hs; exact h
    · split at hs
      · cases hs; exact h
      · rename_i entries _
        exact fifo_process_next_callout env _ s'
          (fifo_set_last_of_device_scan _ entries s h) hs
  | property g dir d key =>
    simp only [CalloutOp.step, hal_callout_property] at hs
    split at hs
    · cases hs; exact h
    · split at hs
      · cases hs; exact h
      · rename_i entries _
        exact fifo_process_next_callout env _ s'
          (fifo_set_last_of_device_scan _ entries s h) hs
  | sigchld read_ok waits =>
    simp only [CalloutOp.step, iochn_data] at hs
    split at hs
    · cases hs; exact h
    · exact fifo_reap_loop env waits s s' h hs

theorem fifo_run (env : CalloutEnv) (ops : List CalloutOp) (s s' : CalloutState)
    (h : Fifo s) (hs : run_callout_ops env ops s = .ok s') : Fifo s' := by
  induction ops generalizing s with
  | nil => simp [run_callout_ops] at hs; subst hs; exact h
  | cons op ops ih =>
    simp only [run_callout_ops] at hs
    cases hop : op.step env s with
    | ok s1 =>
      rw [hop] at hs
      exact ih s1 (fifo_step env op s s1 h hop) hs
    | die => rw [hop] at hs; simp [Outcome.bind] at hs
    | segv => rw [hop] at hs; simp [Outcome.bind] at hs

theorem is_hal_prop_flag_env (g : HaldGlobals) :
    (flag_env g).filter (fun e => !is_hal_prop e) = flag_env g := by
  cases g with
  | mk dir v i sh => cases v <;> cases i <;> cases sh <;> rfl

theorem is_hal_prop_udi (x : String) : is_hal_prop ("UDI=" ++ x) = false := by
  cases x; rfl

theorem is_hal_prop_capability (x : String) : is_hal_prop ("CAPABILITY=" ++ x) = false := by
  cases x; rfl

theorem is_hal_prop_property (x : String) : is_hal_prop ("PROPERTY=" ++ x) = false := by
  cases x; rfl

theorem is_hal_prop_value (x : String) : is_hal_prop ("VALUE=" ++ x) = false := by
  cases x; rfl

theorem device_callout_ident (g : HaldGlobals) (device : HalDevice) (added : Bool)
    (filename : String) :
    (device_callout g device added filename).ident =
      (DEVICE_CALLOUT_DIR g, filename,
        (if added then CalloutAction.CALLOUT_ADD else CalloutAction.CALLOUT_REMOVE), device,
        ["UDI=" ++ device.udi] ++ flag_env g) := by
  simp [Callout.ident, Callout.fixed_env, device_callout, List.filter_cons, is_hal_prop_udi,
    is_hal_prop_flag_env]

theorem capability_callout_ident (g : HaldGlobals) (device : HalDevice) (capability : String)
    (added : Bool) (filename : String) :
    (capability_callout g device capability added filename).ident =
      (CAPABILITY_CALLOUT_DIR g, filename,
        (if added then CalloutAction.CALLOUT_ADD else CalloutAction.CALLOUT_REMOVE), device,
        ["UDI=" ++ device.udi, "CAPABILITY=" ++ capability] ++ flag_env g) := by
  simp [Callout.ident, Callout.fixed_env, capability_callout, List.filter_cons,
    is_hal_prop_udi, is_hal_prop_capability, is_hal_prop_flag_env]

theorem property_callout_ident (g : HaldGlobals) (device : HalDevice) (key : String)
    (filename : String) :
    (property_callout g device key filename).ident =
      (PROPERTY_CALLOUT_DIR g, filename, CalloutAction.CALLOUT_MODIFY, device,
        ["UDI=" ++ device.udi, "PROPERTY=" ++ key,
          "VALUE=" ++ hal_device_property_to_string device key] ++ flag_env g) := by
  simp [Callout.ident, Callout.fixed_env, property_callout, List.filter_cons,
    is_hal_prop_udi, is_hal_prop_property, is_hal_prop_value, is_hal_prop_flag_env]

/-- One run of the retry loop takes its spawn attempts from the front of the
pending queue, in queue order, and leaves the rest of the queue. -/
theorem next_callout_takes_front (env : CalloutEnv) (t : CalloutState)
    (hact : t.active_callout = none) :
    ∃ n, n ≤ t.pending_callouts.length ∧
      (next_callout env (t.pending_callouts.length + 1) t).pending_callouts =
        t.pending_callouts.drop n ∧
      (spawn_attempts (next_callout env (t.pending_callouts.length + 1) t).log).map
          Callout.ident =
        (spawn_attempts t.log).map Callout.ident ++
          (t.pending_callouts.take n).map Callout.ident := by
  obtain ⟨failed, -, hres⟩ :=
    next_callout_spec env (t.pending_callouts.length + 1) t hact (Nat.lt_succ_self _)
  rcases hres with ⟨h1, h2⟩ | ⟨c, pid, rest, h1, -, h3⟩
  · refine ⟨failed.length, by rw [h2], ?_, ?_⟩
    · rw [h1, h2]; simp
    · rw [h1]
      simp only [spawn_attempts_append, List.map_append, spawn_attempts_failed]
      rw [h2]; simp
  · refine ⟨failed.length + 1, by rw [h1]; simp, ?_, ?_⟩
    · rw [h3, h1]; simp
    · rw [h3]
      simp only [spawn_attempts_append, List.map_append, spawn_attempts_failed]
      rw [h1]
      simp [spawn_attempts, spawned_event, spawned_callout_ident, List.take_append_eq_append_take]

theorem record_changes_pending (env : DbusEnv) (changes : List Change) (st : DbusState)
    (h : 0 < st.atomic_count) :
    record_changes env changes st =
      .ok { st with
            pending_updates_head := changes.reverse.map Change.pending ++ st.pending_updates_head
            num_pending_updates := st.num_pending_updates + changes.length } := by
  induction changes generalizing st with
  | nil => simp [record_changes]
  | cons c cs ih =>
    simp only [record_changes, device_send_signal_property_modified, h, if_true, Outcome.bind]
    rw [ih]
    · simp [Change.pending]
      omega
    · exact h

theorem count_updates_same (udi : String) (l : List PendingUpdate) (n : Int)
    (h : ∀ pu ∈ l, pu.udi = some udi) : count_updates udi l n = .ok (n + l.length) := by
  induction l generalizing n with
  | nil => simp [count_updates]
  | cons pu rest ih =>
    have hpu := h pu (List.mem_cons_self _ _)
    simp only [count_updates, hpu, if_true]
    rw [ih _ (fun x hx => h x (List.mem_cons_of_mem _ hx))]
    simp
    omega

theorem append_updates_same (udi : String) (first : Bool) (l : List PendingUpdate)
    (args : List DBusArg) (h : ∀ pu ∈ l, pu.udi = some udi) :
    append_updates udi first l args =
      .ok (args ++ update_args l,
        match l with
        | [] => []
        | pu :: rest =>
          (if first then pu else { pu with udi := none })
            :: rest.map (fun x => { x with udi := none })) := by
  induction l generalizing first args with
  | nil => simp [append_updates, update_args]
  | cons pu rest ih =>
    have hpu := h pu (List.mem_cons_self _ _)
    simp only [append_updates, hpu, if_true]
    rw [ih false _ (fun x hx => h x (List.mem_cons_of_mem _ hx))]
    simp only [Outcome.bind, update_args, List.append_assoc]
    cases rest with
    | nil => simp
    | cons q qs => simp

theorem flush_updates_processed (env : DbusEnv) (fuel : Nat) (l : List PendingUpdate)
    (st : DbusState) (h : ∀ pu ∈ l, pu.udi = none) : flush_updates env fuel l st = .ok st := by
  induction l generalizing fuel with
  | nil => cases fuel <;> simp [flush_updates]
  | cons pu rest ih =>
    cases fuel with
    | zero => simp [flush_updates]
    | succ n =>
      simp only [flush_updates, h pu (List.mem_cons_self _ _)]
      exact ih n (fun x hx => h x (List.mem_cons_of_mem _ hx))

/-- The flush of a non-empty pending list whose nodes all belong to one device:
one message, carrying the count and the nodes' arguments in list order, is
handed to `dbus_connection_send`. -/
theorem flush_updates_same (env : DbusEnv) (udi : String) (l : List PendingUpdate)
    (st : DbusState) (hne : l ≠ []) (h : ∀ pu ∈ l, pu.udi = some udi) :
    flush_updates env l.length l st =
      send_or_die env st (property_modified_signal udi (.int32 l.length :: update_args l)) := by
  cases l with
  | nil => exact absurd rfl hne
  | cons pu rest =>
    have hpu := h pu (List.mem_cons_self _ _)
    simp only [List.length_cons, flush_updates, hpu]
    rw [count_updates_same udi (pu :: rest) 0 h]
    simp only [Outcome.bind]
    rw [append_updates_same udi true (pu :: rest) _ h]
    simp only [Outcome.bind, List.tail_cons, List.length_cons, zero_add, List.singleton_append]
    cases hsd : send_or_die env st
        (property_modified_signal udi (.int32 (↑(rest.length + 1)) :: update_args (pu :: rest))) with
    | ok st1 =>
      simp only []
      apply flush_updates_processed
      intro x hx
      simp at hx
      obtain ⟨y, -, rfl⟩ := hx
      rfl
    | die => rfl
    | segv => rfl

/-- The outermost `end` with updates pending runs the flush and then resets
the pending list. -/
theorem atomic_update_end_outermost (env : DbusEnv) (st : DbusState)
    (hcount : st.atomic_count = 1) (hnum : 0 < st.num_pending_updates) :
    device_property_atomic_update_end env st =
      (flush_updates env st.pending_updates_head.length st.pending_updates_head
          { st with atomic_count := 0 }).bind
        (fun st2 => .ok { st2 with num_pending_updates := 0, pending_updates_head := [] }) := by
  unfold device_property_atomic_update_end
  simp [hcount, hnum]

/-! ## The loop bounds are adequate -/

/-- One pass through the label `next_callout` when the spawn fails. -/
theorem next_callout_spawn_failed (env : CalloutEnv) (n : Nat) (s : CalloutState)
    (c : Callout) (q : List Callout) (hact : s.active_callout = none)
    (hp : s.pending_callouts = c :: q) (hs : env.g_spawn_async s.spawn_count = none) :
    next_callout env (n + 1) s =
      next_callout env n
        { s with pending_callouts := q, spawn_count := s.spawn_count + 1,
                 log := s.log ++ [failed_event c] } := by
  simp [next_callout, hact, pop_pending_callout_cons s c q hp, hs, CalloutState.emit,
    failed_event]

/-- The bound of the retry loop is never what stops it: any bound above the
number of pending callouts gives the same result. -/
theorem next_callout_fuel (env : CalloutEnv) (fuel : Nat) (s : CalloutState)
    (h : s.pending_callouts.length < fuel) :
    next_callout env fuel s = next_callout env (s.pending_callouts.length + 1) s := by
  induction fuel generalizing s with
  | zero => omega
  | succ n ih =>
    rcases Option.eq_none_or_eq_some s.active_callout with hact | ⟨a, hact⟩
    · cases hp : s.pending_callouts with
      | nil =>
        simp [next_callout, hact, pop_pending_callout_nil s hp]
      | cons c q =>
        cases hs : env.g_spawn_async s.spawn_count with
        | some pid =>
          simp [next_callout, hact, pop_pending_callout_cons s c q hp, hs]
        | none =>
          have hq : q.length < n := by rw [hp] at h; simp at h; omega
          rw [next_callout_spawn_failed env n s c q hact hp hs, List.length_cons,
            next_callout_spawn_failed env (q.length + 1) s c q hact hp hs]
          exact ih _ hq
    · rw [next_callout_active _ _ _ (by simp [hact]),
        next_callout_active _ _ _ (by simp [hact])]

theorem append_updates_length (udi : String) (first : Bool) (l : List PendingUpdate)
    (args : List DBusArg) (r : List DBusArg × List PendingUpdate)
    (h : append_updates udi first l args = .ok r) : r.2.length = l.length := by
  induction l generalizing first args r with
  | nil => simp [append_updates] at h; subst h; rfl
  | cons pu rest ih =>
    unfold append_updates at h
    cases hu : pu.udi with
    | none => simp [hu] at h
    | some udi2 =>
      simp only [hu] at h
      split at h
      · cases hr : append_updates udi false rest
            (args ++ [.string pu.key, .boolean pu.removed, .boolean pu.added]) with
        | ok r1 =>
          rw [hr] at h
          simp only [Outcome.bind, Outcome.ok.injEq] at h
          subst h
          simp [ih _ _ _ hr]
        | die => rw [hr] at h; simp [Outcome.bind] at h
        | segv => rw [hr] at h; simp [Outcome.bind] at h
      · cases hr : append_updates udi false rest args with
        | ok r1 =>
          rw [hr] at h
          simp only [Outcome.bind, Outcome.ok.injEq] at h
          subst h
          simp [ih _ _ _ hr]
        | die => rw [hr] at h; simp [Outcome.bind] at h
        | segv => rw [hr] at h; simp [Outcome.bind] at h

/-- The bound of the flush loop is never what stops it: any bound from the
length of the list on gives the same result. -/
theorem flush_updates_fuel (env : DbusEnv) (fuel : Nat) (l : List PendingUpdate)
    (st : DbusState) (h : l.length ≤ fuel) :
    flush_updates env fuel l st = flush_updates env l.length l st := by
  induction fuel generalizing l st with
  | zero =>
    have : l = [] := List.length_eq_zero.mp (by omega)
    subst this; rfl
  | succ n ih =>
    cases l with
    | nil => simp [flush_updates]
    | cons pu rest =>
      have hr : rest.length ≤ n := by simpa using h
      cases hu : pu.udi with
      | none =>
        simp only [flush_updates, hu, List.length_cons]
        exact ih rest st hr
      | some udi =>
        simp only [flush_updates, hu, List.length_cons]
        cases hc : count_updates udi (pu :: rest) 0 with
        | ok num =>
          simp only [Outcome.bind]
          cases ha : append_updates udi true (pu :: rest) [.int32 num] with
          | ok r =>
            simp only [Outcome.bind]
            cases hsd : send_or_die env st (property_modified_signal udi r.1) with
            | ok st1 =>
              simp only [Outcome.bind]
              have hlen := append_updates_length _ _ _ _ _ ha
              have ht : r.2.tail.length = rest.length := by
                rw [List.length_tail, hlen]; simp
              rw [ih r.2.tail st1 (by omega), ← ht]
            | die => rfl
            | segv => rfl
          | die => rfl
          | segv => rfl
        | die => rfl
        | segv => rfl

theorem foldl_add_pending_callout (cs : List Callout) (t : CalloutState) :
    (cs.foldl add_pending_callout t).pending_callouts = t.pending_callouts ++ cs := by
  induction cs generalizing t with
  | nil => simp
  | cons c cs ih =>
    simp only [List.foldl_cons]
    rw [ih]
    simp [add_pending_callout, g_slist_append, CalloutState.emit]

theorem pop_pending_callouts_take (n : Nat) (s : CalloutState) :
    pop_pending_callouts n s = s.pending_callouts.take n := by
  induction n generalizing s with
  | zero => simp [pop_pending_callouts]
  | succ n ih =>
    cases hp : s.pending_callouts with
    | nil => simp [pop_pending_callouts, pop_pending_callout_nil s hp]
    | cons c q =>
      simp only [pop_pending_callouts, pop_pending_callout_cons s c q hp, List.take_succ_cons]
      rw [ih]

theorem pop_after_add (t : CalloutState) (cs : List Callout) :
    pop_pending_callouts (t.pending_callouts.length + cs.length)
        (cs.foldl add_pending_callout t) = t.pending_callouts ++ cs := by
  rw [pop_pending_callouts_take, foldl_add_pending_callout]
  simp [← List.length_append]

/-! ## Lemmas on batches given by runs -/

theorem run_nodes_append (a b : List (List Change)) :
    run_nodes (a ++ b) = run_nodes a ++ run_nodes b := by
  induction a with
  | nil => rfl
  | cons r rs ih => simp [run_nodes, ih]

theorem concat_runs_nodes (runs : List (List Change)) :
    (concat_runs runs).reverse.map Change.pending = run_nodes runs.reverse := by
  induction runs with
  | nil => rfl
  | cons r rs ih =>
    simp only [concat_runs, List.reverse_append, List.map_append, List.reverse_cons,
      run_nodes_append, ih]
    simp [run_nodes]

theorem count_updates_other (udi : String) (l : List PendingUpdate) (n : Int)
    (h : ∀ pu ∈ l, ∃ v, pu.udi = some v ∧ v ≠ udi) : count_updates udi l n = .ok n := by
  induction l generalizing n with
  | nil => rfl
  | cons pu rest ih =>
    obtain ⟨v, hv, hne⟩ := h pu (List.mem_cons_self _ _)
    simp only [count_updates, hv, hne, if_false]
    exact ih n (fun x hx => h x (List.mem_cons_of_mem _ hx))

theorem count_updates_block (udi : String) (b rest : List PendingUpdate) (n : Int)
    (hb : ∀ pu ∈ b, pu.udi = some udi)
    (hr : ∀ pu ∈ rest, ∃ v, pu.udi = some v ∧ v ≠ udi) :
    count_updates udi (b ++ rest) n = .ok (n + b.length) := by
  induction b generalizing n with
  | nil => simpa using count_updates_other udi rest n hr
  | cons pu b ih =>
    have hpu := hb pu (List.mem_cons_self _ _)
    simp only [List.cons_append, count_updates, hpu, if_true, List.append_eq]
    rw [ih _ (fun x hx => hb x (List.mem_cons_of_mem _ hx))]
    simp
    omega

theorem append_updates_other (udi : String) (l : List PendingUpdate) (args : List DBusArg)
    (h : ∀ pu ∈ l, ∃ v, pu.udi = some v ∧ v ≠ udi) :
    append_updates udi false l args = .ok (args, l) := by
  induction l generalizing args with
  | nil => rfl
  | cons pu rest ih =>
    obtain ⟨v, hv, hne⟩ := h pu (List.mem_cons_self _ _)
    simp only [append_updates, hv, hne, if_false]
    rw [ih args (fun x hx => h x (List.mem_cons_of_mem _ hx))]
    rfl

theorem append_updates_block (udi : String) (b rest : List PendingUpdate)
    (args : List DBusArg) (hb : ∀ pu ∈ b, pu.udi = some udi)
    (hr : ∀ pu ∈ rest, ∃ v, pu.udi = some v ∧ v ≠ udi) :
    append_updates udi false (b ++ rest) args =
      .ok (args ++ update_args b, b.map PendingUpdate.processed ++ rest) := by
  induction b generalizing args with
  | nil => simpa [update_args] using append_updates_other udi rest args hr
  | cons pu b ih =>
    have hpu := hb pu (List.mem_cons_self _ _)
    simp only [List.cons_append, append_updates, hpu, if_true, List.append_eq]
    rw [ih _ (fun x hx => hb x (List.mem_cons_of_mem _ hx))]
    simp [Outcome.bind, update_args, PendingUpdate.processed]

theorem append_updates_block_first (udi : String) (pu : PendingUpdate)
    (b rest : List PendingUpdate) (args : List DBusArg) (hpu : pu.udi = some udi)
    (hb : ∀ x ∈ b, x.udi = some udi)
    (hr : ∀ x ∈ rest, ∃ v, x.udi = some v ∧ v ≠ udi) :
    append_updates udi true (pu :: (b ++ rest)) args =
      .ok (args ++ update_args (pu :: b), pu :: (b.map PendingUpdate.processed ++ rest)) := by
  simp only [append_updates, hpu, if_true]
  rw [append_updates_block udi b rest _ hb hr]
  simp [Outcome.bind, update_args]

/-- Nodes whose udi is NULL at the head of the list are only freed. -/
theorem flush_updates_skip (env : DbusEnv) (nones l : List PendingUpdate) (st : DbusState)
    (h : ∀ pu ∈ nones, pu.udi = none) :
    flush_updates env (nones ++ l).length (nones ++ l) st = flush_updates env l.length l st := by
  induction nones with
  | nil => rfl
  | cons pu rest ih =>
    simp only [List.cons_append, List.length_cons, flush_updates,
      h pu (List.mem_cons_self _ _)]
    exact ih (fun x hx => h x (List.mem_cons_of_mem _ hx))

theorem mem_run_nodes (rs : List (List Change)) (h : ∀ r ∈ rs, is_run r)
    (x : PendingUpdate) (hx : x ∈ run_nodes rs) : ∃ r ∈ rs, x.udi = some (run_udi r) := by
  induction rs with
  | nil => simp [run_nodes] at hx
  | cons r rs ih =>
    simp only [run_nodes, List.mem_append, List.mem_map, List.mem_reverse] at hx
    rcases hx with ⟨c, hc, rfl⟩ | hx
    · exact ⟨r, List.mem_cons_self _ _,
        by simp [Change.pending, (h r (List.mem_cons_self _ _)).2 c hc]⟩
    · obtain ⟨r', hr', hu⟩ := ih (fun q hq => h q (List.mem_cons_of_mem _ hq)) hx
      exact ⟨r', List.mem_cons_of_mem _ hr', hu⟩

theorem flush_updates_runs (env : DbusEnv) (rs : List (List Change)) (hg : grouped rs)
    (nones : List PendingUpdate) (st : DbusState) (hn : ∀ pu ∈ nones, pu.udi = none) :
    flush_updates env (nones ++ run_nodes rs).length (nones ++ run_nodes rs) st =
      send_all env (rs.map run_message) st := by
  induction rs generalizing nones st with
  | nil =>
    simp only [run_nodes, List.append_nil, List.map_nil, send_all]
    exact flush_updates_processed env _ nones st hn
  | cons r rs ih =>
    have hrun : is_run r := hg.1 r (List.mem_cons_self _ _)
    have hg' : grouped rs :=
      ⟨fun q hq => hg.1 q (List.mem_cons_of_mem _ hq), (List.nodup_cons.mp hg.2).2⟩
    have hnot : run_udi r ∉ rs.map run_udi := (List.nodup_cons.mp hg.2).1
    rw [flush_updates_skip env nones _ st hn]
    have hall : ∀ x ∈ r.reverse.map Change.pending, x.udi = some (run_udi r) := by
      intro x hx
      simp only [List.mem_map, List.mem_reverse] at hx
      obtain ⟨c, hc, rfl⟩ := hx
      simp [Change.pending, hrun.2 c hc]
    have hrest : ∀ x ∈ run_nodes rs, ∃ v, x.udi = some v ∧ v ≠ run_udi r := by
      intro x hx
      obtain ⟨q, hq, hu⟩ := mem_run_nodes rs hg'.1 x hx
      refine ⟨run_udi q, hu, ?_⟩
      intro heq
      exact hnot (by rw [← heq]; exact List.mem_map_of_mem _ hq)
    have hlen : (r.reverse.map Change.pending).length = r.length := by simp
    cases hb : r.reverse.map Change.pending with
    | nil =>
      have : r = [] := by simpa using hb
      exact absurd this hrun.1
    | cons pu b =>
      rw [hb] at hall hlen
      have hpu := hall pu (List.mem_cons_self _ _)
      have hbs : ∀ x ∈ b, x.udi = some (run_udi r) :=
        fun x hx => hall x (List.mem_cons_of_mem _ hx)
      simp only [run_nodes, hb, List.cons_append, List.length_cons, flush_updates, hpu,
        List.map_cons, send_all]
      have hc := count_updates_block (run_udi r) (pu :: b) (run_nodes rs) 0 hall hrest
      simp only [List.cons_append] at hc
      rw [hc]
      simp only [Outcome.bind]
      rw [append_updates_block_first (run_udi r) pu b (run_nodes rs) _ hpu hbs hrest]
      simp only [Outcome.bind, List.tail_cons]
      have hmsg : property_modified_signal (run_udi r)
          ([DBusArg.int32 (0 + ↑(pu :: b).length)] ++ update_args (pu :: b)) = run_message r := by
        simp only [run_message, hb, hlen.symm]
        simp
      rw [hmsg]
      cases hs : send_or_die env st (run_message r) with
      | ok st1 =>
        simp only []
        have := ih hg' (b.map PendingUpdate.processed) st1
          (by intro x hx; simp only [List.mem_map] at hx; obtain ⟨y, -, rfl⟩ := hx; rfl)
        simp only [List.length_append, List.length_map] at this ⊢
        exact this
      | die => rfl
      | segv => rfl

theorem send_or_die_frame (env : DbusEnv) (st st' : DbusState) (m : DBusMessage)
    (h : send_or_die env st m = .ok st') :
    st' = { st with sent := st.sent ++ [m] } := by
  unfold send_or_die at h
  split at h
  · cases h; rfl
  · cases h

/-- The flush changes nothing but the list of messages sent. -/
theorem flush_updates_frame (env : DbusEnv) (fuel : Nat) (l : List PendingUpdate)
    (st st' : DbusState) (h : flush_updates env fuel l st = .ok st') :
    st' = { st with sent := st'.sent } := by
  induction fuel generalizing l st with
  | zero =>
    cases l <;> (simp [flush_updates] at h; subst h; rfl)
  | succ n ih =>
    cases l with
    | nil => simp [flush_updates] at h; subst h; rfl
    | cons pu rest =>
      cases hu : pu.udi with
      | none =>
        simp only [flush_updates, hu] at h
        exact ih rest st h
      | some udi =>
        simp only [flush_updates, hu] at h
        cases hc : count_updates udi (pu :: rest) 0 with
        | ok num =>
          rw [hc] at h
          simp only [Outcome.bind] at h
          cases ha : append_updates udi true (pu :: rest) [.int32 num] with
          | ok r =>
            rw [ha] at h
            simp only [Outcome.bind] at h
            cases hsd : send_or_die env st (property_modified_signal udi r.1) with
            | ok st1 =>
              rw [hsd] at h
              simp only [Outcome.bind] at h
              have h1 := send_or_die_frame env st st1 _ hsd
              have h2 := ih _ st1 h
              rw [h2, h1]
            | die => rw [hsd] at h; simp [Outcome.bind] at h
            | segv => rw [hsd] at h; simp [Outcome.bind] at h
          | die => rw [ha] at h; simp [Outcome.bind] at h
          | segv => rw [ha] at h; simp [Outcome.bind] at h
        | die => rw [hc] at h; simp [Outcome.bind] at h
        | segv => rw [hc] at h; simp [Outcome.bind] at h

theorem atomic_update_end_flush (env : DbusEnv) (st : DbusState)
    (h : count_after_end st = 0 ∧ st.num_pending_updates > 0) :
    device_property_atomic_update_end env st =
      (flush_updates env st.pending_updates_head.length st.pending_updates_head
          { st with atomic_count := count_after_end st }).bind
        (fun st2 => .ok { st2 with num_pending_updates := 0, pending_updates_head := [] }) := by
  unfold count_after_end at h
  simp only [device_property_atomic_update_end, count_after_end]
  rw [if_pos h]

theorem atomic_update_end_no_flush (env : DbusEnv) (st : DbusState)
    (h : ¬ (count_after_end st = 0 ∧ st.num_pending_updates > 0)) :
    device_property_atomic_update_end env st =
      .ok { st with atomic_count := count_after_end st } := by
  unfold count_after_end at h
  simp only [device_property_atomic_update_end, count_after_end]
  rw [if_neg h]

theorem batcher_inv_step (env : DbusEnv) (op : BatcherOp) (n : Nat) (st st' : DbusState)
    (hinv : BatcherInv n st) (h : op.step env st = .ok st') : BatcherInv (n + 1) st' := by
  obtain ⟨h0, hnum, hz, hb1, hb2⟩ := hinv
  cases op with
  | atomic_begin =>
    simp only [BatcherOp.step, device_property_atomic_update_begin, Outcome.ok.injEq] at h
    subst h
    refine ⟨by simp; omega, hnum, ?_, by simp; omega, by simp; omega⟩
    intro hc
    simp at hc
    omega
  | atomic_end =>
    simp only [BatcherOp.step] at h
    have hca : 0 ≤ count_after_end st ∧ count_after_end st ≤ n + 1 := by
      unfold count_after_end; split <;> constructor <;> omega
    by_cases hcond : count_after_end st = 0 ∧ st.num_pending_updates > 0
    · rw [atomic_update_end_flush env st hcond] at h
      cases hf : flush_updates env st.pending_updates_head.length st.pending_updates_head
          { st with atomic_count := count_after_end st } with
      | ok st2 =>
        rw [hf] at h
        simp only [Outcome.bind, Outcome.ok.injEq] at h
        have hfr := flush_updates_frame env _ _ _ st2 hf
        subst h
        rw [hfr]
        exact ⟨hca.1, by simp, by simp, by simpa using hca.2, by simp; omega⟩
      | die => rw [hf] at h; simp [Outcome.bind] at h
      | segv => rw [hf] at h; simp [Outcome.bind] at h
    · rw [atomic_update_end_no_flush env st hcond] at h
      simp only [Outcome.ok.injEq] at h
      subst h
      refine ⟨hca.1, hnum, ?_, by simpa using hca.2, by simp; omega⟩
      intro hc
      simp only at hc
      have hle : st.num_pending_updates ≤ 0 := by
        by_contra hgt
        exact hcond ⟨hc, by omega⟩
      have : st.pending_updates_head.length = 0 := by omega
      exact List.length_eq_zero.mp this
  | record c =>
    simp only [BatcherOp.step, device_send_signal_property_modified] at h
    split at h
    · rename_i hpos
      simp only [Outcome.ok.injEq] at h
      subst h
      refine ⟨h0, by simp; omega, ?_, by simp; omega, by simp; omega⟩
      intro hc
      simp only at hc
      omega
    · have := send_or_die_frame env st st' _ h
      subst this
      exact ⟨h0, hnum, hz, by simp; omega, by simp; omega⟩

theorem batcher_inv_run (env : DbusEnv) (ops : List BatcherOp) (n : Nat) (st st' : DbusState)
    (hinv : BatcherInv n st) (h : run_batcher_ops env ops st = .ok st') :
    BatcherInv (n + ops.length) st' := by
  induction ops generalizing n st with
  | nil => simp [run_batcher_ops] at h; subst h; simpa using hinv
  | cons op ops ih =>
    simp only [run_batcher_ops] at h
    cases hop : op.step env st with
    | ok st1 =>
      rw [hop] at h
      have := ih (n + 1) st1 (batcher_inv_step env op n st st1 hinv hop) h
      simpa [Nat.add_assoc, Nat.add_comm 1] using this
    | die => rw [hop] at h; simp [Outcome.bind] at h
    | segv => rw [hop] at h; simp [Outcome.bind] at h

theorem batcher_inv_init : BatcherInv 0 DbusState.init := by
  simp [BatcherInv, DbusState.init]

theorem send_all_ok (env : DbusEnv) (ms : List DBusMessage) (st st' : DbusState)
    (h : send_all env ms st = .ok st') : st' = { st with sent := st.sent ++ ms } := by
  induction ms generalizing st with
  | nil => simp [send_all] at h; subst h; simp
  | cons m ms ih =>
    simp only [send_all] at h
    cases hs : send_or_die env st m with
    | ok st1 =>
      rw [hs] at h
      simp only [Outcome.bind] at h
      have h1 := send_or_die_frame env st st1 m hs
      have h2 := ih st1 h
      rw [h2, h1]
      simp
    | die => rw [hs] at h; simp [Outcome.bind] at h
    | segv => rw [hs] at h; simp [Outcome.bind] at h

/-- The sends do not read the counters or the pending list. -/
theorem send_all_frame (env : DbusEnv) (ms : List DBusMessage) (st : DbusState)
    (a n : Int) (p : List PendingUpdate) :
    send_all env ms { st with atomic_count := a, num_pending_updates := n,
                              pending_updates_head := p } =
      (send_all env ms st).bind
        (fun s => .ok { s with atomic_count := a, num_pending_updates := n,
                               pending_updates_head := p }) := by
  induction ms generalizing st with
  | nil => rfl
  | cons m ms ih =>
    simp only [send_all, send_or_die]
    split
    · simp only [Outcome.bind]
      exact ih { st with sent := st.sent ++ [m] }
    · rfl

theorem concat_runs_ne_nil (runs : List (List Change)) (h : ∀ r ∈ runs, is_run r)
    (hne : runs ≠ []) : concat_runs runs ≠ [] := by
  cases runs with
  | nil => exact absurd rfl hne
  | cons r rs =>
    have := (h r (List.mem_cons_self _ _)).1
    simp [concat_runs, this]

theorem grouped_reverse (runs : List (List Change)) (h : grouped runs) :
    grouped runs.reverse :=
  ⟨fun r hr => h.1 r (List.mem_reverse.mp hr), by
    rw [List.map_reverse]; exact List.nodup_reverse.mpr h.2⟩

/-- One outermost region over a batch given by its runs: the notifications of
the runs are handed to `dbus_connection_send`, most recent run first, and
nothing else changes. -/
theorem atomic_region_grouped (env : DbusEnv) (runs : List (List Change)) (st : DbusState)
    (hg : grouped runs) (hcount : st.atomic_count = 0) (hnum : st.num_pending_updates = 0)
    (hpend : st.pending_updates_head = []) :
    atomic_region env (concat_runs runs) st =
      send_all env (runs.reverse.map run_message) st := by
  have hst : st = { st with atomic_count := 0, num_pending_updates := 0,
                            pending_updates_head := [] } := by
    cases st; simp_all
  by_cases hne : runs = []
  · subst hne
    simp only [concat_runs, atomic_region, record_changes, Outcome.bind, List.reverse_nil,
      List.map_nil, send_all]
    rw [atomic_update_end_no_flush]
    · simp only [count_after_end, device_property_atomic_update_begin, hcount]
      rw [hst]
      simp
    · simp [device_property_atomic_update_begin, hnum]
  · have hcne := concat_runs_ne_nil runs hg.1 hne
    have hlen : 0 < (concat_runs runs).length := List.length_pos.mpr hcne
    unfold atomic_region
    rw [record_changes_pending env _ _
      (by simp [device_property_atomic_update_begin, hcount])]
    simp only [Outcome.bind]
    rw [atomic_update_end_outermost _ _ (by simp [device_property_atomic_update_begin, hcount])
      (by simp [device_property_atomic_update_begin, hnum]; omega)]
    simp only [device_property_atomic_update_begin, hpend, List.append_nil, concat_runs_nodes]
    have hf := flush_updates_runs env runs.reverse (grouped_reverse runs hg) []
      { st with atomic_count := 0
                pending_updates_head := run_nodes runs.reverse
                num_pending_updates := st.num_pending_updates + (concat_runs runs).length }
      (by simp)
    simp only [List.nil_append] at hf
    rw [hf, send_all_frame]
    cases hs : send_all env (runs.reverse.map run_message) st with
    | ok s1 =>
      simp only [Outcome.bind]
      have := send_all_ok env _ st s1 hs
      rw [this, hst]
    | die => rfl
    | segv => rfl

theorem outcome_bind_ok {α : Type} (x : Outcome α) : x.bind Outcome.ok = x := by
  cases x <;> rfl

/-! ## Lemmas on the runner client -/

theorem finish_reply_some (hb : HelperData) (f : Nat) (exit_type : Nat) (return_code : Int)
    (error : Option (List String)) (s : RunnerState) (hcb : hb.cb = some f) :
    finish_reply hb exit_type return_code error s =
      { s with log := s.log ++
          [.callback f hb.d exit_type return_code error hb.data1 hb.data2] ++
          reply_epilogue hb s } := by
  unfold finish_reply reply_epilogue
  rw [hcb]
  cases hd : hb.d <;> cases hn : s.method_run_notify <;> simp [RunnerState.emit, hn]

theorem finish_reply_none (hb : HelperData) (exit_type : Nat) (return_code : Int)
    (error : Option (List String)) (s : RunnerState) (hcb : hb.cb = none) :
    finish_reply hb exit_type return_code error s =
      { s with log := s.log ++ reply_epilogue hb s } := by
  unfold finish_reply reply_epilogue
  rw [hcb]
  cases s with
  | mk rp pc n u log => cases hd : hb.d <;> cases n <;> simp [RunnerState.emit]

theorem process_reply_malformed (k : RunnerConsts) (m : RunnerMessage) (hb : HelperData)
    (s : RunnerState) (h : reply_well_formed m = false) :
    process_reply k m hb s = finish_reply hb k.HALD_RUN_FAILED 0 none s := by
  unfold process_reply
  by_cases ht : m.msg_type = .METHOD_RETURN
  · simp only [ht, ne_eq, not_true_eq_false, if_false]
    unfold reply_well_formed at h
    cases ha : m.args with
    | nil => rfl
    | cons a rest =>
      cases a <;> try rfl
      cases rest with
      | nil => rfl
      | cons b lines =>
        cases b <;> try rfl
        simp [ht, ha] at h
  · simp [ht]

theorem process_reply_well_formed (k : RunnerConsts) (m : RunnerMessage) (hb : HelperData)
    (s : RunnerState) (exitt : Nat) (rc : Int) (rest : List DBusArg)
    (ht : m.msg_type = .METHOD_RETURN) (ha : m.args = .uint32 exitt :: .int32 rc :: rest) :
    process_reply k m hb s = finish_reply hb exitt rc (some (reply_error_lines rest)) s := by
  unfold process_reply
  simp [ht, ha]

theorem reply_error_lines_run (lines : List String) (tail : List DBusArg)
    (h : tail = [] ∨ ∃ a t, tail = a :: t ∧ ∀ v, a ≠ .string v) :
    reply_error_lines (lines.map .string ++ tail) = lines := by
  induction lines with
  | nil =>
    rcases h with rfl | ⟨a, t, rfl, ha⟩
    · rfl
    · cases a <;> simp_all [reply_error_lines]
  | cons l ls ih => simp [reply_error_lines, ih]

theorem reply_malformed_iff (m : RunnerMessage) :
    reply_well_formed m = false ↔
      (m.msg_type ≠ .METHOD_RETURN ∨ (¬ ∃ v rest, m.args = .uint32 v :: rest) ∨
        (¬ ∃ a v rest, m.args = a :: .int32 v :: rest)) := by
  unfold reply_well_formed
  by_cases ht : m.msg_type = .METHOD_RETURN
  · cases ha : m.args with
    | nil => simp [ht]
    | cons a rest =>
      cases rest with
      | nil => simp [ht]
      | cons b lines => cases a <;> cases b <;> simp [ht]
  · simp [ht]

theorem add_first_part_unparsed (env : RunnerEnv) (device : Option HalDevice)
    (command_line : String) (extra_env : Option (List String))
    (h : env.g_shell_parse_argv command_line = none) :
    add_first_part env device command_line extra_env [] = .ok none := by
  simp [add_first_part, add_command, h]

theorem add_first_part_parsed (env : RunnerEnv) (device : Option HalDevice)
    (command_line : String) (extra_env : Option (List String)) (argv : List String)
    (h : env.g_shell_parse_argv command_line = some argv) :
    add_first_part env device command_line extra_env [] =
      if env.open_container_ok then .ok (some (first_part_args env device extra_env argv))
      else .die := by
  cases ho : env.open_container_ok <;>
    simp [add_first_part, add_command, h, ho, first_part_args]

theorem to_GPid_of_range (v : Int) (h1 : -(2 ^ 31) ≤ v) (h2 : v < 2 ^ 31) : to_GPid v = v := by
  unfold to_GPid
  omega

theorem exited_loop_hit (pid : Int) (f : Nat) (rp : RunningProcess) (s : RunnerState) :
    ∀ (pre post : List RunningProcess), (∀ x ∈ pre, x.pid ≠ pid) → rp.pid = pid →
      rp.cb = some f →
      exited_loop pid (pre ++ rp :: post) s =
        .ok (pre ++ post, s.emit (.callback f rp.device 0 0 none rp.data1 rp.data2)) := by
  intro pre
  induction pre with
  | nil =>
    intro post _ hp hcb
    simp [exited_loop, hp, hcb]
  | cons x xs ih =>
    intro post hpre hp hcb
    have hx : x.pid ≠ pid := hpre x (by simp)
    have hxs : ∀ y ∈ xs, y.pid ≠ pid := fun y hy => hpre y (by simp [hy])
    simp [exited_loop, hx, ih post hxs hp hcb, Outcome.bind]

theorem exited_loop_miss (pid : Int) (s : RunnerState) :
    ∀ (l : List RunningProcess), (∀ x ∈ l, x.pid ≠ pid) → exited_loop pid l s = .ok (l, s) := by
  intro l
  induction l with
  | nil => intro _; rfl
  | cons x xs ih =>
    intro h
    have hx : x.pid ≠ pid := h x (by simp)
    have hxs : ∀ y ∈ xs, y.pid ≠ pid := fun y hy => h y (by simp [hy])
    simp [exited_loop, hx, ih hxs, Outcome.bind]

theorem first_with_pid (pid : Int) :
    ∀ (l : List RunningProcess), (∃ x ∈ l, x.pid = pid) →
      ∃ pre rp post, l = pre ++ rp :: post ∧ (∀ x ∈ pre, x.pid ≠ pid) ∧ rp.pid = pid := by
  intro l
  induction l with
  | nil => rintro ⟨x, hx, _⟩; simp at hx
  | cons a as ih =>
    rintro ⟨x, hx, hp⟩
    by_cases ha : a.pid = pid
    · exact ⟨[], a, as, rfl, by simp, ha⟩
    · have hx2 : x ∈ as := by
        rcases List.mem_cons.mp hx with rfl | h
        · exact absurd hp ha
        · exact h
      obtain ⟨pre, rp, post, hl, hpre, hrp⟩ := ih ⟨x, hx2, hp⟩
      refine ⟨a :: pre, rp, post, by simp [hl], ?_, hrp⟩
      intro y hy
      rcases List.mem_cons.mp hy with rfl | h
      · exact ha
      · exact hpre y h

theorem callback_statuses_append (a b : List RunnerEvent) :
    callback_statuses (a ++ b) = callback_statuses a ++ callback_statuses b := by
  simp [callback_statuses, List.filterMap_append]

theorem callback_calls_append (a b : List RunnerEvent) :
    callback_calls (a ++ b) = callback_calls a ++ callback_calls b := by
  simp [callback_calls, List.filter_append]

theorem callback_calls_epilogue (hb : HelperData) (s : RunnerState) :
    callback_calls (reply_epilogue hb s) = [] := by
  unfold reply_epilogue
  cases hb.d <;> cases s.method_run_notify <;> simp [callback_calls]

theorem callback_statuses_epilogue (hb : HelperData) (s : RunnerState) :
    callback_statuses (reply_epilogue hb s) = [] := by
  unfold reply_epilogue
  cases hb.d <;> cases s.method_run_notify <;> simp [callback_statuses]

theorem finish_reply_calls (hb : HelperData) (f : Nat) (exit_type : Nat) (return_code : Int)
    (error : Option (List String)) (s : RunnerState) (hcb : hb.cb = some f) :
    callback_calls (finish_reply hb exit_type return_code error s).log =
      callback_calls s.log ++
        [.callback f hb.d exit_type return_code error hb.data1 hb.data2] := by
  rw [finish_reply_some hb f exit_type return_code error s hcb]
  show callback_calls (s.log ++ _ ++ reply_epilogue hb s) = _
  rw [callback_calls_append, callback_calls_append, callback_calls_epilogue]
  simp [callback_calls]

theorem finish_reply_statuses (hb : HelperData) (f : Nat) (exit_type : Nat) (return_code : Int)
    (error : Option (List String)) (s : RunnerState) (hcb : hb.cb = some f) :
    callback_statuses (finish_reply hb exit_type return_code error s).log =
      callback_statuses s.log ++ [exit_type] := by
  rw [finish_reply_some hb f exit_type return_code error s hcb]
  show callback_statuses (s.log ++ _ ++ reply_epilogue hb s) = _
  rw [callback_statuses_append, callback_statuses_append, callback_statuses_epilogue]
  simp [callback_statuses]

theorem run_method_unparsed (k : RunnerConsts) (env : RunnerEnv) (device : Option HalDevice)
    (command_line : String) (extra_env : Option (List String)) (input : String)
    (error_on_stderr : Bool) (timeout : Nat) (cb : Option Nat) (data1 data2 : Nat)
    (s : RunnerState) (hnew : env.new_method_call_ok = true)
    (hp : env.g_shell_parse_argv command_line = none) :
    hald_runner_run_method k env device command_line extra_env input error_on_stderr timeout
      cb data1 data2 s = run_error k device cb data1 data2 s := by
  unfold hald_runner_run_method
  rw [add_first_part_unparsed env device command_line extra_env hp]
  simp [hnew, Outcome.bind]

theorem run_method_parsed (k : RunnerConsts) (env : RunnerEnv) (device : Option HalDevice)
    (command_line : String) (extra_env : Option (List String)) (input : String)
    (error_on_stderr : Bool) (timeout : Nat) (cb : Option Nat) (data1 data2 : Nat)
    (s : RunnerState) (argv : List String) (hnew : env.new_method_call_ok = true)
    (hp : env.g_shell_parse_argv command_line = some argv)
    (hopen : env.open_container_ok = true) :
    hald_runner_run_method k env device command_line extra_env input error_on_stderr timeout
      cb data1 data2 s =
      match env.send_with_reply
          (run_request env device extra_env argv input error_on_stderr timeout) with
      | .no_memory => .die
      | .disconnected => run_error k device cb data1 data2 s
      | .pending =>
        let s1 := s.emit
          (.sent (run_request env device extra_env argv input error_on_stderr timeout))
        let s2 := match device with
          | some d => s1.emit (.object_ref d)
          | none => s1
        .ok { s2 with pending_calls := s2.pending_calls ++
                [{ d := device, cb := cb, data1 := data1, data2 := data2 }] } := by
  unfold hald_runner_run_method
  rw [add_first_part_parsed env device command_line extra_env argv hp]
  simp [hnew, hopen, Outcome.bind, run_request]

theorem run_sync_unparsed (k : RunnerConsts) (env : RunnerEnv) (device : Option HalDevice)
    (command_line : String) (extra_env : Option (List String)) (timeout : Nat)
    (cb : Option Nat) (data1 data2 : Nat) (s : RunnerState)
    (hnew : env.new_method_call_ok = true)
    (hp : env.g_shell_parse_argv command_line = none) :
    hald_runner_run_sync k env device command_line extra_env timeout cb data1 data2 s =
      run_error k device cb data1 data2 s := by
  unfold hald_runner_run_sync
  rw [add_first_part_unparsed env device command_line extra_env hp]
  simp [hnew, Outcome.bind]

theorem run_sync_parsed (k : RunnerConsts) (env : RunnerEnv) (device : Option HalDevice)
    (command_line : String) (extra_env : Option (List String)) (timeout : Nat)
    (cb : Option Nat) (data1 data2 : Nat) (s : RunnerState) (argv : List String)
    (hnew : env.new_method_call_ok = true)
    (hp : env.g_shell_parse_argv command_line = some argv)
    (hopen : env.open_container_ok = true) :
    hald_runner_run_sync k env device command_line extra_env timeout cb data1 data2 s =
      match env.send_with_reply_and_block
          (run_request env device extra_env argv "" false timeout) with
      | none => run_error k device cb data1 data2 s
      | some reply =>
        .ok (process_reply k reply { d := device, cb := cb, data1 := data1, data2 := data2 }
          (s.emit (.sent (run_request env device extra_env argv "" false timeout)))) := by
  unfold hald_runner_run_sync
  rw [add_first_part_parsed env device command_line extra_env argv hp]
  simp [hnew, hopen, Outcome.bind, run_request]

theorem start_unparsed (env : RunnerEnv) (device : Option HalDevice)
    (command_line : String) (extra_env : Option (List String)) (cb : Option Nat)
    (data1 data2 : Nat) (s : RunnerState) (hnew : env.new_method_call_ok = true)
    (hp : env.g_shell_parse_argv command_line = none) :
    hald_runner_start env device command_line extra_env cb data1 data2 s = .ok (false, s) := by
  unfold hald_runner_start
  rw [add_first_part_unparsed env device command_line extra_env hp]
  simp [hnew, Outcome.bind]

theorem start_parsed (env : RunnerEnv) (device : Option HalDevice)
    (command_line : String) (extra_env : Option (List String)) (cb : Option Nat)
    (data1 data2 : Nat) (s : RunnerState) (argv : List String)
    (hnew : env.new_method_call_ok = true)
    (hp : env.g_shell_parse_argv command_line = some argv)
    (hopen : env.open_container_ok = true) :
    hald_runner_start env device command_line extra_env cb data1 data2 s =
      match env.send_with_reply_and_block (start_request env device extra_env argv) with
      | none => .ok (false, s)
      | some reply =>
        let s1 := s.emit (.sent (start_request env device extra_env argv))
        if reply.msg_type = .METHOD_RETURN then
          match get_args_int64 reply with
          | some pid_from_runner =>
            match cb with
            | some f =>
              .ok (true, { s1 with running_processes :=
                { pid := to_GPid pid_from_runner, device := device, cb := some f,
                  data1 := data1, data2 := data2 } :: s1.running_processes })
            | none => .ok (true, s1)
          | none => .ok (true, s1)
        else .ok (false, s1) := by
  unfold hald_runner_start
  rw [add_first_part_parsed env device command_line extra_env argv hp]
  simp only [hnew, hopen, Outcome.bind, start_request, Bool.not_true, Bool.false_eq_true,
    if_false, if_true]
  cases hr : env.send_with_reply_and_block
      (runner_method_call "Start" (first_part_args env device extra_env argv)) with
  | none => rfl
  | some reply =>
    by_cases ht : reply.msg_type = .METHOD_RETURN
    · simp [ht]
    · simp [ht]

theorem start_keeps_callbacks (env : RunnerEnv) (device : Option HalDevice)
    (command_line : String) (extra_env : Option (List String)) (cb : Option Nat)
    (data1 data2 : Nat) (s s' : RunnerState) (ret : Bool) (hs : all_have_callback s)
    (h : hald_runner_start env device command_line extra_env cb data1 data2 s = .ok (ret, s')) :
    all_have_callback s' := by
  unfold hald_runner_start at h
  cases hnew : env.new_method_call_ok
  · simp [hnew] at h
  · simp only [hnew, Bool.not_true, Bool.false_eq_true, if_false] at h
    cases hf : add_first_part env device command_line extra_env [] with
    | die => simp [hf, Outcome.bind] at h
    | segv => simp [hf, Outcome.bind] at h
    | ok first =>
      simp only [hf, Outcome.bind] at h
      cases first with
      | none =>
        simp at h
        rw [← h.2]; exact hs
      | some args =>
        simp only at h
        cases hr : env.send_with_reply_and_block (runner_method_call "Start" args) with
        | none =>
          simp [hr] at h
          rw [← h.2]; exact hs
        | some reply =>
          simp only [hr] at h
          by_cases ht : reply.msg_type = .METHOD_RETURN
          · simp only [ht, decide_True, if_true] at h
            cases hg : get_args_int64 reply with
            | none =>
              simp [hg] at h
              rw [← h.2]; exact hs
            | some pid =>
              simp only [hg] at h
              cases cb with
              | none =>
                simp at h
                rw [← h.2]; exact hs
              | some f =>
                simp at h
                rw [← h.2]
                intro rp hrp
                simp [RunnerState.emit] at hrp
                rcases hrp with rfl | hrp
                · simp
                · exact hs rp hrp
          · simp [ht] at h
            rw [← h.2]; exact hs

/-! ## Lemmas on the records of started processes and on replies -/

theorem remove_device_loop_filter (device : Option HalDevice) (l : List RunningProcess) :
    remove_device_loop device l =
      l.filter (fun rp =>
        decide (rp.device.map HalDevice.addr ≠ device.map HalDevice.addr)) := by
  induction l with
  | nil => rfl
  | cons rp rest ih =>
    by_cases h : rp.device.map HalDevice.addr = device.map HalDevice.addr
    · simp [remove_device_loop, same_device, h, ih]
    · simp [remove_device_loop, same_device, h, ih]

theorem kill_device_ok (env : RunnerEnv) (device : HalDevice) (s : RunnerState)
    (hnew : env.new_method_call_ok = true) :
    ∃ s', hald_runner_kill_device env device s = .ok s' ∧
      s'.running_processes = remove_device_loop (some device) s.running_processes := by
  unfold hald_runner_kill_device
  simp only [hnew, Bool.not_true, Bool.false_eq_true, if_false]
  cases env.send_with_reply_and_block (runner_method_call "Kill" [.string device.udi]) with
  | none => exact ⟨_, rfl, rfl⟩
  | some r => exact ⟨_, rfl, rfl⟩

theorem handler_no_record (message : RunnerMessage) (s : RunnerState) (dpid : Int)
    (hargs : get_args_int64 message = some dpid)
    (hno : ∀ x ∈ s.running_processes, x.pid ≠ to_GPid dpid) :
    runner_server_message_handler message s = .ok s := by
  unfold runner_server_message_handler
  split
  · rw [hargs]
    simp only
    rw [exited_loop_miss (to_GPid dpid) s _ hno]
    simp [Outcome.bind]
  · rfl

theorem sent_messages_append (a b : List RunnerEvent) :
    sent_messages (a ++ b) = sent_messages a ++ sent_messages b := by
  simp [sent_messages, List.filterMap_append]

theorem sent_messages_epilogue (hb : HelperData) (s : RunnerState) :
    sent_messages (reply_epilogue hb s) = [] := by
  unfold reply_epilogue
  cases hb.d <;> cases s.method_run_notify <;> simp [sent_messages]

theorem finish_reply_sent (hb : HelperData) (exit_type : Nat) (return_code : Int)
    (error : Option (List String)) (s : RunnerState) :
    sent_messages (finish_reply hb exit_type return_code error s).log = sent_messages s.log := by
  rcases Option.eq_none_or_eq_some hb.cb with hcb | ⟨f, hcb⟩
  · rw [finish_reply_none hb exit_type return_code error s hcb]
    show sent_messages (s.log ++ reply_epilogue hb s) = _
    rw [sent_messages_append, sent_messages_epilogue, List.append_nil]
  · rw [finish_reply_some hb f exit_type return_code error s hcb]
    show sent_messages (s.log ++ _ ++ reply_epilogue hb s) = _
    rw [sent_messages_append, sent_messages_append, sent_messages_epilogue]
    simp [sent_messages]

theorem finish_reply_calls_any (hb : HelperData) (exit_type : Nat) (return_code : Int)
    (error : Option (List String)) (s : RunnerState) :
    callback_calls (finish_reply hb exit_type return_code error s).log =
      callback_calls s.log ++
        callback_calls (finish_reply hb exit_type return_code error RunnerState.init).log := by
  rcases Option.eq_none_or_eq_some hb.cb with hcb | ⟨f, hcb⟩
  · rw [finish_reply_none hb exit_type return_code error s hcb,
      finish_reply_none hb exit_type return_code error RunnerState.init hcb]
    show callback_calls (s.log ++ reply_epilogue hb s) =
      callback_calls s.log ++ callback_calls ([] ++ reply_epilogue hb RunnerState.init)
    rw [callback_calls_append, callback_calls_append, callback_calls_epilogue,
      callback_calls_epilogue]
    rfl
  · rw [finish_reply_calls hb f exit_type return_code error s hcb,
      finish_reply_calls hb f exit_type return_code error RunnerState.init hcb]
    rfl

/-- Every reply is malformed or is a method return that starts with a UINT32
and an INT32. -/
theorem reply_well_formed_args (m : RunnerMessage) (hw : reply_well_formed m = true) :
    ∃ sc rc rest, m.msg_type = .METHOD_RETURN ∧ m.args = .uint32 sc :: .int32 rc :: rest := by
  unfold reply_well_formed at hw
  cases ha : m.args with
  | nil => simp [ha] at hw
  | cons a rest =>
    cases rest with
    | nil => cases a <;> simp [ha] at hw
    | cons b lines =>
      cases a <;> cases b <;> simp [ha] at hw
      exact ⟨_, _, _, hw, rfl⟩

/-- The callback call of `process_reply` does not depend on the state. -/
theorem process_reply_calls (k : RunnerConsts) (m : RunnerMessage) (hb : HelperData)
    (s : RunnerState) :
    callback_calls (process_reply k m hb s).log = callback_calls s.log ++ reply_callback k m hb := by
  unfold reply_callback
  cases hw : reply_well_formed m
  · rw [process_reply_malformed k m hb s hw, process_reply_malformed k m hb RunnerState.init hw]
    exact finish_reply_calls_any hb _ _ _ s
  · obtain ⟨sc, rc, rest, ht, ha⟩ := reply_well_formed_args m hw
    rw [process_reply_well_formed k m hb s sc rc rest ht ha,
      process_reply_well_formed k m hb RunnerState.init sc rc rest ht ha]
    exact finish_reply_calls_any hb _ _ _ s

theorem process_reply_sent (k : RunnerConsts) (m : RunnerMessage) (hb : HelperData)
    (s : RunnerState) :
    sent_messages (process_reply k m hb s).log = sent_messages s.log := by
  cases hw : reply_well_formed m
  · rw [process_reply_malformed k m hb s hw]
    exact finish_reply_sent hb _ _ _ s
  · obtain ⟨sc, rc, rest, ht, ha⟩ := reply_well_formed_args m hw
    rw [process_reply_well_formed k m hb s sc rc rest ht ha]
    exact finish_reply_sent hb _ _ _ s

theorem reply_callback_length (k : RunnerConsts) (m : RunnerMessage) (hb : HelperData) :
    (reply_callback k m hb).length ≤ 1 := by
  unfold reply_callback
  have key : ∀ e r err, (callback_calls (finish_reply hb e r err RunnerState.init).log).length ≤ 1 := by
    intro e r err
    rcases Option.eq_none_or_eq_some hb.cb with hcb | ⟨f, hcb⟩
    · rw [finish_reply_none hb e r err RunnerState.init hcb]
      show (callback_calls ([] ++ reply_epilogue hb RunnerState.init)).length ≤ 1
      rw [callback_calls_append, callback_calls_epilogue]
      simp [callback_calls]
    · rw [finish_reply_calls hb f e r err RunnerState.init hcb]
      simp [callback_calls, RunnerState.init]
  cases hw : reply_well_formed m
  · rw [process_reply_malformed k m hb RunnerState.init hw]
    exact key _ _ _
  · obtain ⟨sc, rc, rest, ht, ha⟩ := reply_well_formed_args m hw
    rw [process_reply_well_formed k m hb RunnerState.init sc rc rest ht ha]
    exact key _ _ _

/-! ## Lemmas on the environment of a callout -/

theorem toUpper_cases (c : Char) :
    c.toUpper = c ∨ (65 ≤ c.toUpper.toNat ∧ c.toUpper.toNat ≤ 90) := by
  unfold Char.toUpper
  by_cases h : c.toNat ≥ 97 ∧ c.toNat ≤ 122
  · right
    simp only [h, and_self, if_true]
    obtain ⟨h1, h2⟩ := h
    generalize c.toNat = n at h1 h2
    interval_cases n <;> decide
  · left
    simp only
    rw [if_neg h]

theorem toUpper_not_lower (c : Char) : c.toUpper.isLower = false := by
  unfold Char.toUpper
  by_cases h : c.toNat ≥ 97 ∧ c.toNat ≤ 122
  · simp only [h, and_self, if_true]
    obtain ⟨h1, h2⟩ := h
    generalize c.toNat = n at h1 h2
    interval_cases n <;> decide
  · simp only
    rw [if_neg h]
    simp only [Char.isLower, Bool.and_eq_false_imp, decide_eq_true_eq, decide_eq_false_iff_not]
    intro h1 h2
    apply h
    constructor
    · exact h1
    · exact h2

theorem toUpper_eq_period (c : Char) : c.toUpper = '.' ↔ c = '.' := by
  constructor
  · intro h
    rcases toUpper_cases c with h1 | h1
    · rw [← h1]; exact h
    · rw [h] at h1
      exact absurd h1 (by decide)
  · intro h
    subst h
    decide

theorem hal_prop_key_data (key : String) :
    (hal_prop_key key).data =
      key.data.map (fun c => if c = '.' then '_' else c.toUpper) := by
  simp only [hal_prop_key, replace_periods, g_ascii_strup, List.map_map]
  apply List.map_congr_left
  intro c _
  simp only [Function.comp]
  by_cases h : c = '.'
  · subst h; decide
  · have h2 : ¬ c.toUpper = '.' := fun hh => h ((toUpper_eq_period c).mp hh)
    rw [if_neg h, if_neg h2]

theorem next_callout_pass_again (env : CalloutEnv) (s s' : CalloutState)
    (h : next_callout_pass env s = .again s') :
    s'.pending_callouts.length + 1 = s.pending_callouts.length ∧
      s'.spawn_count = s.spawn_count + 1 ∧ s'.active_callout = none := by
  unfold next_callout_pass at h
  rcases Option.eq_none_or_eq_some s.active_callout with hact | ⟨a, hact⟩
  · cases hp : s.pending_callouts with
    | nil => simp [hact, pop_pending_callout_nil s hp] at h
    | cons c q =>
      cases hs : env.g_spawn_async s.spawn_count with
      | some pid => simp [hact, pop_pending_callout_cons s c q hp, hs] at h
      | none =>
        simp [hact, pop_pending_callout_cons s c q hp, hs, CalloutState.emit] at h
        subst h
        simp
  · simp [hact] at h

/-- The loop with a bound agrees with the passes: where the passes return, the
bounded loop gives the same state. -/
theorem next_callout_of_passes (env : CalloutEnv) (n : Nat) (s s' : CalloutState)
    (h : next_callout_passes env n s = some s') : next_callout env n s = s' := by
  induction n generalizing s with
  | zero => simp [next_callout_passes] at h
  | succ n ih =>
    unfold next_callout_passes at h
    unfold next_callout
    unfold next_callout_pass at h
    rcases Option.eq_none_or_eq_some s.active_callout with hact | ⟨a, hact⟩
    · cases hp : s.pending_callouts with
      | nil =>
        simp [hact, pop_pending_callout_nil s hp] at h ⊢
        exact h
      | cons c q =>
        cases hs : env.g_spawn_async s.spawn_count with
        | some pid =>
          simp [hact, pop_pending_callout_cons s c q hp, hs] at h ⊢
          exact h
        | none =>
          simp only [hact, Option.isSome_none, Bool.false_eq_true, if_false,
            pop_pending_callout_cons s c q hp, hs] at h ⊢
          exact ih _ h
    · simp [hact] at h ⊢
      exact h

/-- The passes return within one pass more than there are pending callouts,
and every spawn attempt has removed a callout from the queue. -/
theorem next_callout_passes_return (env : CalloutEnv) (n : Nat) (s : CalloutState)
    (hn : s.pending_callouts.length < n) :
    ∃ s', next_callout_passes env n s = some s' ∧
      s'.spawn_count + s'.pending_callouts.length ≤ s.spawn_count + s.pending_callouts.length := by
  induction n generalizing s with
  | zero => omega
  | succ n ih =>
    unfold next_callout_passes
    cases hpass : next_callout_pass env s with
    | returned t =>
      refine ⟨t, rfl, ?_⟩
      unfold next_callout_pass at hpass
      rcases Option.eq_none_or_eq_some s.active_callout with hact | ⟨a, hact⟩
      · cases hp : s.pending_callouts with
        | nil =>
          simp [hact, pop_pending_callout_nil s hp] at hpass
          subst hpass
          simp [hp]
        | cons c q =>
          cases hs : env.g_spawn_async s.spawn_count with
          | some pid =>
            simp [hact, pop_pending_callout_cons s c q hp, hs, CalloutState.emit] at hpass
            subst hpass
            simp
            omega
          | none =>
            simp [hact, pop_pending_callout_cons s c q hp, hs] at hpass
      · simp [hact] at hpass
        subst hpass
        omega
    | again t =>
      obtain ⟨h1, h2, -⟩ := next_callout_pass_again env s t hpass
      obtain ⟨s', hs', hle⟩ := ih t (by omega)
      exact ⟨s', hs', by omega⟩

theorem foldl_add_property_to_env_envp (props : List (String × String)) (c : Callout) :
    (props.foldl add_property_to_env c).envp =
        c.envp ++ props.map (fun p => hal_prop_env p.1 p.2) ∧
      (props.foldl add_property_to_env c).envp_index = c.envp_index + props.length := by
  induction props generalizing c with
  | nil => simp
  | cons p ps ih =>
    simp only [List.foldl_cons]
    obtain ⟨h1, h2⟩ := ih (add_property_to_env c p)
    rw [h1, h2]
    simp [add_property_to_env]
    omega

/-- The environment array of the device callout of `ex_device` when it is
run: with the device as it was queued, and with the device after a property
has been set; a store past the allocated slots is an invalid write. -/
theorem ex_active_environment :
    complete_envp ex_device
        ((device_callout ex_globals ex_device true "10-setup.hal").envp.map EnvSlot.str)
        (device_callout ex_globals ex_device true "10-setup.hal").envp_index =
      .ok [EnvSlot.str "UDI=/org/freedesktop/Hal/devices/computer",
        EnvSlot.str "HAL_PROP_INFO_BUS=pci", EnvSlot.null] ∧
    complete_envp { ex_device with properties := [("info.bus", "pci"), ("net.address", "x")] }
        ((device_callout ex_globals ex_device true "10-setup.hal").envp.map EnvSlot.str)
        (device_callout ex_globals ex_device true "10-setup.hal").envp_index =
      .ok [EnvSlot.str "UDI=/org/freedesktop/Hal/devices/computer",
        EnvSlot.str "HAL_PROP_INFO_BUS=pci", EnvSlot.str "HAL_PROP_NET_ADDRESS=x",
        EnvSlot.null] ∧
    ex_active.envp =
      ["UDI=/org/freedesktop/Hal/devices/computer", "HAL_PROP_INFO_BUS=pci"] ∧
    envp_store (g_new_envp 1) 1 (EnvSlot.str "HALD_VERBOSE=1") = .segv := by
  decide

/-! ## Lemmas on battery levels -/

theorem ex_battery_levels : device_pm_abstract_props ex_battery = ⟨48840, 48840, 0⟩ := by
  decide

/-- The rate written is 0 when the reported rate is the value 0xffff. -/
theorem charge_rate_ones (b : BatteryReporting) (h : b.reporting_rate = 0xffff) :
    (device_pm_abstract_props b).rate = 0 := by
  have h0 : Int.tdiv (int32 0) 1000 = 0 := by decide
  by_cases hu : b.reporting_unit = some "mAh"
  · simp only [device_pm_abstract_props, hu, h, if_true, Int.zero_mul, h0]
    split <;> simp
  · simp only [device_pm_abstract_props, hu, h, if_true, if_false]
    split <;> simp

/-! ## Lemmas on interleaved batches -/

/-- Whatever the keys and flags, a pending list holding a node of one device, a
node of another device and an older node of the first device makes the flush
read a cleared udi, once the notification for the first device is sent. -/
theorem flush_updates_aba (env : DbusEnv) (st : DbusState) (a b : String)
    (p2 q p1 : PendingUpdate) (hp2 : p2.udi = some a) (hq : q.udi = some b)
    (hp1 : p1.udi = some a) (hab : a ≠ b) (fuel : Nat)
    (hsend : env.dbus_connection_send st.sent.length = true) :
    flush_updates env (fuel + 2) [p2, q, p1] st = .segv := by
  have hba : ¬ b = a := fun h => hab h.symm
  simp [flush_updates, count_updates, append_updates, hp2, hq, hp1, hba, Outcome.bind,
    send_or_die, hsend]

/-! ## Lemmas on partition tables -/

theorem ex_mbr_find :
    (part_table_find 2 ex_mbr (100 * 0x200)).map (fun r => (r.1.scheme, r.2)) =
      some (.PART_TYPE_MSDOS, 0) ∧
    (part_table_find 2 ex_mbr (2000 * 0x200)).map (fun r => (r.1.scheme, r.2)) =
      some (.PART_TYPE_MSDOS, 1) ∧
    (part_table_find 2 ex_mbr (2100 * 0x200)).map (fun r => (r.1.scheme, r.2)) =
      some (.PART_TYPE_MSDOS_EXTENDED, 0) ∧
    (part_table_find 2 ex_mbr (2001 * 0x200)).map (fun r => (r.1.scheme, r.2)) =
      some (.PART_TYPE_MSDOS_EXTENDED, -1) ∧
    (part_table_find 2 ex_mbr (9000 * 0x200)).map (fun r => (r.1.scheme, r.2)) =
      some (.PART_TYPE_MSDOS, -1) ∧
    (part_table_find 1 ex_mbr (2100 * 0x200)).map (fun r => (r.1.scheme, r.2)) = none ∧
    ex_mbr.depth = 2 := by
  decide

theorem part_table_entry_get_size_lt (p : Option PartitionTable) (n : Nat) :
    part_table_entry_get_size p n < 2 ^ 64 := by
  unfold part_table_entry_get_size
  cases p with
  | none => simp [G_MAXUINT64]
  | some p =>
    simp only
    cases p.entries[n]? with
    | none => simp [G_MAXUINT64]
    | some pe =>
      simp only
      cases p.scheme <;> simp only [G_MAXUINT64] <;> omega

/-- When the 64-bit test of the loop holds, the sum did not wrap: the offset
lies in the extent of the entry. -/
theorem entry_holds_extent (p : PartitionTable) (n : Nat) (offset : Nat)
    (h : entry_holds p n offset) :
    part_table_entry_get_offset (some p) n ≤ offset ∧
      offset < part_table_entry_get_offset (some p) n + part_table_entry_get_size (some p) n := by
  obtain ⟨h1, h2⟩ := h
  have hs := part_table_entry_get_size_lt (some p) n
  refine ⟨h1, ?_⟩
  by_contra hcon
  have hge : part_table_entry_get_offset (some p) n + part_table_entry_get_size (some p) n
      ≤ offset := by omega
  have hmod := Nat.mod_le
    (part_table_entry_get_offset (some p) n + part_table_entry_get_size (some p) n) (2 ^ 64)
  omega

theorem get_nested_lt_entries (p : PartitionTable) (n : Nat) (t : PartitionTable)
    (h : part_table_entry_get_nested (some p) n = some t) :
    n < part_table_get_num_entries p := by
  unfold part_table_entry_get_nested at h
  simp only at h
  unfold part_table_get_num_entries
  by_contra hcon
  rw [List.getElem?_eq_none (by omega)] at h
  simp at h

theorem depth_entries_get (es : List PartitionEntry) (n : Nat) (pe : PartitionEntry)
    (h : es[n]? = some pe) : pe.depth ≤ depth_entries es := by
  induction es generalizing n with
  | nil => simp at h
  | cons e rest ih =>
    cases n with
    | zero =>
      simp at h
      subst h
      simp [depth_entries]
    | succ m =>
      simp at h
      have := ih m h
      simp [depth_entries]
      omega

theorem get_nested_depth (p : PartitionTable) (n : Nat) (t : PartitionTable)
    (h : part_table_entry_get_nested (some p) n = some t) : t.depth < p.depth := by
  unfold part_table_entry_get_nested at h
  simp only at h
  cases hg : p.entries[n]? with
  | none => simp [hg] at h
  | some pe =>
    simp only [hg] at h
    have hd := depth_entries_get p.entries n pe hg
    cases p with
    | mk sc off sz es =>
      cases pe with
      | mk ipt pt data len o =>
        simp only [PartitionEntry.is_part_table, PartitionEntry.part_table] at h
        split at h
        · subst h
          simp only [PartitionTable.entries, PartitionEntry.depth, depth_nested] at hd
          simp only [PartitionTable.depth]
          omega
        · cases h

/-- An index past the entries of the table does not pass the test of the loop:
offset and size both read as `G_MAXUINT64` there. -/
theorem entry_holds_lt_entries (p : PartitionTable) (n : Nat) (offset : Nat)
    (h : entry_holds p n offset) : n < part_table_get_num_entries p := by
  unfold part_table_get_num_entries
  by_contra hcon
  have hoff : part_table_entry_get_offset (some p) n = G_MAXUINT64 := by
    unfold part_table_entry_get_offset
    simp only
    rw [List.getElem?_eq_none (by omega)]
  have hsz : part_table_entry_get_size (some p) n = G_MAXUINT64 := by
    unfold part_table_entry_get_size
    simp only
    rw [List.getElem?_eq_none (by omega)]
  have hsum : (G_MAXUINT64 + G_MAXUINT64) % 2 ^ 64 = 2 ^ 64 - 2 := by decide
  obtain ⟨h1, h2⟩ := h
  rw [hoff, hsz, hsum] at h2
  rw [hoff] at h1
  simp only [G_MAXUINT64] at h1
  omega

/-- The out values for an entry that passes the test of the loop and is
returned itself. -/
theorem found_at_entry (p : PartitionTable) (n : Nat) (offset : Nat)
    (hh : entry_holds p n offset)
    (hnest : ∀ t, part_table_entry_get_nested (some p) n = some t →
      offset = part_table_entry_get_offset (some p) n) :
    found_at offset (p, (n : Int)) := by
  have hext := entry_holds_extent p n offset hh
  exact Or.inr ⟨n, rfl, entry_holds_lt_entries p n offset hh, hext.1, hext.2, hnest⟩

/-- The loop of `part_table_find` ends, with good out values when the
recursive call gives good out values for every nested table of `p`. -/
theorem find_entries_found (nested_find : PartitionTable → Option (PartitionTable × Int))
    (p : PartitionTable) (offset : Nat)
    (hn : ∀ n t, part_table_entry_get_nested (some p) n = some t →
      ∃ r, nested_find t = some r ∧ found_at offset r) :
    ∀ k n, ∃ r, find_entries nested_find p offset k n = some r ∧ found_at offset r := by
  intro k
  induction k with
  | zero =>
    intro n
    exact ⟨(p, -1), rfl, Or.inl rfl⟩
  | succ k ih =>
    intro n
    unfold find_entries
    simp only
    by_cases hh : entry_holds p n offset
    · have hh2 := hh
      unfold entry_holds at hh2
      rw [if_pos hh2]
      rcases Option.eq_none_or_eq_some (part_table_entry_get_nested (some p) n) with
        hnone | ⟨t, ht⟩
      · rw [hnone]
        refine ⟨(p, (n : Int)), rfl, found_at_entry p n offset hh ?_⟩
        intro t ht
        rw [hnone] at ht
        cases ht
      · rw [ht]
        simp only
        by_cases hgt : offset > part_table_entry_get_offset (some p) n
        · rw [if_pos hgt]
          exact hn n t ht
        · rw [if_neg hgt]
          refine ⟨(p, (n : Int)), rfl, found_at_entry p n offset hh ?_⟩
          intro _ _
          have := hh2.1
          omega
    · have hh2 := hh
      unfold entry_holds at hh2
      rw [if_neg hh2]
      exact ih (n + 1)

/-- With a bound that covers the depth of nesting, `part_table_find` returns
good out values. -/
theorem part_table_find_found (fuel : Nat) :
    ∀ (p : PartitionTable) (offset : Nat), p.depth ≤ fuel →
      ∃ r, part_table_find fuel p offset = some r ∧ found_at offset r := by
  induction fuel with
  | zero =>
    intro p offset h
    cases p with
    | mk sc off sz es => simp [PartitionTable.depth] at h
  | succ fuel ih =>
    intro p offset h
    unfold part_table_find
    apply find_entries_found
    intro n t ht
    have := get_nested_depth p n t ht
    exact ih t offset (by omega)

/-- The loop passes over the entries that do not hold the offset. -/
theorem find_entries_skip (nested_find : PartitionTable → Option (PartitionTable × Int))
    (p : PartitionTable) (offset : Nat) (k : Nat) :
    ∀ (j n : Nat), (∀ m, n ≤ m → m < n + j → ¬ entry_holds p m offset) →
      find_entries nested_find p offset (j + k) n = find_entries nested_find p offset k (n + j) := by
  intro j
  induction j with
  | zero => intro n _; simp
  | succ j ih =>
    intro n h
    have h0 : ¬ entry_holds p n offset := h n (le_refl n) (by omega)
    have hstep : find_entries nested_find p offset (j + 1 + k) n =
        find_entries nested_find p offset (j + k) (n + 1) := by
      have hk : j + 1 + k = (j + k) + 1 := by omega
      rw [hk]
      conv => lhs; unfold find_entries
      unfold entry_holds at h0
      simp only
      rw [if_neg h0]
    rw [hstep, ih (n + 1) (fun m h1 h2 => h m (by omega) (by omega))]
    congr 1
    omega

/-- More fuel than the depth of nesting does not change the out values. -/
theorem part_table_find_fuel (fuel : Nat) (p : PartitionTable) (offset : Nat)
    (h : p.depth ≤ fuel) :
    part_table_find fuel p offset = part_table_find p.depth p offset := by
  have key : ∀ (d : Nat) (q : PartitionTable) (f : Nat), q.depth ≤ d → d ≤ f →
      part_table_find f q offset = part_table_find d q offset := by
    intro d
    induction d with
    | zero =>
      intro q f hq _
      cases q with
      | mk sc off sz es => simp [PartitionTable.depth] at hq
    | succ d ih =>
      intro q f hq hf
      cases f with
      | zero => omega
      | succ f =>
        unfold part_table_find
        have hcongr : ∀ k n,
            find_entries (fun t => part_table_find f t offset) q offset k n =
              find_entries (fun t => part_table_find d t offset) q offset k n := by
          intro k
          induction k with
          | zero => intro n; rfl
          | succ k ihk =>
            intro n
            unfold find_entries
            simp only
            split
            · rcases Option.eq_none_or_eq_some (part_table_entry_get_nested (some q) n) with
                hnone | ⟨t, ht⟩
              · rw [hnone]
              · rw [ht]
                simp only
                split
                · have := get_nested_depth q n t ht
                  exact ih t f (by omega) (by omega)
                · rfl
            · exact ihk (n + 1)
        exact hcongr _ _
  exact key p.depth p fuel (le_refl _) h

/-- The first entry that passes the test of the loop decides the out values:
the recursive call on its nested table when the offset lies past its start,
the entry itself otherwise. -/
theorem find_entries_first (nested_find : PartitionTable → Option (PartitionTable × Int))
    (p : PartitionTable) (offset : Nat) (n : Nat)
    (hbefore : ∀ m, m < n → ¬ entry_holds p m offset) (hh : entry_holds p n offset) :
    find_entries nested_find p offset (part_table_get_num_entries p) 0 =
      match part_table_entry_get_nested (some p) n with
      | some t =>
        if offset > part_table_entry_get_offset (some p) n then nested_find t
        else some (p, (n : Int))
      | none => some (p, (n : Int)) := by
  have hlt := entry_holds_lt_entries p n offset hh
  obtain ⟨k, hk⟩ : ∃ k, part_table_get_num_entries p = n + (k + 1) :=
    ⟨part_table_get_num_entries p - n - 1, by omega⟩
  rw [hk, find_entries_skip nested_find p offset (k + 1) n 0
    (fun m _ h2 => hbefore m (by omega))]
  simp only [Nat.zero_add]
  conv => lhs; unfold find_entries
  unfold entry_holds at hh
  simp only
  rw [if_pos hh]

/-! ## Results -/

/-- C1 (the code departs from the claim).  A device-added event enqueues one
callout and its spawn fails: `hal_callout_device` returns with nothing pending,
nothing active and no child running, and `hal_device_callouts_finished` has not
been called, so no later reap can call it.  The same happens when the first of
two callouts runs and is reaped and the spawn of the second, the last of the
device, fails. -/
theorem callouts_finished_lost_when_spawn_fails :
    (hal_callout_device ex_globals env_spawn_fails ex_dir_one ex_device true
        CalloutState.init).returns
      (fun s => s.pending_callouts = [] ∧ s.active_callout = none ∧ running s.log = [] ∧
        (enqueued_callouts s.log).length = 1 ∧ (spawn_attempts s.log).length = 1 ∧
        finished_devices s.log = []) ∧
    (run_callout_ops env_second_spawn_fails ex_ops CalloutState.init).returns
      (fun s => s.pending_callouts = [] ∧ s.active_callout = none ∧ running s.log = [] ∧
        (enqueued_callouts s.log).length = 2 ∧ (spawn_attempts s.log).length = 2 ∧
        finished_devices s.log = []) := by
  decide

/-- C2.  When the device callout directory is missing, cannot be opened, or
holds no executable entry ending in `.hal`, `hal_callout_device` returns
normally, its only effect is one call of `hal_device_callouts_finished` for the
device, and the pending queue and the active slot are as before, for every
device, every value of `added` and every state. -/
theorem hal_callout_device_no_callouts (g : HaldGlobals) (env : CalloutEnv)
    (dir : CalloutDir) (device : HalDevice) (added : Bool) (s : CalloutState)
    (h : dir.dir_exists = false ∨ dir.dir_open = none ∨
      ∃ entries, dir.dir_open = some entries ∧ ∀ e ∈ entries, e.matches = false) :
    hal_callout_device g env dir device added s =
      .ok { s with log := s.log ++ [.callouts_finished device] } := by
  unfold hal_callout_device
  cases hex : dir.dir_exists with
  | false => simp [CalloutState.emit]
  | true =>
    cases hop : dir.dir_open with
    | none => simp [CalloutState.emit]
    | some entries =>
      rcases h with h | h | ⟨es, hes, hno⟩
      · simp [hex] at h
      · simp [hop] at h
      · rw [hop] at hes
        cases hes
        simp [scan_callout_dir, foldl_scan_no_match _ _ _ hno, set_last_of_device,
          Outcome.bind, CalloutState.emit]

/-- C2 at a directory whose entries are a name without the suffix and a script
that is not executable. -/
theorem hal_callout_device_no_callouts_witness :
    (ex_dir_no_match.dir_exists = false ∨ ex_dir_no_match.dir_open = none ∨
      ∃ entries, ex_dir_no_match.dir_open = some entries ∧
        ∀ e ∈ entries, e.matches = false) ∧
    hal_callout_device ex_globals env_spawn_ok ex_dir_no_match ex_device true
        CalloutState.init =
      .ok { CalloutState.init with
            log := CalloutState.init.log ++ [.callouts_finished ex_device] } :=
  ⟨Or.inr (Or.inr ⟨_, rfl, by decide⟩),
   hal_callout_device_no_callouts ex_globals env_spawn_ok ex_dir_no_match ex_device true
     CalloutState.init (Or.inr (Or.inr ⟨_, rfl, by decide⟩))⟩

/-- C3.  At most one callout is active.  In every state reached from daemon
start by any sequence of device, capability and property notifications and
reaper wakeups, under any spawn outcomes and any `waitpid` results: no prefix
of the log has two callouts spawned and not yet reaped; the callout spawned and
not yet reaped, if any, is the one in the active slot; every spawn happened
while no callout was running.  And `process_next_callout` called with a callout
active does nothing beyond installing the SIGCHLD handler on first use: it pops
nothing and spawns nothing. -/
theorem at_most_one_active (env : CalloutEnv) (ops : List CalloutOp) (s : CalloutState)
    (h : run_callout_ops env ops CalloutState.init = .ok s) :
    (∀ p, p <+: s.log → (running p).length ≤ 1) ∧
    running s.log = s.active_callout.toList ∧
    (∀ pre c argv pid post, s.log = pre ++ .spawned c argv pid :: post → running pre = []) ∧
    (∀ t : CalloutState, t.active_callout.isSome = true →
      process_next_callout env t = install_sigchild_handler env t) := by
  have hs := serial_run env ops _ s serial_init h
  refine ⟨hs.1, hs.2, ?_, ?_⟩
  · intro pre c argv pid post hlog
    have := hs.1 (pre ++ [.spawned c argv pid]) (by rw [hlog]; exact ⟨post, by simp⟩)
    rw [running_concat] at this
    simp [running_step] at this
    exact this
  · intro t ht
    unfold process_next_callout
    cases hi : install_sigchild_handler env t with
    | ok t1 =>
      have := install_sigchild_handler_ok env t t1 hi
      subst this
      simp only [Outcome.bind]
      rw [next_callout_active _ _ _ (by simpa using ht)]
    | die => rfl
    | segv => rfl

/-- C3 at the run `ex_ops` with every spawn succeeding. -/
theorem at_most_one_active_witness :
    run_callout_ops env_spawn_ok ex_ops CalloutState.init = .ok ex_final ∧
    ((∀ p, p <+: ex_final.log → (running p).length ≤ 1) ∧
      running ex_final.log = ex_final.active_callout.toList ∧
      (∀ pre c argv pid post, ex_final.log = pre ++ .spawned c argv pid :: post →
        running pre = []) ∧
      (∀ t : CalloutState, t.active_callout.isSome = true →
        process_next_callout env_spawn_ok t = install_sigchild_handler env_spawn_ok t)) :=
  ⟨by decide, at_most_one_active env_spawn_ok ex_ops ex_final (by decide)⟩

/-- C4.  FIFO order.  After any callouts have been appended to the pending
queue by `add_pending_callout`, successive calls of `pop_pending_callout`
return the callouts that were pending before and then the appended ones, in
the order they were appended; the directory loop
enqueues one callout per matching entry in enumeration order; and in every
state reached from daemon start, the callouts handed to `g_spawn_async` so far
followed by the callouts still pending are exactly the callouts enqueued so
far, in enqueue order.  Callouts are compared on all that is fixed when they
are built: working directory, file name, action, device and the environment
strings the builder stores, which are the udi and the capability or the key
and value of the event, so that callouts of different events differ; the
`HAL_PROP_` strings, the pid and `last_of_device` are written after the
enqueueing and do not enter.  Every run of the retry loop takes its spawn
attempts from the front of the queue, in queue order, and leaves the rest. -/
theorem callouts_spawned_in_fifo_order (env : CalloutEnv) (ops : List CalloutOp)
    (s : CalloutState)
    (h : run_callout_ops env ops CalloutState.init = .ok s) :
    (∀ (t : CalloutState) (cs : List Callout),
      pop_pending_callouts (t.pending_callouts.length + cs.length)
        (cs.foldl add_pending_callout t) = t.pending_callouts ++ cs) ∧
    (∀ (mk : String → Callout) (entries : List DirEntry) (t : CalloutState),
      (scan_callout_dir mk entries t).st.pending_callouts =
        t.pending_callouts ++ (entries.filter DirEntry.matches).map (fun e => mk e.filename)) ∧
    (spawn_attempts s.log).map Callout.ident ++ s.pending_callouts.map Callout.ident =
      (enqueued_callouts s.log).map Callout.ident ∧
    (∀ (g : HaldGlobals) (device : HalDevice) (capability key filename : String)
        (added : Bool),
      (device_callout g device added filename).ident =
          (DEVICE_CALLOUT_DIR g, filename,
            (if added then CalloutAction.CALLOUT_ADD else CalloutAction.CALLOUT_REMOVE),
            device, ["UDI=" ++ device.udi] ++ flag_env g) ∧
        (capability_callout g device capability added filename).ident =
          (CAPABILITY_CALLOUT_DIR g, filename,
            (if added then CalloutAction.CALLOUT_ADD else CalloutAction.CALLOUT_REMOVE),
            device, ["UDI=" ++ device.udi, "CAPABILITY=" ++ capability] ++ flag_env g) ∧
        (property_callout g device key filename).ident =
          (PROPERTY_CALLOUT_DIR g, filename, CalloutAction.CALLOUT_MODIFY, device,
            ["UDI=" ++ device.udi, "PROPERTY=" ++ key,
              "VALUE=" ++ hal_device_property_to_string device key] ++ flag_env g)) ∧
    (∀ (c : Callout) (pid : Int),
      (hal_device_property_foreach c).ident = c.ident ∧
        (spawned_callout c pid).ident = c.ident) ∧
    (∀ t : CalloutState, t.active_callout = none →
      ∃ n, n ≤ t.pending_callouts.length ∧
        (next_callout env (t.pending_callouts.length + 1) t).pending_callouts =
          t.pending_callouts.drop n ∧
        (spawn_attempts (next_callout env (t.pending_callouts.length + 1) t).log).map
            Callout.ident =
          (spawn_attempts t.log).map Callout.ident ++
            (t.pending_callouts.take n).map Callout.ident) := by
  refine ⟨pop_after_add, ?_, ?_, ?_, ?_, next_callout_takes_front env⟩
  · intro mk entries t
    rw [scan_callout_dir_st]
    rfl
  · exact fifo_run env ops _ s
      (by simp [Fifo, CalloutState.init, spawn_attempts, enqueued_callouts]) h
  · intro g device capability key filename added
    exact ⟨device_callout_ident g device added filename,
      capability_callout_ident g device capability added filename,
      property_callout_ident g device key filename⟩
  · intro c pid
    exact ⟨hal_device_property_foreach_ident c, spawned_callout_ident c pid⟩

/-- C4 at the run `ex_ops_two_events` with every spawn succeeding, and at the
run `ex_ops_two_capabilities`, where the callouts of the two events differ in
the capability only and are spawned in the order of the events. -/
theorem callouts_spawned_in_fifo_order_witness :
    run_callout_ops env_spawn_ok ex_ops_two_events CalloutState.init = .ok ex_final_two_events ∧
    (spawn_attempts ex_final_two_events.log).map Callout.ident ++
        ex_final_two_events.pending_callouts.map Callout.ident =
      (enqueued_callouts ex_final_two_events.log).map Callout.ident ∧
    run_callout_ops env_spawn_ok ex_ops_two_capabilities CalloutState.init =
      .ok ex_final_two_capabilities ∧
    (spawn_attempts ex_final_two_capabilities.log).map Callout.fixed_env =
      [["UDI=/org/freedesktop/Hal/devices/computer", "CAPABILITY=battery"],
       ["UDI=/org/freedesktop/Hal/devices/computer", "CAPABILITY=button"]] ∧
    ex_final_two_capabilities.pending_callouts = [] ∧
    (spawn_attempts ex_final_two_capabilities.log).map Callout.ident ++
        ex_final_two_capabilities.pending_callouts.map Callout.ident =
      (enqueued_callouts ex_final_two_capabilities.log).map Callout.ident :=
  ⟨by decide,
   (callouts_spawned_in_fifo_order env_spawn_ok ex_ops_two_events ex_final_two_events
      (by decide)).2.2.1,
   by decide, by decide, by decide,
   (callouts_spawned_in_fifo_order env_spawn_ok ex_ops_two_capabilities
      ex_final_two_capabilities (by decide)).2.2.1⟩

/-- C5.  Spawn failures do not stall the queue.  Whenever the SIGCHLD handler
is installed or can be installed, `process_next_callout` returns, and then
either a callout occupies the active slot or the active slot and the pending
queue are both empty.  Called with no callout active, it has removed from the
front of the queue a run `failed` of callouts, one for each failed spawn, and
either the queue was `failed` and is now empty, or the callout after `failed`
was spawned and is now active and the rest of the queue is still pending. -/
theorem spawn_failures_do_not_stall (env : CalloutEnv) (s : CalloutState)
    (hinst : s.have_installed_sigchild_handler = true ∨
      (env.pipe_ok = true ∧ env.iochn_ok = true)) :
    ∃ s', process_next_callout env s = .ok s' ∧
      ((∃ a, s'.active_callout = some a) ∨
        (s'.active_callout = none ∧ s'.pending_callouts = [])) ∧
      (s.active_callout = none →
        ∃ failed : List Callout,
          (∀ i, i < failed.length → env.g_spawn_async (s.spawn_count + i) = none) ∧
          ((s.pending_callouts = failed ∧ s'.pending_callouts = [] ∧
              s'.active_callout = none ∧ s'.log = s.log ++ failed.map failed_event) ∨
           (∃ c pid, s.pending_callouts = failed ++ c :: s'.pending_callouts ∧
              env.g_spawn_async (s.spawn_count + failed.length) = some pid ∧
              s'.active_callout = some (spawned_callout c pid) ∧
              s'.log = s.log ++ failed.map failed_event ++ [spawned_event c pid]))) := by
  have hi : install_sigchild_handler env s =
      .ok { s with have_installed_sigchild_handler := true } := by
    unfold install_sigchild_handler
    rcases hinst with h | ⟨h1, h2⟩
    · simp [h]; cases s; simp_all
    · cases hh : s.have_installed_sigchild_handler
      · simp [h1, h2]
      · simp; cases s; simp_all
  refine ⟨next_callout env (s.pending_callouts.length + 1)
      { s with have_installed_sigchild_handler := true }, ?_, ?_⟩
  · simp [process_next_callout, hi, Outcome.bind]
  · rcases Option.eq_none_or_eq_some s.active_callout with hact | ⟨a, hact⟩
    · obtain ⟨failed, hf, hres⟩ := next_callout_spec env (s.pending_callouts.length + 1)
        { s with have_installed_sigchild_handler := true } hact (by simp)
      rcases hres with ⟨h1, h2⟩ | ⟨c, pid, rest, h1, h2, h3⟩
      · rw [h1]
        exact ⟨Or.inr ⟨hact, rfl⟩, fun _ => ⟨failed, hf, Or.inl ⟨h2, rfl, hact, rfl⟩⟩⟩
      · rw [h3]
        exact ⟨Or.inl ⟨_, rfl⟩, fun _ => ⟨failed, hf, Or.inr ⟨c, pid, h1, h2, rfl, rfl⟩⟩⟩
    · rw [next_callout_active _ _ _ (by simp [hact])]
      exact ⟨Or.inl ⟨a, hact⟩, by simp [hact]⟩

/-- C5 at a queue of two callouts where the first spawn fails. -/
theorem spawn_failures_do_not_stall_witness :
    (ex_two_pending.have_installed_sigchild_handler = true ∨
      (env_first_spawn_fails.pipe_ok = true ∧ env_first_spawn_fails.iochn_ok = true)) ∧
    ∃ s', process_next_callout env_first_spawn_fails ex_two_pending = .ok s' ∧
      ((∃ a, s'.active_callout = some a) ∨
        (s'.active_callout = none ∧ s'.pending_callouts = [])) ∧
      (ex_two_pending.active_callout = none →
        ∃ failed : List Callout,
          (∀ i, i < failed.length →
            env_first_spawn_fails.g_spawn_async (ex_two_pending.spawn_count + i) = none) ∧
          ((ex_two_pending.pending_callouts = failed ∧ s'.pending_callouts = [] ∧
              s'.active_callout = none ∧
              s'.log = ex_two_pending.log ++ failed.map failed_event) ∨
           (∃ c pid, ex_two_pending.pending_callouts = failed ++ c :: s'.pending_callouts ∧
              env_first_spawn_fails.g_spawn_async (ex_two_pending.spawn_count + failed.length)
                = some pid ∧
              s'.active_callout = some (spawned_callout c pid) ∧
              s'.log = ex_two_pending.log ++ failed.map failed_event ++
                [spawned_event c pid]))) :=
  ⟨Or.inr ⟨rfl, rfl⟩,
   spawn_failures_do_not_stall env_first_spawn_fails ex_two_pending (Or.inr ⟨rfl, rfl⟩)⟩

/-- C6.  Pid mismatch is fail-closed.  When `waitpid` returns the pid of a
terminated child that differs from the pid of the active callout, at the first
or at any later pass of the reap loop, the loop ends at once and the state is
as before but for the record of that `waitpid` call: the active slot and the
pending queue are unchanged, no completion signal is emitted, no callout is
spawned, and the remaining children are not waited for. -/
theorem pid_mismatch_fail_closed (env : CalloutEnv) (s : CalloutState) (active : Callout)
    (child_pid : Int) (rest : List Int) (hact : s.active_callout = some active)
    (hpos : 0 < child_pid) (hne : active.pid ≠ child_pid) :
    reap_loop env (child_pid :: rest) s =
        .ok { s with log := s.log ++ [.waitpid child_pid] } ∧
      iochn_data env true (child_pid :: rest) s =
        .ok { s with log := s.log ++ [.waitpid child_pid] } := by
  have h0 : child_pid ≠ 0 := by omega
  have h1 : child_pid ≠ -1 := by omega
  constructor <;> simp [iochn_data, reap_loop, h0, h1, CalloutState.emit, hact, hne]

/-- C6 at the state with the callout of pid 100 active and a reaped pid 7. -/
theorem pid_mismatch_fail_closed_witness :
    (ex_one_active.active_callout = some ex_active ∧ (0 : Int) < 7 ∧ ex_active.pid ≠ 7) ∧
    (reap_loop env_spawn_ok [7, 100] ex_one_active =
        .ok { ex_one_active with log := ex_one_active.log ++ [.waitpid 7] } ∧
      iochn_data env_spawn_ok true [7, 100] ex_one_active =
        .ok { ex_one_active with log := ex_one_active.log ++ [.waitpid 7] }) :=
  ⟨by decide,
   pid_mismatch_fail_closed env_spawn_ok ex_one_active ex_active 7 [100] (by decide)
     (by decide) (by decide)⟩

/-- C7 (the code departs from the claim).  A capability event with no script
installs the SIGCHLD handler and leaves no callout active; when a child then
terminates, `iochn_data` reads `active_callout->pid` through the NULL pointer
instead of logging and ignoring the pid.  The same happens within one wakeup
after the last callout has been reaped. -/
theorem iochn_data_null_active_callout :
    run_callout_ops env_spawn_ok
        [.capability ex_globals ex_dir_empty ex_device "battery" true] CalloutState.init =
      .ok { CalloutState.init with have_installed_sigchild_handler := true } ∧
    iochn_data env_spawn_ok true [4242]
        { CalloutState.init with have_installed_sigchild_handler := true } = .segv ∧
    iochn_data env_spawn_ok true [100, 4242] ex_one_active = .segv := by
  decide

/-- C9 as stated fails.  The region begin; record (A, `a`); record (A, `b`);
end sends one notification whose keys are `b` then `a`, not `a` then `b`. -/
theorem batch_keys_reversed :
    (atomic_region env_send_ok ex_changes_ab DbusState.init).returns
      (fun st => st.sent.map message_keys = [["b", "a"]] ∧
        st.sent.map message_keys ≠ [["a", "b"]]) := by
  decide

/-- C9 as amended.  For every device udi and every non-empty list of changes of
that device recorded in one outermost region, the flush sends exactly one
notification: it is for that udi, its count is the number of changes, and its
per-update entries list the changes most recently recorded first, that is in
the reverse of the order in which they were recorded.  Nothing else in the
state changes; if `dbus_connection_send` refuses the message the daemon exits
through `DIE`. -/
theorem batch_coalesced_in_reverse_call_order (env : DbusEnv) (udi : String)
    (changes : List Change) (st : DbusState) (hne : changes ≠ [])
    (hdev : ∀ c ∈ changes, c.device.udi = udi) (hcount : st.atomic_count = 0)
    (hnum : st.num_pending_updates = 0) (hpend : st.pending_updates_head = []) :
    atomic_region env changes st =
      if env.dbus_connection_send st.sent.length then
        .ok { st with
              sent := st.sent ++
                [property_modified_signal udi
                  (.int32 changes.length ::
                    update_args (changes.reverse.map Change.pending))] }
      else .die := by
  unfold atomic_region
  rw [record_changes_pending env changes _ (by simp [device_property_atomic_update_begin, hcount])]
  have hlen : 0 < changes.length := List.length_pos.mpr hne
  simp only [Outcome.bind]
  rw [atomic_update_end_outermost _ _ (by simp [device_property_atomic_update_begin, hcount])
    (by simp [device_property_atomic_update_begin, hnum]; omega)]
  have hl : changes.reverse.map Change.pending ≠ [] := by
    simpa using hne
  have hall : ∀ pu ∈ changes.reverse.map Change.pending, pu.udi = some udi := by
    intro pu hpu
    simp at hpu
    obtain ⟨c, hc, rfl⟩ := hpu
    simp [Change.pending, hdev c hc]
  simp only [device_property_atomic_update_begin, hpend, List.append_nil]
  rw [flush_updates_same env udi (changes.reverse.map Change.pending) _ hl hall]
  simp only [send_or_die, List.length_map, List.length_reverse]
  split
  · simp only [Outcome.bind]
    cases st
    simp_all
  · rfl

/-- C9 as amended, at the region recording keys `a` and `b` of device A. -/
theorem batch_coalesced_in_reverse_call_order_witness :
    (ex_changes_ab ≠ [] ∧ (∀ c ∈ ex_changes_ab, c.device.udi = ex_dev_a.udi) ∧
      DbusState.init.atomic_count = 0 ∧ DbusState.init.num_pending_updates = 0 ∧
      DbusState.init.pending_updates_head = []) ∧
    atomic_region env_send_ok ex_changes_ab DbusState.init =
      if env_send_ok.dbus_connection_send DbusState.init.sent.length then
        .ok { DbusState.init with
              sent := DbusState.init.sent ++
                [property_modified_signal ex_dev_a.udi
                  (.int32 ex_changes_ab.length ::
                    update_args (ex_changes_ab.reverse.map Change.pending))] }
      else .die :=
  ⟨by decide,
   batch_coalesced_in_reverse_call_order env_send_ok ex_dev_a.udi ex_changes_ab DbusState.init
     (by decide) (by decide) rfl rfl rfl⟩

/-- C10 (the code departs from the claim).  For changes of device A, then B,
then A again recorded in one region, the flush sends the notification for A,
clearing the udi of the older node of A, and then, counting the updates of B,
passes that NULL udi to `strcmp`: no notification for B is sent and the pending
list is not cleared. -/
theorem flush_interleaved_devices_crashes :
    atomic_region env_send_ok ex_changes_interleaved DbusState.init = .segv := by
  decide

/-- C11 (the claim as stated fails).  A region that records a change of device
a and then a change of device b sends the notification for b before the one
for a. -/
theorem notifications_not_in_first_seen_order :
    (atomic_region env_send_ok ex_changes_a_then_b DbusState.init).returns
      (fun st => st.sent.map (fun m => m.path) = [ex_dev_b.udi, ex_dev_a.udi] ∧
        st.sent.map (fun m => m.path) ≠ [ex_dev_a.udi, ex_dev_b.udi]) := by
  decide

/-- C11 (amended).  Notifications most recently recorded device first.  For
every batch recorded inside one outermost region in which the changes of each
device are recorded one after the other, so that the batch is a sequence of
runs of distinct devices, the region sends one notification per run, the run
recorded last first and the run recorded first last, each with the count and
the changes of its run; when every send succeeds nothing but the list of
messages sent has changed. -/
theorem notifications_most_recent_device_first (env : DbusEnv) (runs : List (List Change))
    (st : DbusState)
    (hg : grouped runs) (hcount : st.atomic_count = 0) (hnum : st.num_pending_updates = 0)
    (hpend : st.pending_updates_head = []) :
    atomic_region env (concat_runs runs) st =
        send_all env (runs.reverse.map run_message) st ∧
      ∀ st', atomic_region env (concat_runs runs) st = .ok st' →
        st' = { st with sent := st.sent ++ runs.reverse.map run_message } := by
  have h := atomic_region_grouped env runs st hg hcount hnum hpend
  refine ⟨h, fun st' hst' => ?_⟩
  rw [h] at hst'
  exact send_all_ok env _ st st' hst'

/-- Witness for C11 (amended): two changes of device a, then one of device b. -/
theorem notifications_most_recent_device_first_witness :
    (grouped ex_runs ∧ DbusState.init.atomic_count = 0 ∧
      DbusState.init.num_pending_updates = 0 ∧ DbusState.init.pending_updates_head = []) ∧
    (atomic_region env_send_ok (concat_runs ex_runs) DbusState.init =
        send_all env_send_ok (ex_runs.reverse.map run_message) DbusState.init ∧
      ∀ st', atomic_region env_send_ok (concat_runs ex_runs) DbusState.init = .ok st' →
        st' = { DbusState.init with
                sent := DbusState.init.sent ++ ex_runs.reverse.map run_message }) :=
  ⟨by decide,
   notifications_most_recent_device_first env_send_ok ex_runs DbusState.init (by decide) rfl rfl
     rfl⟩

/-- C12.  Pass-through equivalence.  In every state reached from daemon start
by calls of begin, end and record in which `atomic_count` is 0, and for every
device, key, added and removed: when the connection takes the message,
`device_send_signal_property_modified` returns at once having sent exactly one
message more, the signal `PropertyModified` of `org.freedesktop.Hal.Device` on
the path udi with the fields 1, key, removed, added in this order, and nothing
else of the state has changed; the region begin, record of the same arguments,
end sends the same one message and leaves the same state; when the connection
refuses the message both end in `DIE`. -/
theorem pass_through_equivalence (env : DbusEnv) (ops : List BatcherOp) (st : DbusState)
    (device : HalDevice)
    (key : String) (added removed : Bool)
    (h : run_batcher_ops env ops DbusState.init = .ok st) (hcount : st.atomic_count = 0) :
    (env.dbus_connection_send st.sent.length = true →
      device_send_signal_property_modified env device key added removed st =
          .ok { st with sent := st.sent ++
            [DBusMessage.mk device.udi "org.freedesktop.Hal.Device" "PropertyModified"
              [.int32 1, .string key, .boolean removed, .boolean added]] } ∧
        atomic_region env [⟨device, key, added, removed⟩] st =
          .ok { st with sent := st.sent ++
            [DBusMessage.mk device.udi "org.freedesktop.Hal.Device" "PropertyModified"
              [.int32 1, .string key, .boolean removed, .boolean added]] }) ∧
    (env.dbus_connection_send st.sent.length = false →
      device_send_signal_property_modified env device key added removed st = .die ∧
        atomic_region env [⟨device, key, added, removed⟩] st = .die) ∧
    device_send_signal_property_modified env device key added removed st =
      atomic_region env [⟨device, key, added, removed⟩] st := by
  have hinv := batcher_inv_run env ops 0 _ st batcher_inv_init h
  obtain ⟨-, hnum, hz, -, -⟩ := hinv
  have hpend := hz hcount
  have hnum0 : st.num_pending_updates = 0 := by rw [hnum, hpend]; rfl
  have hdirect : device_send_signal_property_modified env device key added removed st =
      send_or_die env st
        (property_modified_signal device.udi
          [.int32 1, .string key, .boolean removed, .boolean added]) := by
    simp [device_send_signal_property_modified, hcount]
  have hregion : atomic_region env [⟨device, key, added, removed⟩] st =
      send_or_die env st
        (property_modified_signal device.udi
          [.int32 1, .string key, .boolean removed, .boolean added]) := by
    have hg : grouped [[(⟨device, key, added, removed⟩ : Change)]] := by
      simp [grouped, is_run, run_udi]
    have := atomic_region_grouped env [[⟨device, key, added, removed⟩]] st hg hcount hnum0 hpend
    simp only [concat_runs, List.append_nil, List.reverse_cons, List.reverse_nil,
      List.nil_append, List.map_cons, List.map_nil, send_all] at this
    rw [this, outcome_bind_ok]
    rfl
  refine ⟨?_, ?_, by rw [hdirect, hregion]⟩
  · intro hsend
    rw [hdirect, hregion]
    simp [send_or_die, property_modified_signal, hsend]
  · intro hsend
    rw [hdirect, hregion]
    simp [send_or_die, hsend]

/-- Witness for C12: a change of device b after a region has been closed, on a
connection that takes every message. -/
theorem pass_through_equivalence_witness :
    (run_batcher_ops env_send_ok ex_batcher_ops DbusState.init = .ok ex_batcher_final ∧
      ex_batcher_final.atomic_count = 0 ∧
      env_send_ok.dbus_connection_send ex_batcher_final.sent.length = true) ∧
    (device_send_signal_property_modified env_send_ok ex_dev_b "y" true false
        ex_batcher_final).returns
      (fun st => st.sent.drop ex_batcher_final.sent.length =
        [DBusMessage.mk "/org/freedesktop/Hal/devices/b" "org.freedesktop.Hal.Device"
          "PropertyModified" [.int32 1, .string "y", .boolean false, .boolean true]]) ∧
    (device_send_signal_property_modified env_send_ok ex_dev_b "y" true false
          ex_batcher_final =
        .ok { ex_batcher_final with sent := ex_batcher_final.sent ++
          [DBusMessage.mk ex_dev_b.udi "org.freedesktop.Hal.Device" "PropertyModified"
            [.int32 1, .string "y", .boolean false, .boolean true]] } ∧
      atomic_region env_send_ok [⟨ex_dev_b, "y", true, false⟩] ex_batcher_final =
        .ok { ex_batcher_final with sent := ex_batcher_final.sent ++
          [DBusMessage.mk ex_dev_b.udi "org.freedesktop.Hal.Device" "PropertyModified"
            [.int32 1, .string "y", .boolean false, .boolean true]] }) :=
  ⟨by decide, by decide,
   (pass_through_equivalence env_send_ok ex_batcher_ops ex_batcher_final ex_dev_b "y" true
     false (by decide) (by decide)).1 rfl⟩

/-- C13.  The flush happens only when the counter returns to zero.  In every
state reached from daemon start by calls of begin, end and record: when
`device_property_atomic_update_end` sends anything, it has left `atomic_count`
at 0 and the pending list was not empty; when not both hold, it only writes
the counter, so the pending list is unchanged and nothing is sent; an inner
end, called at depth 2 or more, only decrements the counter; and begin
followed by end with no change recorded sends nothing and gives back the state
as it was. -/
theorem atomic_update_end_flushes_only_at_zero (env : DbusEnv) (ops : List BatcherOp)
    (st : DbusState)
    (h : run_batcher_ops env ops DbusState.init = .ok st) :
    (∀ st', device_property_atomic_update_end env st = .ok st' → st'.sent ≠ st.sent →
      st'.atomic_count = 0 ∧ st.pending_updates_head ≠ []) ∧
    (¬ (count_after_end st = 0 ∧ st.pending_updates_head ≠ []) →
      device_property_atomic_update_end env st =
        .ok { st with atomic_count := count_after_end st }) ∧
    (2 ≤ st.atomic_count →
      device_property_atomic_update_end env st =
        .ok { st with atomic_count := st.atomic_count - 1 }) ∧
    device_property_atomic_update_end env (device_property_atomic_update_begin st) = .ok st := by
  have hinv := batcher_inv_run env ops 0 _ st batcher_inv_init h
  obtain ⟨h0, hnum, hz, -, -⟩ := hinv
  have hne : st.num_pending_updates > 0 ↔ st.pending_updates_head ≠ [] := by
    rw [hnum]
    constructor
    · intro hp hnil; rw [hnil] at hp; simp at hp
    · intro hp
      have := List.length_pos.mpr hp
      omega
  refine ⟨?_, ?_, ?_, ?_⟩
  · intro st' hend hsent
    by_cases hcond : count_after_end st = 0 ∧ st.num_pending_updates > 0
    · rw [atomic_update_end_flush env st hcond] at hend
      cases hf : flush_updates env st.pending_updates_head.length st.pending_updates_head
          { st with atomic_count := count_after_end st } with
      | ok st2 =>
        rw [hf] at hend
        simp only [Outcome.bind, Outcome.ok.injEq] at hend
        have hfr := flush_updates_frame env _ _ _ st2 hf
        subst hend
        rw [hfr]
        exact ⟨hcond.1, hne.mp hcond.2⟩
      | die => rw [hf] at hend; simp [Outcome.bind] at hend
      | segv => rw [hf] at hend; simp [Outcome.bind] at hend
    · rw [atomic_update_end_no_flush env st hcond] at hend
      simp only [Outcome.ok.injEq] at hend
      subst hend
      exact absurd rfl hsent
  · intro hcond
    exact atomic_update_end_no_flush env st (fun hc => hcond ⟨hc.1, hne.mp hc.2⟩)
  · intro h2
    have hc : count_after_end st = st.atomic_count - 1 := by
      unfold count_after_end; split <;> omega
    rw [atomic_update_end_no_flush env st (by rw [hc]; intro hh; omega), hc]
  · have hc : count_after_end (device_property_atomic_update_begin st) = st.atomic_count := by
      simp only [count_after_end, device_property_atomic_update_begin]
      split <;> omega
    rw [atomic_update_end_no_flush, hc]
    · cases st; rfl
    · rw [hc]
      intro hh
      have hp := hz hh.1
      have : (device_property_atomic_update_begin st).num_pending_updates = 0 := by
        simp [device_property_atomic_update_begin, hnum, hp]
      omega

/-- Witness for C13: the inner end of a nested region with one change pending. -/
theorem atomic_update_end_flushes_only_at_zero_witness :
    run_batcher_ops env_send_ok ex_batcher_nested_ops DbusState.init = .ok ex_batcher_nested ∧
    2 ≤ ex_batcher_nested.atomic_count ∧
    device_property_atomic_update_end env_send_ok ex_batcher_nested =
      .ok { ex_batcher_nested with atomic_count := ex_batcher_nested.atomic_count - 1 } ∧
    device_property_atomic_update_end env_send_ok
      (device_property_atomic_update_begin ex_batcher_nested) = .ok ex_batcher_nested :=
  ⟨by decide, by decide,
   (atomic_update_end_flushes_only_at_zero env_send_ok ex_batcher_nested_ops ex_batcher_nested
      (by decide)).2.2.1 (by decide),
   (atomic_update_end_flushes_only_at_zero env_send_ok ex_batcher_nested_ops ex_batcher_nested
      (by decide)).2.2.2⟩

/-- C14.  The invariant of the update code.  In every state reached from daemon
start by any sequence of calls of begin, end and record, ends without a begin
included: `atomic_count` is not negative, `num_pending_updates` is the length
of the pending list, the pending list is empty when `atomic_count` is 0, and
an end called at depth 0 gives back the state as it was, the counter at 0.
Neither counter exceeds the number of calls made, so the `int` variables of the
source do not wrap in a run of fewer than 2^31 calls. -/
theorem batcher_state_invariant (env : DbusEnv) (ops : List BatcherOp) (st : DbusState)
    (h : run_batcher_ops env ops DbusState.init = .ok st) :
    0 ≤ st.atomic_count ∧
    st.num_pending_updates = st.pending_updates_head.length ∧
    (st.atomic_count = 0 → st.pending_updates_head = []) ∧
    (st.atomic_count = 0 → device_property_atomic_update_end env st = .ok st) ∧
    st.atomic_count ≤ ops.length ∧ st.num_pending_updates ≤ ops.length := by
  have hinv := batcher_inv_run env ops 0 _ st batcher_inv_init h
  obtain ⟨h0, hnum, hz, hb1, hb2⟩ := hinv
  refine ⟨h0, hnum, hz, ?_, by simpa using hb1, by simpa using hb2⟩
  intro hc
  have hcz : count_after_end st = 0 := by
    unfold count_after_end; split <;> omega
  rw [atomic_update_end_no_flush, hcz]
  · cases st; simp_all
  · intro hh
    have hp := hz hc
    rw [hnum, hp] at hh
    simp at hh

/-- Witness for C14: a region with one change, then an end without a begin. -/
theorem batcher_state_invariant_witness :
    run_batcher_ops env_send_ok ex_batcher_ops DbusState.init = .ok ex_batcher_final ∧
    (0 ≤ ex_batcher_final.atomic_count ∧
      ex_batcher_final.num_pending_updates = ex_batcher_final.pending_updates_head.length ∧
      (ex_batcher_final.atomic_count = 0 → ex_batcher_final.pending_updates_head = []) ∧
      (ex_batcher_final.atomic_count = 0 →
        device_property_atomic_update_end env_send_ok ex_batcher_final = .ok ex_batcher_final) ∧
      ex_batcher_final.atomic_count ≤ ex_batcher_ops.length ∧
      ex_batcher_final.num_pending_updates ≤ ex_batcher_ops.length) :=
  ⟨by decide, batcher_state_invariant env_send_ok ex_batcher_ops ex_batcher_final (by decide)⟩

/-- C15.  A malformed reply yields Failed.  For every reply that is not a method
return, or whose first field is absent or not a UINT32, or whose second field is
absent or not an INT32, and every call data with a callback, `process_reply`
adds to the log one call of that callback with the device, `HALD_RUN_FAILED`,
return code 0, NULL for the error lines, and data1 and data2 of the call data,
followed only by the release of the device and the notify hook; nothing else of
the state changes, so the callback is called exactly once. -/
theorem malformed_reply_yields_failed (k : RunnerConsts) (m : RunnerMessage)
    (hb : HelperData) (s : RunnerState) (f : Nat) (hcb : hb.cb = some f)
    (hm : m.msg_type ≠ .METHOD_RETURN ∨ (¬ ∃ v rest, m.args = .uint32 v :: rest) ∨
      (¬ ∃ a v rest, m.args = a :: .int32 v :: rest)) :
    process_reply k m hb s =
        { s with log := s.log ++
            [.callback f hb.d k.HALD_RUN_FAILED 0 none hb.data1 hb.data2] ++
            reply_epilogue hb s } ∧
      callback_calls (process_reply k m hb s).log =
        callback_calls s.log ++
          [.callback f hb.d k.HALD_RUN_FAILED 0 none hb.data1 hb.data2] := by
  have h := (reply_malformed_iff m).mpr hm
  rw [process_reply_malformed k m hb s h]
  exact ⟨finish_reply_some hb f _ _ _ s hcb, finish_reply_calls hb f _ _ _ s hcb⟩

/-- Witness for C15: an error reply to the call of `ex_helper`. -/
theorem malformed_reply_yields_failed_witness :
    (ex_helper.cb = some 7 ∧
      (ex_reply_error.msg_type ≠ .METHOD_RETURN ∨
        (¬ ∃ v rest, ex_reply_error.args = .uint32 v :: rest) ∨
        (¬ ∃ a v rest, ex_reply_error.args = a :: .int32 v :: rest))) ∧
    callback_calls (process_reply ex_consts ex_reply_error ex_helper RunnerState.init).log =
      callback_calls RunnerState.init.log ++
        [.callback 7 ex_helper.d ex_consts.HALD_RUN_FAILED 0 none ex_helper.data1
          ex_helper.data2] :=
  ⟨⟨rfl, Or.inl (by decide)⟩,
   (malformed_reply_yields_failed ex_consts ex_reply_error ex_helper RunnerState.init 7 rfl
     (Or.inl (by decide))).2⟩

/-- C16.  Decoding of a well-formed reply.  For every method return whose
fields are a UINT32 `sc`, an INT32 `rc`, the strings `lines` and then `tail`,
where `tail` is empty or starts with a field that is not a string, and every
call data with a callback, `process_reply` adds to the log one call of that
callback with the device, `sc`, `rc`, the vector of exactly `lines` in their
order (the empty vector when there is none), and data1 and data2 of the call
data, followed only by the release of the device and the notify hook. -/
theorem well_formed_reply_decoded (k : RunnerConsts) (m : RunnerMessage) (hb : HelperData)
    (s : RunnerState) (f : Nat) (sc : Nat) (rc : Int) (lines : List String)
    (tail : List DBusArg) (hcb : hb.cb = some f) (ht : m.msg_type = .METHOD_RETURN)
    (ha : m.args = .uint32 sc :: .int32 rc :: (lines.map .string ++ tail))
    (hmax : tail = [] ∨ ∃ a t, tail = a :: t ∧ ∀ v, a ≠ .string v) :
    process_reply k m hb s =
        { s with log := s.log ++
            [.callback f hb.d sc rc (some lines) hb.data1 hb.data2] ++
            reply_epilogue hb s } ∧
      callback_calls (process_reply k m hb s).log =
        callback_calls s.log ++ [.callback f hb.d sc rc (some lines) hb.data1 hb.data2] := by
  rw [process_reply_well_formed k m hb s sc rc _ ht ha, reply_error_lines_run lines tail hmax]
  exact ⟨finish_reply_some hb f _ _ _ s hcb, finish_reply_calls hb f _ _ _ s hcb⟩

/-- Witness for C16: a reply with status 0, return code 3 and two error lines
before a field that is not a string. -/
theorem well_formed_reply_decoded_witness :
    (ex_helper.cb = some 7 ∧ (ex_reply_status 0).msg_type = .METHOD_RETURN ∧
      (ex_reply_status 0).args =
        .uint32 0 :: .int32 3 ::
          (["line one", "line two"].map .string ++ [.int32 5, .string "late"]) ∧
      (([.int32 5, .string "late"] : List DBusArg) = [] ∨
        ∃ a t, ([.int32 5, .string "late"] : List DBusArg) = a :: t ∧ ∀ v, a ≠ .string v)) ∧
    callback_calls (process_reply ex_consts (ex_reply_status 0) ex_helper
        RunnerState.init).log =
      callback_calls RunnerState.init.log ++
        [.callback 7 ex_helper.d 0 3 (some ["line one", "line two"]) ex_helper.data1
          ex_helper.data2] :=
  ⟨⟨rfl, rfl, rfl, Or.inr ⟨_, _, rfl, by simp⟩⟩,
   (well_formed_reply_decoded ex_consts (ex_reply_status 0) ex_helper RunnerState.init 7 0 3
     ["line one", "line two"] [.int32 5, .string "late"] rfl rfl rfl
     (Or.inr ⟨_, _, rfl, by simp⟩)).2⟩

/-- C17 (the claim as stated fails).  A method return with status 2 makes
`process_reply` deliver 2 to the callback, which is neither of the sample
constants; and whatever the values of `HALD_RUN_SUCCESS` and `HALD_RUN_FAILED`
are, some reply makes it deliver a status that is neither. -/
theorem run_status_not_only_success_or_failed :
    callback_statuses
        (process_reply ex_consts (ex_reply_status 2) ex_helper RunnerState.init).log = [2] ∧
    ¬ ∃ k : RunnerConsts, ∀ (m : RunnerMessage) (hb : HelperData),
        ∀ x ∈ callback_statuses (process_reply k m hb RunnerState.init).log,
          x = k.HALD_RUN_SUCCESS ∨ x = k.HALD_RUN_FAILED := by
  refine ⟨by decide, ?_⟩
  rintro ⟨k, h⟩
  have hs : ∀ v, callback_statuses
      (process_reply k (ex_reply_status v) ex_helper RunnerState.init).log = [v] := by
    intro v
    rw [process_reply_well_formed k _ _ _ v 3 _ rfl rfl, finish_reply_statuses _ 7 _ _ _ _ rfl]
    rfl
  have h0 := h (ex_reply_status 0) ex_helper 0 (by rw [hs]; simp)
  have h1 := h (ex_reply_status 1) ex_helper 1 (by rw [hs]; simp)
  have h2 := h (ex_reply_status 2) ex_helper 2 (by rw [hs]; simp)
  omega

/-- C17 (amended).  The status `process_reply` delivers to the callback is
`HALD_RUN_FAILED` when the reply is malformed, and otherwise the UINT32 status
field of the reply, unchanged. -/
theorem run_status_failed_or_forwarded (k : RunnerConsts) (m : RunnerMessage)
    (hb : HelperData) (s : RunnerState) (f : Nat) (hcb : hb.cb = some f) :
    ((m.msg_type ≠ .METHOD_RETURN ∨ (¬ ∃ v rest, m.args = .uint32 v :: rest) ∨
        (¬ ∃ a v rest, m.args = a :: .int32 v :: rest)) →
      callback_statuses (process_reply k m hb s).log =
        callback_statuses s.log ++ [k.HALD_RUN_FAILED]) ∧
    (∀ sc rc rest, m.msg_type = .METHOD_RETURN → m.args = .uint32 sc :: .int32 rc :: rest →
      callback_statuses (process_reply k m hb s).log = callback_statuses s.log ++ [sc]) ∧
    ((m.msg_type ≠ .METHOD_RETURN ∨ (¬ ∃ v rest, m.args = .uint32 v :: rest) ∨
        (¬ ∃ a v rest, m.args = a :: .int32 v :: rest)) ∨
      ∃ sc rc rest, m.msg_type = .METHOD_RETURN ∧ m.args = .uint32 sc :: .int32 rc :: rest) := by
  refine ⟨?_, ?_, ?_⟩
  · intro hm
    rw [process_reply_malformed k m hb s ((reply_malformed_iff m).mpr hm)]
    exact finish_reply_statuses hb f _ _ _ s hcb
  · intro sc rc rest ht ha
    rw [process_reply_well_formed k m hb s sc rc rest ht ha]
    exact finish_reply_statuses hb f _ _ _ s hcb
  · cases hw : reply_well_formed m
    · exact Or.inl ((reply_malformed_iff m).mp hw)
    · right
      unfold reply_well_formed at hw
      cases ha : m.args with
      | nil => simp [ha] at hw
      | cons a rest =>
        cases rest with
        | nil => cases a <;> simp [ha] at hw
        | cons b lines =>
          cases a <;> cases b <;> simp [ha] at hw
          exact ⟨_, _, _, hw, rfl⟩

/-- Witness for C17 (amended): a reply with status 2. -/
theorem run_status_failed_or_forwarded_witness :
    ex_helper.cb = some 7 ∧
    callback_statuses
        (process_reply ex_consts (ex_reply_status 2) ex_helper RunnerState.init).log =
      callback_statuses RunnerState.init.log ++ [2] :=
  ⟨rfl,
   (run_status_failed_or_forwarded ex_consts (ex_reply_status 2) ex_helper RunnerState.init 7
      rfl).2.1 2 3 _ rfl rfl⟩

/-- C18.  Failures before a request is under way.  When the message can be
allocated and the callback is not NULL: if the command line cannot be parsed,
`hald_runner_run_method` and `hald_runner_run_sync` return having only added
to the log one call of the callback with the device, `HALD_RUN_FAILED`, return
code 0, NULL for the error lines, data1 and data2; the same holds for
`hald_runner_run_method` when the send leaves no pending call, and for
`hald_runner_run_sync` when the send returns no reply.  The registered call
data and everything else in the state are as before. -/
theorem run_failure_fires_callback_once (k : RunnerConsts) (env : RunnerEnv)
    (device : Option HalDevice) (command_line : String) (extra_env : Option (List String))
    (input : String) (error_on_stderr : Bool) (timeout : Nat) (f : Nat) (data1 data2 : Nat)
    (s : RunnerState) (hnew : env.new_method_call_ok = true) :
    (env.g_shell_parse_argv command_line = none →
      hald_runner_run_method k env device command_line extra_env input error_on_stderr timeout
          (some f) data1 data2 s =
        .ok { s with log := s.log ++
          [.callback f device k.HALD_RUN_FAILED 0 none data1 data2] } ∧
      hald_runner_run_sync k env device command_line extra_env timeout (some f) data1 data2 s =
        .ok { s with log := s.log ++
          [.callback f device k.HALD_RUN_FAILED 0 none data1 data2] }) ∧
    (∀ argv, env.g_shell_parse_argv command_line = some argv → env.open_container_ok = true →
      env.send_with_reply
          (run_request env device extra_env argv input error_on_stderr timeout) =
        .disconnected →
      hald_runner_run_method k env device command_line extra_env input error_on_stderr timeout
          (some f) data1 data2 s =
        .ok { s with log := s.log ++
          [.callback f device k.HALD_RUN_FAILED 0 none data1 data2] }) ∧
    (∀ argv, env.g_shell_parse_argv command_line = some argv → env.open_container_ok = true →
      env.send_with_reply_and_block
          (run_request env device extra_env argv "" false timeout) = none →
      hald_runner_run_sync k env device command_line extra_env timeout (some f) data1 data2 s =
        .ok { s with log := s.log ++
          [.callback f device k.HALD_RUN_FAILED 0 none data1 data2] }) := by
  refine ⟨?_, ?_, ?_⟩
  · intro hp
    rw [run_method_unparsed k env device command_line extra_env input error_on_stderr timeout
      (some f) data1 data2 s hnew hp,
      run_sync_unparsed k env device command_line extra_env timeout (some f) data1 data2 s
        hnew hp]
    exact ⟨rfl, rfl⟩
  · intro argv hp hopen hsend
    rw [run_method_parsed k env device command_line extra_env input error_on_stderr timeout
      (some f) data1 data2 s argv hnew hp hopen, hsend]
    rfl
  · intro argv hp hopen hsend
    rw [run_sync_parsed k env device command_line extra_env timeout (some f) data1 data2 s
      argv hnew hp hopen, hsend]
    rfl

/-- Witness for C18: the empty command line, which does not parse, and the
command line `true` on a connection that is gone. -/
theorem run_failure_fires_callback_once_witness :
    (env_runner .disconnected none).new_method_call_ok = true ∧
    (hald_runner_run ex_consts (env_runner .disconnected none) (some ex_dev_a) "" none 0
        (some 7) 11 12 RunnerState.init).returns
      (fun s => s.log = [.callback 7 (some ex_dev_a) 1 0 none 11 12] ∧ s.pending_calls = []) ∧
    hald_runner_run_method ex_consts (env_runner .disconnected none) (some ex_dev_a) "true"
        none "" false 0 (some 7) 11 12 RunnerState.init =
      .ok { RunnerState.init with
        log := RunnerState.init.log ++ [.callback 7 (some ex_dev_a) 1 0 none 11 12] } ∧
    hald_runner_run_sync ex_consts (env_runner .disconnected none) (some ex_dev_a) "true"
        none 0 (some 7) 11 12 RunnerState.init =
      .ok { RunnerState.init with
        log := RunnerState.init.log ++ [.callback 7 (some ex_dev_a) 1 0 none 11 12] } :=
  ⟨rfl, by decide,
   (run_failure_fires_callback_once ex_consts (env_runner .disconnected none) (some ex_dev_a)
      "true" none "" false 0 7 11 12 RunnerState.init rfl).2.1 ["true"] rfl rfl rfl,
   (run_failure_fires_callback_once ex_consts (env_runner .disconnected none) (some ex_dev_a)
      "true" none "" false 0 7 11 12 RunnerState.init rfl).2.2 ["true"] rfl rfl rfl⟩

/-- C19 (the claim as stated fails).  Called with a NULL callback,
`hald_runner_start` returns TRUE on a method return that carries the pid 4242
and adds no record to `running_processes`. -/
theorem start_true_without_record :
    (hald_runner_start (env_runner .pending (some (ex_reply_pid 4242))) (some ex_dev_a)
        "true" none none 11 12 RunnerState.init).returns
      (fun r => r.1 = true ∧ r.2.running_processes = []) := by
  decide

/-- C19 (amended).  When the message and the container can be allocated,
`hald_runner_start` returns; it returns TRUE exactly when the command line
parses and the send brings back a method return.  When it returns TRUE for a
callback that is not NULL and a reply that starts with an INT64, exactly one
record is put in front of `running_processes`: the pid of the reply converted
to `GPid`, and the device, callback, data1 and data2 of the caller.  When it
returns TRUE for a NULL callback or for a reply that does not start with an
INT64, and whenever it returns FALSE, `running_processes` is unchanged. -/
theorem start_registers_on_success (env : RunnerEnv) (device : Option HalDevice)
    (command_line : String) (extra_env : Option (List String)) (cb : Option Nat)
    (data1 data2 : Nat) (s : RunnerState) (hnew : env.new_method_call_ok = true)
    (hopen : env.g_shell_parse_argv command_line = none ∨ env.open_container_ok = true) :
    ∃ ret s', hald_runner_start env device command_line extra_env cb data1 data2 s =
        .ok (ret, s') ∧
      (ret = true ↔ ∃ argv reply, env.g_shell_parse_argv command_line = some argv ∧
        env.send_with_reply_and_block (start_request env device extra_env argv) = some reply ∧
        reply.msg_type = .METHOD_RETURN) ∧
      (∀ argv reply f pid, ret = true → env.g_shell_parse_argv command_line = some argv →
        env.send_with_reply_and_block (start_request env device extra_env argv) = some reply →
        cb = some f → get_args_int64 reply = some pid →
        s'.running_processes =
          { pid := to_GPid pid, device := device, cb := some f, data1 := data1,
            data2 := data2 } :: s.running_processes) ∧
      (ret = true → cb = none → s'.running_processes = s.running_processes) ∧
      (∀ argv reply, ret = true → env.g_shell_parse_argv command_line = some argv →
        env.send_with_reply_and_block (start_request env device extra_env argv) = some reply →
        get_args_int64 reply = none → s'.running_processes = s.running_processes) ∧
      (ret = false → s'.running_processes = s.running_processes) := by
  rcases Option.eq_none_or_eq_some (env.g_shell_parse_argv command_line) with hp | ⟨argv, hp⟩
  · refine ⟨false, s, start_unparsed env device command_line extra_env cb data1 data2 s hnew hp,
      ?_, ?_, ?_, ?_, ?_⟩
    · simp [hp]
    · intro _ _ _ _ h; simp at h
    · intro h; simp at h
    · intro _ _ h; simp at h
    · intro _; rfl
  · have hopen2 : env.open_container_ok = true := by
      rcases hopen with h | h
      · rw [hp] at h; simp at h
      · exact h
    rw [start_parsed env device command_line extra_env cb data1 data2 s argv hnew hp hopen2]
    rcases Option.eq_none_or_eq_some
      (env.send_with_reply_and_block (start_request env device extra_env argv)) with
      hr | ⟨reply, hr⟩
    · refine ⟨false, s, by rw [hr], ?_, ?_, ?_, ?_, ?_⟩
      · simp [hp, hr]
      · intro _ _ _ _ h; simp at h
      · intro h; simp at h
      · intro _ _ h; simp at h
      · intro _; rfl
    · rw [hr]
      by_cases ht : reply.msg_type = .METHOD_RETURN
      · simp only [ht, if_true]
        have hiff : (true = true ↔ ∃ argv reply, env.g_shell_parse_argv command_line = some argv ∧
            env.send_with_reply_and_block (start_request env device extra_env argv) =
              some reply ∧ reply.msg_type = .METHOD_RETURN) := by
          simp only [true_iff]
          exact ⟨argv, reply, hp, hr, ht⟩
        rcases Option.eq_none_or_eq_some (get_args_int64 reply) with hg | ⟨pid, hg⟩
        · refine ⟨true, s.emit (.sent (start_request env device extra_env argv)),
            by rw [hg], hiff, ?_, ?_, ?_, ?_⟩
          · intro a r f p _ ha hr2 _ hg2
            rw [hp] at ha; cases ha
            rw [hr] at hr2; cases hr2
            rw [hg] at hg2; cases hg2
          · intro _ _; rfl
          · intro _ _ _ _ _ _; rfl
          · intro h; simp at h
        · cases cb with
          | none =>
            refine ⟨true, s.emit (.sent (start_request env device extra_env argv)),
              by rw [hg], hiff, ?_, ?_, ?_, ?_⟩
            · intro _ _ _ _ _ _ _ h; cases h
            · intro _ _; rfl
            · intro _ _ _ _ _ _; rfl
            · intro h; simp at h
          | some f =>
            refine ⟨true, _, by rw [hg], hiff, ?_, ?_, ?_, ?_⟩
            · intro a r f2 p _ ha hr2 hf hg2
              rw [hp] at ha; cases ha
              rw [hr] at hr2; cases hr2
              rw [hg] at hg2; cases hg2
              cases hf
              rfl
            · intro _ h; cases h
            · intro a r _ ha hr2 hg2
              rw [hp] at ha; cases ha
              rw [hr] at hr2; cases hr2
              rw [hg] at hg2; cases hg2
            · intro h; simp at h
      · refine ⟨false, s.emit (.sent (start_request env device extra_env argv)),
          by simp [ht], ?_, ?_, ?_, ?_, ?_⟩
        · simp only [Bool.false_eq_true, false_iff]
          rintro ⟨a, r, ha, hr2, ht2⟩
          rw [hp] at ha; cases ha
          rw [hr] at hr2; cases hr2
          exact ht ht2
        · intro _ _ _ _ h; simp at h
        · intro h; simp at h
        · intro _ _ h; simp at h
        · intro _; rfl

/-- Witness for C19 (amended): a start with callback 7 answered by a method
return that carries the pid 4242. -/
theorem start_registers_on_success_witness :
    ((env_runner .pending (some (ex_reply_pid 4242))).new_method_call_ok = true ∧
      ((env_runner .pending (some (ex_reply_pid 4242))).g_shell_parse_argv "true" = none ∨
        (env_runner .pending (some (ex_reply_pid 4242))).open_container_ok = true)) ∧
    (hald_runner_start (env_runner .pending (some (ex_reply_pid 4242))) (some ex_dev_a)
        "true" none (some 7) 11 12 RunnerState.init).returns
      (fun r => r.1 = true ∧ r.2.running_processes =
        [{ pid := 4242, device := some ex_dev_a, cb := some 7, data1 := 11, data2 := 12 }]) ∧
    ∃ ret s', hald_runner_start (env_runner .pending (some (ex_reply_pid 4242)))
        (some ex_dev_a) "true" none (some 7) 11 12 RunnerState.init = .ok (ret, s') ∧
      ret = true ∧
      s'.running_processes =
        { pid := to_GPid 4242, device := some ex_dev_a, cb := some 7, data1 := 11,
          data2 := 12 } :: RunnerState.init.running_processes := by
  refine ⟨⟨rfl, Or.inr rfl⟩, by decide, ?_⟩
  obtain ⟨ret, s', h, hiff, hreg, _⟩ :=
    start_registers_on_success (env_runner .pending (some (ex_reply_pid 4242)))
      (some ex_dev_a) "true" none (some 7) 11 12 RunnerState.init rfl (Or.inr rfl)
  have hret : ret = true := hiff.mpr ⟨["true"], ex_reply_pid 4242, rfl, rfl, rfl⟩
  exact ⟨ret, s', h, hret, hreg ["true"] (ex_reply_pid 4242) 7 4242 hret rfl rfl rfl rfl⟩

/-- C20.  Handling of an exit notification.  On the signal
`StartedProcessExited` with pid `dpid`, every record having a callback: if some
record of `running_processes` has the pid (as a `GPid`), the handler returns
with the first such record removed, the records before and after it unchanged
and in the same order, and one call of that record's callback added to the log
with the record's device, data1 and data2; if no record has the pid, the
handler returns the state unchanged.  A pid in the range of `int` is its own
`GPid`. -/
theorem exit_notification_removes_first_match (message : RunnerMessage) (s : RunnerState)
    (dpid : Int)
    (hsig : dbus_message_is_signal message "org.freedesktop.HalRunner" "StartedProcessExited"
      = true)
    (hargs : get_args_int64 message = some dpid)
    (hcb : ∀ rp ∈ s.running_processes, rp.cb ≠ none) :
    ((∃ x ∈ s.running_processes, x.pid = to_GPid dpid) →
      ∃ pre rp post f, s.running_processes = pre ++ rp :: post ∧
        (∀ x ∈ pre, x.pid ≠ to_GPid dpid) ∧ rp.pid = to_GPid dpid ∧ rp.cb = some f ∧
        runner_server_message_handler message s =
          .ok { s with running_processes := pre ++ post,
                       log := s.log ++ [.callback f rp.device 0 0 none rp.data1 rp.data2] }) ∧
    ((∀ x ∈ s.running_processes, x.pid ≠ to_GPid dpid) →
      runner_server_message_handler message s = .ok s) ∧
    (-(2 ^ 31) ≤ dpid → dpid < 2 ^ 31 → to_GPid dpid = dpid) := by
  refine ⟨?_, ?_, to_GPid_of_range dpid⟩
  · intro hex
    obtain ⟨pre, rp, post, hl, hpre, hrp⟩ := first_with_pid (to_GPid dpid) _ hex
    have hne : rp.cb ≠ none := hcb rp (by rw [hl]; simp)
    obtain ⟨f, hf⟩ := Option.ne_none_iff_exists'.mp hne
    refine ⟨pre, rp, post, f, hl, hpre, hrp, hf, ?_⟩
    unfold runner_server_message_handler
    rw [hsig, hargs, hl]
    simp only [if_true]
    rw [exited_loop_hit (to_GPid dpid) f rp s pre post hpre hrp hf]
    simp [Outcome.bind, RunnerState.emit]
  · intro hno
    unfold runner_server_message_handler
    rw [hsig, hargs]
    simp only [if_true]
    rw [exited_loop_miss (to_GPid dpid) s _ hno]
    simp [Outcome.bind]

/-- Witness for C20: three records, the pid 20 twice; the signal for pid 20
removes the first of the two, and the signal for pid 99 changes nothing. -/
theorem exit_notification_removes_first_match_witness :
    (dbus_message_is_signal (ex_exited 20) "org.freedesktop.HalRunner" "StartedProcessExited"
        = true ∧
      get_args_int64 (ex_exited 20) = some 20 ∧
      (∀ rp ∈ ex_three_running.running_processes, rp.cb ≠ none)) ∧
    runner_server_message_handler (ex_exited 20) ex_three_running =
      .ok { ex_three_running with
        running_processes := [ex_running 10 1, ex_running 20 3],
        log := [.callback 2 (some ex_dev_a) 0 0 none 20 0] } ∧
    (∃ pre rp post f, ex_three_running.running_processes = pre ++ rp :: post ∧
      (∀ x ∈ pre, x.pid ≠ to_GPid 20) ∧ rp.pid = to_GPid 20 ∧ rp.cb = some f ∧
      runner_server_message_handler (ex_exited 20) ex_three_running =
        .ok { ex_three_running with
          running_processes := pre ++ post,
          log := ex_three_running.log ++
            [.callback f rp.device 0 0 none rp.data1 rp.data2] }) ∧
    runner_server_message_handler (ex_exited 99) ex_three_running = .ok ex_three_running :=
  ⟨⟨by decide, rfl, by decide⟩, by decide,
   (exit_notification_removes_first_match (ex_exited 20) ex_three_running 20 (by decide) rfl
      (by decide)).1 ⟨ex_running 20 2, by decide, by decide⟩,
   (exit_notification_removes_first_match (ex_exited 99) ex_three_running 99 (by decide) rfl
      (by decide)).2.1 (by decide)⟩

/-- C21.  Kill drops the bookkeeping.  When the request message can be
allocated, `hald_runner_kill_device (d)` returns, and after it, as after
`runner_device_finalized (d)`, `running_processes` holds exactly the records
whose device pointer is not `d`, in their order, whatever the object held when
a record was made and whatever it holds now; so no record of `d` is left, and
a later message from the runner with a pid that only records of `d` had is
handled with no callback call and no change of the state. -/
theorem kill_drops_bookkeeping (env : RunnerEnv) (d : HalDevice) (s : RunnerState)
    (hnew : env.new_method_call_ok = true) :
    ∃ s', hald_runner_kill_device env d s = .ok s' ∧
      s'.running_processes =
        s.running_processes.filter
          (fun rp => decide (rp.device.map HalDevice.addr ≠ some d.addr)) ∧
      (runner_device_finalized (some d) s).running_processes =
        s.running_processes.filter
          (fun rp => decide (rp.device.map HalDevice.addr ≠ some d.addr)) ∧
      (∀ rp ∈ s'.running_processes, ∀ x, rp.device = some x → x.addr ≠ d.addr) ∧
      (∀ message dpid, get_args_int64 message = some dpid →
        (∀ rp ∈ s.running_processes, rp.pid = to_GPid dpid →
          ∃ x, rp.device = some x ∧ x.addr = d.addr) →
        runner_server_message_handler message s' = .ok s' ∧
        runner_server_message_handler message (runner_device_finalized (some d) s) =
          .ok (runner_device_finalized (some d) s)) := by
  obtain ⟨s', hk, hrp⟩ := kill_device_ok env d s hnew
  rw [remove_device_loop_filter] at hrp
  have hfin : (runner_device_finalized (some d) s).running_processes =
      s.running_processes.filter
        (fun rp => decide (rp.device.map HalDevice.addr ≠ some d.addr)) := by
    simp only [runner_device_finalized, running_processes_remove_device,
      remove_device_loop_filter]
    rfl
  have hgone : ∀ rp ∈ s.running_processes.filter
      (fun rp => decide (rp.device.map HalDevice.addr ≠ some d.addr)),
      rp ∈ s.running_processes ∧ ∀ x, rp.device = some x → x.addr ≠ d.addr := by
    intro rp hmem
    have h := List.mem_filter.mp hmem
    refine ⟨h.1, ?_⟩
    intro x hx heq
    have h2 := h.2
    rw [hx] at h2
    simp [heq] at h2
  have hlater : ∀ (t : RunnerState) (message : RunnerMessage) (dpid : Int),
      t.running_processes = s.running_processes.filter
        (fun rp => decide (rp.device.map HalDevice.addr ≠ some d.addr)) →
      get_args_int64 message = some dpid →
      (∀ rp ∈ s.running_processes, rp.pid = to_GPid dpid →
        ∃ x, rp.device = some x ∧ x.addr = d.addr) →
      runner_server_message_handler message t = .ok t := by
    intro t message dpid ht hargs honly
    apply handler_no_record message t dpid hargs
    intro x hx hpid
    rw [ht] at hx
    obtain ⟨hmem, hne⟩ := hgone x hx
    obtain ⟨y, hy, hyd⟩ := honly x hmem hpid
    exact hne y hy hyd
  refine ⟨s', hk, hrp, hfin, ?_, ?_⟩
  · intro rp hmem
    rw [hrp] at hmem
    exact (hgone rp hmem).2
  · intro message dpid hargs honly
    exact ⟨hlater s' message dpid hrp hargs honly,
      hlater _ message dpid hfin hargs honly⟩

/-- Witness for C21: two records of device a around one of device b; device a
has had a property set since the records were made.  After the kill of device
a the record of b is left and the exit of pid 10 is ignored; and a process
started for device a is forgotten by the kill in the same way. -/
theorem kill_drops_bookkeeping_witness :
    (env_runner .pending none).new_method_call_ok = true ∧
    (hald_runner_kill_device (env_runner .pending none) ex_dev_a_changed
        ex_running_two_devices).returns
      (fun s' => s'.running_processes = [{ ex_running 20 2 with device := some ex_dev_b }] ∧
        runner_server_message_handler (ex_exited 10) s' = .ok s') ∧
    ((hald_runner_start (env_runner .pending (some (ex_reply_pid 4242))) (some ex_dev_a)
        "true" none (some 7) 11 12 RunnerState.init).bind
        (fun r => hald_runner_kill_device (env_runner .pending (some (ex_reply_pid 4242)))
          ex_dev_a_changed r.2)).returns
      (fun s' => s'.running_processes = [] ∧
        runner_server_message_handler (ex_exited 4242) s' = .ok s') ∧
    ∃ s', hald_runner_kill_device (env_runner .pending none) ex_dev_a_changed
        ex_running_two_devices = .ok s' ∧
      s'.running_processes =
        ex_running_two_devices.running_processes.filter
          (fun rp => decide (rp.device.map HalDevice.addr ≠ some ex_dev_a_changed.addr)) ∧
      runner_server_message_handler (ex_exited 10) s' = .ok s' := by
  refine ⟨rfl, by decide, by decide, ?_⟩
  obtain ⟨s', hk, hrp, _, _, hlater⟩ :=
    kill_drops_bookkeeping (env_runner .pending none) ex_dev_a_changed ex_running_two_devices
      rfl
  exact ⟨s', hk, hrp, (hlater (ex_exited 10) 10 rfl (by decide)).1⟩

/-- C22.  The same contract for `hald_runner_run_sync` and the asynchronous
run.  When the request message can be allocated: for a command line that does
not parse both functions have the same outcome, the call of the callback at
the `error` label; for one that parses both hand the connection the same `Run`
request, with input "" and error_on_stderr FALSE; when the send fails in both
they have the same outcome; and when a reply comes, the callback call that
`call_notify` makes for the asynchronous run on that reply, in whatever
state it arrives, is the callback call `hald_runner_run_sync` makes, and it is
at most one call. -/
theorem run_sync_same_contract (k : RunnerConsts) (env : RunnerEnv) (device : Option HalDevice)
    (command_line : String) (extra_env : Option (List String)) (timeout : Nat)
    (cb : Option Nat) (data1 data2 : Nat) (s : RunnerState)
    (hnew : env.new_method_call_ok = true) :
    (env.g_shell_parse_argv command_line = none →
      hald_runner_run_sync k env device command_line extra_env timeout cb data1 data2 s =
        hald_runner_run_method k env device command_line extra_env "" false timeout cb data1
          data2 s) ∧
    (∀ argv, env.g_shell_parse_argv command_line = some argv → env.open_container_ok = true →
      env.send_with_reply (run_request env device extra_env argv "" false timeout) =
        .disconnected →
      env.send_with_reply_and_block (run_request env device extra_env argv "" false timeout) =
        none →
      hald_runner_run_sync k env device command_line extra_env timeout cb data1 data2 s =
        hald_runner_run_method k env device command_line extra_env "" false timeout cb data1
          data2 s) ∧
    (∀ argv reply, env.g_shell_parse_argv command_line = some argv →
      env.open_container_ok = true →
      env.send_with_reply (run_request env device extra_env argv "" false timeout) =
        .pending →
      env.send_with_reply_and_block (run_request env device extra_env argv "" false timeout) =
        some reply →
      ∃ s1 s2,
        hald_runner_run_method k env device command_line extra_env "" false timeout cb data1
          data2 s = .ok s1 ∧
        hald_runner_run_sync k env device command_line extra_env timeout cb data1 data2 s =
          .ok s2 ∧
        sent_messages s1.log =
          sent_messages s.log ++ [run_request env device extra_env argv "" false timeout] ∧
        sent_messages s2.log =
          sent_messages s.log ++ [run_request env device extra_env argv "" false timeout] ∧
        s1.pending_calls = s.pending_calls ++
          [{ d := device, cb := cb, data1 := data1, data2 := data2 }] ∧
        (∀ t, callback_calls
            (call_notify k reply { d := device, cb := cb, data1 := data1, data2 := data2 }
              t).log =
          callback_calls t.log ++
            reply_callback k reply { d := device, cb := cb, data1 := data1, data2 := data2 }) ∧
        callback_calls s1.log = callback_calls s.log ∧
        callback_calls s2.log =
          callback_calls s.log ++
            reply_callback k reply { d := device, cb := cb, data1 := data1, data2 := data2 } ∧
        (reply_callback k reply
          { d := device, cb := cb, data1 := data1, data2 := data2 }).length ≤ 1) := by
  refine ⟨?_, ?_, ?_⟩
  · intro hp
    rw [run_sync_unparsed k env device command_line extra_env timeout cb data1 data2 s hnew hp,
      run_method_unparsed k env device command_line extra_env "" false timeout cb data1 data2 s
        hnew hp]
  · intro argv hp hopen h1 h2
    rw [run_sync_parsed k env device command_line extra_env timeout cb data1 data2 s argv hnew
        hp hopen,
      run_method_parsed k env device command_line extra_env "" false timeout cb data1 data2 s
        argv hnew hp hopen, h1, h2]
  · intro argv reply hp hopen h1 h2
    rw [run_sync_parsed k env device command_line extra_env timeout cb data1 data2 s argv hnew
        hp hopen,
      run_method_parsed k env device command_line extra_env "" false timeout cb data1 data2 s
        argv hnew hp hopen, h1, h2]
    refine ⟨_, _, rfl, rfl, ?_, ?_, ?_, ?_, ?_, ?_, reply_callback_length k reply _⟩
    · cases device <;>
        simp [RunnerState.emit, sent_messages, List.filterMap_append]
    · rw [process_reply_sent]
      simp [RunnerState.emit, sent_messages, List.filterMap_append]
    · cases device <;> simp [RunnerState.emit]
    · intro t
      unfold call_notify
      rw [process_reply_calls]
    · cases device <;>
        simp [RunnerState.emit, callback_calls, List.filter_append]
    · rw [process_reply_calls]
      simp [RunnerState.emit, callback_calls, List.filter_append]

/-- Witness for C22: the command line `true` for device a, answered with
status 0, return code 3 and two error lines. -/
theorem run_sync_same_contract_witness :
    (env_runner .pending (some (ex_reply_status 0))).new_method_call_ok = true ∧
    (hald_runner_run_sync ex_consts (env_runner .pending (some (ex_reply_status 0)))
        (some ex_dev_a) "true" none 30 (some 7) 11 12 RunnerState.init).returns
      (fun s2 => callback_calls s2.log =
        [.callback 7 (some ex_dev_a) 0 3 (some ["line one", "line two"]) 11 12]) ∧
    ((hald_runner_run_method ex_consts (env_runner .pending (some (ex_reply_status 0)))
        (some ex_dev_a) "true" none "" false 30 (some 7) 11 12 RunnerState.init).bind
        (fun s1 => .ok (call_notify ex_consts (ex_reply_status 0) ex_helper s1))).returns
      (fun s1 => callback_calls s1.log =
        [.callback 7 (some ex_dev_a) 0 3 (some ["line one", "line two"]) 11 12]) ∧
    ∃ s1 s2,
      hald_runner_run_method ex_consts (env_runner .pending (some (ex_reply_status 0)))
        (some ex_dev_a) "true" none "" false 30 (some 7) 11 12 RunnerState.init = .ok s1 ∧
      hald_runner_run_sync ex_consts (env_runner .pending (some (ex_reply_status 0)))
        (some ex_dev_a) "true" none 30 (some 7) 11 12 RunnerState.init = .ok s2 ∧
      sent_messages s1.log = sent_messages s2.log := by
  refine ⟨rfl, by decide, by decide, ?_⟩
  obtain ⟨s1, s2, h1, h2, hs1, hs2, _⟩ :=
    (run_sync_same_contract ex_consts (env_runner .pending (some (ex_reply_status 0)))
      (some ex_dev_a) "true" none 30 (some 7) 11 12 RunnerState.init rfl).2.2 ["true"]
      (ex_reply_status 0) rfl rfl rfl rfl
  exact ⟨s1, s2, h1, h2, by rw [hs1, hs2]⟩

/-- C23.  The same `HAL_PROP_` string on both paths.  For every key and
rendered value, `add_property_to_env` stores and `add_property_to_msg` appends
the same string `HAL_PROP_` K `=` value, where K has the length of the key, is
the key with every period replaced by an underscore and every other character
mapped by the ASCII upper-casing, and so holds no period and no lower-case
ASCII letter. -/
theorem hal_prop_same_on_both_paths (device : HalDevice) (callout : Callout)
    (key value : String) (hv : hal_device_property_to_string device key = value) :
    (add_property_to_env callout (key, value)).envp =
        callout.envp ++ ["HAL_PROP_" ++ hal_prop_key key ++ "=" ++ value] ∧
      hal_prop_msg device key = "HAL_PROP_" ++ hal_prop_key key ++ "=" ++ value ∧
      (hal_prop_key key).length = key.length ∧
      (hal_prop_key key).data =
        key.data.map (fun c => if c = '.' then '_' else c.toUpper) ∧
      '.' ∉ (hal_prop_key key).data ∧
      ∀ c ∈ (hal_prop_key key).data, c.isLower = false := by
  refine ⟨rfl, by rw [← hv]; rfl, ?_, hal_prop_key_data key, ?_, ?_⟩
  · cases key with
    | mk l =>
      show (List.map _ (List.map _ l)).length = l.length
      rw [List.length_map, List.length_map]
  · rw [hal_prop_key_data]
    intro hmem
    obtain ⟨c, -, hc⟩ := List.mem_map.mp hmem
    by_cases h : c = '.'
    · rw [if_pos h] at hc
      exact absurd hc (by decide)
    · rw [if_neg h] at hc
      exact h ((toUpper_eq_period c).mp hc)
  · rw [hal_prop_key_data]
    intro x hmem
    obtain ⟨c, -, hc⟩ := List.mem_map.mp hmem
    by_cases h : c = '.'
    · rw [if_pos h] at hc
      subst hc
      decide
    · rw [if_neg h] at hc
      subst hc
      exact toUpper_not_lower c

/-- Witness for C23: the key `info.product_2` of a device. -/
theorem hal_prop_same_on_both_paths_witness :
    hal_device_property_to_string ex_dev_props "info.product_2" = "Mouse" ∧
    (add_property_to_env ex_active ("info.product_2", "Mouse")).envp =
      ex_active.envp ++ ["HAL_PROP_INFO_PRODUCT_2=Mouse"] ∧
    hal_prop_msg ex_dev_props "info.product_2" = "HAL_PROP_INFO_PRODUCT_2=Mouse" := by
  have h := hal_prop_same_on_both_paths ex_dev_props ex_active "info.product_2" "Mouse"
    (by decide)
  have hk : hal_prop_key "info.product_2" = "INFO_PRODUCT_2" := by decide
  rw [hk] at h
  exact ⟨by decide, h.1, h.2.1⟩

/-- C24.  Bounds of the normalised battery levels.  For all values read,
whatever the unit, the values, the voltages and the flags, and with the
products taken as 32-bit `int` values, `device_pm_abstract_props` writes a
rate that is not negative, a last full level that is not negative and a
current level between 0 and the last full level; the rate is 0 when the
battery is neither charging nor discharging, and when the reported rate is
0xffff. -/
theorem charge_levels_bounded (b : BatteryReporting) :
    0 ≤ (device_pm_abstract_props b).rate ∧
    0 ≤ (device_pm_abstract_props b).last_full ∧
    0 ≤ (device_pm_abstract_props b).current ∧
    (device_pm_abstract_props b).current ≤ (device_pm_abstract_props b).last_full ∧
    (b.charging = false → b.discharging = false → (device_pm_abstract_props b).rate = 0) ∧
    (b.reporting_rate = 0xffff → (device_pm_abstract_props b).rate = 0) := by
  have hrate : ∀ x : Int, (if (!b.charging && !b.discharging) = true then (0 : Int)
      else if x < 0 then 0 else x) ≥ 0 := by
    intro x
    split
    · exact le_refl 0
    · split <;> omega
  refine ⟨?_, ?_, ?_, ?_, ?_, charge_rate_ones b⟩
  all_goals simp only [device_pm_abstract_props]
  all_goals generalize (if b.reporting_unit = some "mAh" then _ else _ : Int × Int × Int) = n
  · exact hrate _
  · split_ifs <;> omega
  · split_ifs <;> omega
  · split_ifs <;> omega
  · intro h1 h2
    simp [h1, h2]

/-- C26 (the code departs from the claim).  The changes of device a, of device
b and of device a again leave the pending list z of a, y of b, x of a.  The
pass of the flush for a clears the udi of the node x; the counting loop of the
pass for b, which starts at the node y, then hands that NULL udi to `strcmp`,
so the flush does not complete. -/
theorem flush_reads_cleared_udi :
    (record_changes env_send_ok ex_changes_interleaved
        (device_property_atomic_update_begin DbusState.init)).returns
      (fun st => st.pending_updates_head = ex_pending_interleaved) ∧
    (append_updates ex_dev_a.udi true ex_pending_interleaved [.int32 2]).returns
      (fun r => r.2.tail =
        [{ udi := some ex_dev_b.udi, key := "y", removed := false, added := true },
         { udi := none, key := "x", removed := false, added := true }]) ∧
    count_updates ex_dev_b.udi
        [{ udi := some ex_dev_b.udi, key := "y", removed := false, added := true },
         { udi := none, key := "x", removed := false, added := true }] 0 = .segv ∧
    flush_updates env_send_ok ex_pending_interleaved.length ex_pending_interleaved
        DbusState.init = .segv := by
  decide

/-- C27 (the code departs from the claim).  For device a and a reply that
arrives, `hald_runner_run_sync` takes no reference and `process_reply` releases
one, so the run leaves the reference count of the device one lower; the
asynchronous run, which takes a reference when the request is sent, leaves it
as it was once `call_notify` has processed the same reply. -/
theorem run_sync_drops_a_reference :
    (hald_runner_run_sync ex_consts (env_runner .pending (some (ex_reply_status 0)))
        (some ex_dev_a) "true" none 30 (some 7) 11 12 RunnerState.init).returns
      (fun s => ref_balance ex_dev_a s.log = -1) ∧
    ((hald_runner_run_method ex_consts (env_runner .pending (some (ex_reply_status 0)))
        (some ex_dev_a) "true" none "" false 30 (some 7) 11 12 RunnerState.init).bind
        (fun s1 => .ok (call_notify ex_consts (ex_reply_status 0) ex_helper s1))).returns
      (fun s => ref_balance ex_dev_a s.log = 0) := by
  decide

/-- C28 (the code departs from the claim).  With a NULL callback, a command
line that does not parse makes `hald_runner_run_method` and
`hald_runner_run_sync` call through the NULL pointer at the `error` label, and
so does a send that leaves no pending call or brings no reply; `process_reply`,
which tests the callback, makes no call for the same call data. -/
theorem null_callback_called_on_error :
    hald_runner_run_method ex_consts (env_runner .pending none) (some ex_dev_a) "" none ""
        false 30 none 11 12 RunnerState.init = .segv ∧
    hald_runner_run_sync ex_consts (env_runner .pending none) (some ex_dev_a) "" none 30
        none 11 12 RunnerState.init = .segv ∧
    hald_runner_run_method ex_consts (env_runner .disconnected none) (some ex_dev_a) "true"
        none "" false 30 none 11 12 RunnerState.init = .segv ∧
    hald_runner_run_sync ex_consts (env_runner .disconnected none) (some ex_dev_a) "true"
        none 30 none 11 12 RunnerState.init = .segv ∧
    callback_calls
        (process_reply ex_consts ex_reply_error { ex_helper with cb := none }
          RunnerState.init).log = [] := by
  decide

/-- C29.  The retry loop of `process_next_callout` terminates.  Every pass
through the label `next_callout` that jumps back has removed one callout from
the pending queue and made one spawn attempt; so for every queue and every
pattern of spawn failures the loop returns within one pass more than there are
pending callouts, having made at most as many spawn attempts as callouts were
pending, one for each callout it removed; and `process_next_callout` ends in
`DIE` at the installation of the handler or returns with that bound. -/
theorem process_next_callout_terminates (env : CalloutEnv) (s : CalloutState) :
    (∀ t t', next_callout_pass env t = .again t' →
      t'.pending_callouts.length + 1 = t.pending_callouts.length ∧
        t'.spawn_count = t.spawn_count + 1) ∧
    (∃ s', next_callout_passes env (s.pending_callouts.length + 1) s = some s' ∧
      next_callout env (s.pending_callouts.length + 1) s = s' ∧
      s'.spawn_count ≤ s.spawn_count + s.pending_callouts.length ∧
      s'.spawn_count + s'.pending_callouts.length ≤
        s.spawn_count + s.pending_callouts.length) ∧
    (process_next_callout env s = .die ∨
      ∃ s', process_next_callout env s = .ok s' ∧
        s'.spawn_count ≤ s.spawn_count + s.pending_callouts.length) := by
  have key : ∀ u : CalloutState,
      ∃ s', next_callout_passes env (u.pending_callouts.length + 1) u = some s' ∧
        next_callout env (u.pending_callouts.length + 1) u = s' ∧
        s'.spawn_count ≤ u.spawn_count + u.pending_callouts.length ∧
        s'.spawn_count + s'.pending_callouts.length ≤
          u.spawn_count + u.pending_callouts.length := by
    intro u
    obtain ⟨s', h1, h2⟩ := next_callout_passes_return env _ u (Nat.lt_succ_self _)
    exact ⟨s', h1, next_callout_of_passes env _ u s' h1, by omega, h2⟩
  refine ⟨fun t t' h => ⟨(next_callout_pass_again env t t' h).1,
    (next_callout_pass_again env t t' h).2.1⟩, key s, ?_⟩
  unfold process_next_callout
  cases hi : install_sigchild_handler env s with
  | die => left; rfl
  | segv =>
    exfalso
    unfold install_sigchild_handler at hi
    split at hi
    · cases hi
    · split at hi
      · cases hi
      · split at hi <;> cases hi
  | ok s1 =>
    right
    have hs1 : s1.pending_callouts = s.pending_callouts ∧ s1.spawn_count = s.spawn_count := by
      unfold install_sigchild_handler at hi
      split at hi
      · cases hi; exact ⟨rfl, rfl⟩
      · split at hi
        · cases hi
        · split at hi
          · cases hi
          · cases hi; exact ⟨rfl, rfl⟩
    obtain ⟨s', _, h2, h3, _⟩ := key s1
    refine ⟨s', by simp [Outcome.bind, h2], ?_⟩
    rw [hs1.1, hs1.2] at h3
    exact h3

/-- C30.  The entry at an offset.  For every partition table whose depth of
nesting the bound covers, and so for every table whose nested tables form a
finite tree, and for every offset, `part_table_find` returns, and a larger
bound returns the same; it leaves entry -1, or a table and an entry of it whose
extent holds the offset: the offset is at least the entry's offset and less
than the entry's offset plus its size, as numbers, the 64-bit sum not having
wrapped.  An entry with a nested table is left only when the offset is that
entry's offset; when the offset lies past the start of the first entry that
holds it and that entry has a nested table, the result is that of the search
in the nested table. -/
theorem part_table_find_in_extent (fuel : Nat) (p : PartitionTable) (offset : Nat)
    (h : p.depth ≤ fuel) :
    (∃ T e, part_table_find fuel p offset = some (T, e) ∧
      part_table_find p.depth p offset = some (T, e) ∧
      (e = -1 ∨
        ∃ n : Nat, e = (n : Int) ∧ n < part_table_get_num_entries T ∧
          part_table_entry_get_offset (some T) n ≤ offset ∧
          offset < part_table_entry_get_offset (some T) n +
            part_table_entry_get_size (some T) n ∧
          (∀ t, part_table_entry_get_nested (some T) n = some t →
            offset = part_table_entry_get_offset (some T) n))) ∧
    (∀ n t, (∀ m, m < n → ¬ entry_holds p m offset) → entry_holds p n offset →
      part_table_entry_get_nested (some p) n = some t →
      (offset > part_table_entry_get_offset (some p) n →
        part_table_find (fuel + 1) p offset = part_table_find fuel t offset) ∧
      (offset = part_table_entry_get_offset (some p) n →
        part_table_find (fuel + 1) p offset = some (p, (n : Int)))) := by
  constructor
  · obtain ⟨r, hr, hgood⟩ := part_table_find_found fuel p offset h
    refine ⟨r.1, r.2, hr, ?_, hgood⟩
    rw [← part_table_find_fuel fuel p offset h]
    exact hr
  · intro n t hbefore hh ht
    have hfirst := find_entries_first (fun q => part_table_find fuel q offset) p offset n
      hbefore hh
    rw [ht] at hfirst
    simp only at hfirst
    have hstep : part_table_find (fuel + 1) p offset =
        find_entries (fun q => part_table_find fuel q offset) p offset
          (part_table_get_num_entries p) 0 := rfl
    constructor
    · intro hgt
      rw [hstep, hfirst, if_pos hgt]
    · intro heq
      rw [hstep, hfirst, if_neg (by omega)]

/-- Witness for C30: the sector 2100 of a disk with a primary partition and an
extended partition that holds one logical partition. -/
theorem part_table_find_in_extent_witness :
    ex_mbr.depth ≤ 2 ∧
    (part_table_find 2 ex_mbr (2100 * 0x200)).map (fun r => (r.1.scheme, r.2)) =
      some (.PART_TYPE_MSDOS_EXTENDED, 0) ∧
    (∃ T e, part_table_find 2 ex_mbr (2100 * 0x200) = some (T, e) ∧
      part_table_find ex_mbr.depth ex_mbr (2100 * 0x200) = some (T, e) ∧
      (e = -1 ∨
        ∃ n : Nat, e = (n : Int) ∧ n < part_table_get_num_entries T ∧
          part_table_entry_get_offset (some T) n ≤ 2100 * 0x200 ∧
          2100 * 0x200 < part_table_entry_get_offset (some T) n +
            part_table_entry_get_size (some T) n ∧
          (∀ t, part_table_entry_get_nested (some T) n = some t →
            2100 * 0x200 = part_table_entry_get_offset (some T) n))) :=
  ⟨by decide, by decide, (part_table_find_in_extent 2 ex_mbr (2100 * 0x200) (by decide)).1⟩

end Hal
